import Mathlib

/-!
# SM2 cooperative signing server: model and properties

A shallow embedding of the server half of the two-party SM2 protocol
(`internal/crypto/sm2_coop.go`), of the session gate
(`internal/middleware/auth.go`, `internal/model/session.go`,
`internal/service/user_service.go`) and of the cooperative services and
handlers (`internal/service/cosign_service.go`, `internal/handler/cosign.go`).

Conventions.
* A byte is a `Fin 256`, a byte slice a `List Byte`, a `*big.Int` that is not
  nil a natural number.
* What the Go code takes from the outside world is an explicit argument: the
  values `rand.Int` returns, the clock, the identifiers `uuid.New` returns and
  whether a statement sent to the database fails.
* The elliptic curve of `github.com/emmansun/gmsm/sm2` is not part of the
  repository. The protocol code is written over a `Curve` argument (the three
  methods of `elliptic.Curve` it calls and the order `N`); `refCurve` is an
  executable reference implementation over given curve constants, `sm2P256`
  its instance at the constants of the SM2 recommended curve, `toyCurve` its
  instance at a curve with seven points, on which the contract `CurveLaws`
  is proved.
-/

namespace SM2Cosign

/-! ## Bytes and big integers -/

abbrev Byte := Fin 256

/-- Evaluation-order marker: `forceNat x f` is `f x`, with `x` brought to a
numeral before `f` runs. -/
def forceNat {α : Type} (x : Nat) (f : Nat → α) : α :=
  match x with
  | 0 => f 0
  | n + 1 => f (n + 1)

/-- The method `(*big.Int).SetBytes`: the big-endian value of a byte slice. -/
def SetBytes (bs : List Byte) : Nat :=
  bs.foldl (fun acc b => acc * 256 + b.val) 0

/-- Worker of `Bytes`: peels base-256 digits off `n`, least significant first,
and conses them on `acc`. -/
def bytesAux : Nat → Nat → List Byte → List Byte
  | 0, _, acc => acc
  | fuel + 1, n, acc =>
    if n = 0 then acc
    else bytesAux fuel (n / 256) (⟨n % 256, Nat.mod_lt n (by decide)⟩ :: acc)

/-- The method `(*big.Int).Bytes`: the big-endian bytes of the absolute value,
without leading zeros (the empty slice for 0). -/
def Bytes (n : Nat) : List Byte := bytesAux n n []

/-- The built-in `make([]byte, n)`: `n` zero bytes. -/
def make (n : Nat) : List Byte := List.replicate n 0

/-- The built-in `copy(buf[lo:hi], src)`: writes the first
`min (hi - lo) (len src)` bytes of `src` into `buf` from index `lo` on. -/
def copy (buf : List Byte) (lo hi : Nat) (src : List Byte) : List Byte :=
  let n := min (hi - lo) src.length
  buf.take lo ++ src.take n ++ buf.drop (lo + n)

/-- The slice expression `b[lo:hi]`. -/
def slice (b : List Byte) (lo hi : Nat) : List Byte := (b.take hi).drop lo

/-- Loop of the extended Euclidean algorithm on the remainders `r0, r1` with
the cofactors `t0, t1` kept reduced modulo `n`. -/
def invLoop : Nat → Nat → Nat → Nat → Nat → Nat → Option Nat
  | 0, _, r0, _, t0, _ => if r0 = 1 then some t0 else none
  | fuel + 1, n, r0, r1, t0, t1 =>
    if r1 = 0 then (if r0 = 1 then some t0 else none)
    else
      forceNat (r0 / r1) fun q =>
      forceNat (r0 % r1) fun r2 =>
      forceNat ((t0 + (n - (q * t1) % n)) % n) fun t2 =>
      invLoop fuel n r1 r2 t1 t2

/-- The method `(*big.Int).ModInverse(g, n)` for `g ≥ 0`, `n > 0`: the inverse
of `g` in ℤ/nℤ, in the range `0 ≤ z < n`; `none` stands for the nil pointer it
returns when `g` and `n` are not relatively prime. -/
def ModInverse (g n : Nat) : Option Nat := invLoop (g + 1) n n (g % n) 0 (1 % n)

/-! ## The curve library -/

/-- The part of the interface `elliptic.Curve` the protocol code calls, on the
curve `sm2.P256()`: the order `Params().N` and three methods on affine
coordinates. A call that panics returns `none`. -/
structure Curve where
  N : Nat
  ScalarBaseMult : List Byte → Option (Nat × Nat)
  ScalarMult : Nat → Nat → List Byte → Option (Nat × Nat)
  Add : Nat → Nat → Nat → Nat → Option (Nat × Nat)

/-- Constants of a short Weierstrass curve `y² = x³ + A·x + B` over the field
of `P` elements, with base point `(Gx, Gy)` of order `N`. -/
structure CurveParams where
  P : Nat
  A : Nat
  B : Nat
  Gx : Nat
  Gy : Nat
  N : Nat

/-- A point in Jacobian coordinates: `(X / Z², Y / Z³)`, the point at infinity
when `Z = 0`. -/
structure Jac where
  X : Nat
  Y : Nat
  Z : Nat
deriving DecidableEq

/-- The method `IsOnCurve`: both coordinates are reduced and satisfy the curve
equation. -/
def IsOnCurve (cp : CurveParams) (x y : Nat) : Bool :=
  decide (x < cp.P) && decide (y < cp.P) &&
    decide ((y * y) % cp.P = (x * x * x + cp.A * x + cp.B) % cp.P)

/-- Reading of an affine pair by the library: `(0, 0)` is the point at
infinity, any other pair must be on the curve (`none`: the caller panics). -/
def pointFromAffine (cp : CurveParams) (x y : Nat) : Option Jac :=
  if x = 0 ∧ y = 0 then some ⟨1, 1, 0⟩
  else if IsOnCurve cp x y then some ⟨x, y, 1⟩
  else none

/-- Doubling in Jacobian coordinates. -/
def jdouble (cp : CurveParams) (t : Jac) : Jac :=
  if t.Z = 0 ∨ t.Y = 0 then ⟨1, 1, 0⟩
  else
    forceNat ((t.Y * t.Y) % cp.P) fun yy =>
    forceNat ((4 * t.X * yy) % cp.P) fun s =>
    forceNat ((t.Z * t.Z) % cp.P) fun zz =>
    forceNat ((3 * t.X * t.X + cp.A * (zz * zz % cp.P)) % cp.P) fun m =>
    forceNat ((m * m + 2 * (cp.P - s)) % cp.P) fun x3 =>
    forceNat ((m * (s + (cp.P - x3)) + 8 * (cp.P - (yy * yy) % cp.P)) % cp.P) fun y3 =>
    forceNat ((2 * t.Y * t.Z) % cp.P) fun z3 => ⟨x3, y3, z3⟩

/-- Addition of the affine point `(x2, y2)`, which is not the point at
infinity, to a Jacobian point. -/
def jaddMixed (cp : CurveParams) (t : Jac) (x2 y2 : Nat) : Jac :=
  if t.Z = 0 then ⟨x2, y2, 1⟩
  else
    forceNat ((t.Z * t.Z) % cp.P) fun zz =>
    forceNat ((x2 * zz + (cp.P - t.X)) % cp.P) fun h =>
    forceNat ((y2 * (zz * t.Z % cp.P) + (cp.P - t.Y)) % cp.P) fun r =>
    if h = 0 then (if r = 0 then jdouble cp t else ⟨1, 1, 0⟩)
    else
      forceNat ((h * h) % cp.P) fun hh =>
      forceNat ((h * hh) % cp.P) fun hhh =>
      forceNat ((t.X * hh) % cp.P) fun v =>
      forceNat ((r * r + (cp.P - hhh) + 2 * (cp.P - v)) % cp.P) fun x3 =>
      forceNat ((r * (v + (cp.P - x3)) + (cp.P - (t.Y * hhh) % cp.P)) % cp.P) fun y3 =>
      forceNat ((t.Z * h) % cp.P) fun z3 => ⟨x3, y3, z3⟩

/-- Double-and-add over the bits `i - 1, …, 0` of `k`, most significant first,
with base point `(x, y)`. -/
def jloop (cp : CurveParams) (k x y : Nat) : Nat → Jac → Jac
  | 0, acc => acc
  | i + 1, acc =>
    match jdouble cp acc with
    | ⟨X, Y, Z⟩ =>
      if Nat.testBit k i then
        match jaddMixed cp ⟨X, Y, Z⟩ x y with
        | ⟨X2, Y2, Z2⟩ => jloop cp k x y i ⟨X2, Y2, Z2⟩
      else jloop cp k x y i ⟨X, Y, Z⟩

/-- Back to affine coordinates; `(0, 0)` for the point at infinity. -/
def toAffine (cp : CurveParams) (t : Jac) : Nat × Nat :=
  match ModInverse t.Z cp.P with
  | none => (0, 0)
  | some zi =>
    forceNat ((zi * zi) % cp.P) fun zz =>
    forceNat ((t.X * zz) % cp.P) fun x =>
    forceNat ((t.Y * (zz * zi % cp.P)) % cp.P) fun y => (x, y)

/-- Reference `ScalarMult`: the multiple of `(x, y)` by the big-endian value
of `k`. -/
def refScalarMult (cp : CurveParams) (x y : Nat) (k : List Byte) : Option (Nat × Nat) :=
  match pointFromAffine cp x y with
  | none => none
  | some t =>
    if t.Z = 0 then some (0, 0)
    else forceNat (SetBytes k) fun kv =>
      some (toAffine cp (jloop cp kv x y (8 * k.length) ⟨1, 1, 0⟩))

/-- Reference `Add`. -/
def refAdd (cp : CurveParams) (x1 y1 x2 y2 : Nat) : Option (Nat × Nat) :=
  match pointFromAffine cp x1 y1, pointFromAffine cp x2 y2 with
  | some t1, some t2 =>
    if t2.Z = 0 then some (toAffine cp t1)
    else some (toAffine cp (jaddMixed cp t1 x2 y2))
  | _, _ => none

/-- Reference implementation of the curve library over given constants. -/
def refCurve (cp : CurveParams) : Curve where
  N := cp.N
  ScalarBaseMult := fun k => refScalarMult cp cp.Gx cp.Gy k
  ScalarMult := fun x y k => refScalarMult cp x y k
  Add := fun x1 y1 x2 y2 => refAdd cp x1 y1 x2 y2

/-- Constants of the SM2 recommended curve (GB/T 32918.5). -/
def sm2Params : CurveParams where
  P := 0xFFFFFFFEFFFFFFFFFFFFFFFFFFFFFFFFFFFFFFFF00000000FFFFFFFFFFFFFFFF
  A := 0xFFFFFFFEFFFFFFFFFFFFFFFFFFFFFFFFFFFFFFFF00000000FFFFFFFFFFFFFFFC
  B := 0x28E9FA9E9D9F5E344D5A9E4BCF6509A7F39789F515AB8F92DDBCBD414D940E93
  Gx := 0x32C4AE2C1F1981195F9904466A39C9948FE30BBFF2660BE1715A4589334C74C7
  Gy := 0xBC3736A2F4F6779C59BDCEE36B692153D0A9877CC62A474002DF32E52139F0A0
  N := 0xFFFFFFFEFFFFFFFFFFFFFFFFFFFFFFFF7203DF6B21C6052B53BBF40939D54123

/-- The curve `sm2.P256()`. -/
def sm2P256 : Curve := refCurve sm2Params

/-- A curve with seven points, `y² = x³ + 2·x + 1` over the field of 5
elements, with base point `(1, 3)`. -/
def toyParams : CurveParams where
  P := 5
  A := 2
  B := 1
  Gx := 1
  Gy := 3
  N := 7

/-- The toy curve behind the reference implementation. -/
def toyCurve : Curve := refCurve toyParams

/-! ## The protocol engine (`internal/crypto/sm2_coop.go`) -/

/-- The error values of package `crypto`. -/
inductive CryptoError where
  | ErrInvalidP1
  | ErrInvalidQ1
  | ErrInvalidE
  | ErrInvalidT1
  | ErrKeyGenFailed
  | ErrSignFailed
  | ErrDecryptFailed
deriving DecidableEq, Repr

/-- How a call of a Go function ends: it returns a value with a nil error, it
returns an error, or it panics. -/
inductive Outcome (α : Type) where
  | ok (v : α)
  | error (e : CryptoError)
  | crash
deriving DecidableEq, Repr

structure SM2CoopKeyGenResult where
  D2 : List Byte
  D2Inv : List Byte
  P2 : List Byte
  Pa : List Byte
deriving DecidableEq, Repr

structure SM2CoopSignResult where
  R : List Byte
  S2 : List Byte
  S3 : List Byte
deriving DecidableEq, Repr

/-- The function `CoopKeyGenInit`. `rnd` is what `rand.Int(rand.Reader, N)`
returns: `none` for an error, `some d2` for the drawn integer. The nil
`d2Inv` of a `d2` without inverse is dereferenced by `d2Inv.Bytes()`. -/
def CoopKeyGenInit (C : Curve) (rnd : Option Nat) (p1 : List Byte) :
    Outcome SM2CoopKeyGenResult :=
  if p1.length ≠ 64 then .error .ErrInvalidP1
  else
    let p1X := SetBytes (slice p1 0 32)
    let p1Y := SetBytes (slice p1 32 64)
    match rnd with
    | none => .error .ErrKeyGenFailed
    | some d2 =>
      match ModInverse d2 C.N with
      | none => .crash
      | some d2Inv =>
        match C.ScalarBaseMult (Bytes d2Inv) with
        | none => .crash
        | some (p2X, p2Y) =>
          let p2 := make 64
          let p2 := copy p2 0 32 (Bytes p2X)
          let p2 := copy p2 32 64 (Bytes p2Y)
          match C.ScalarMult p1X p1Y (Bytes d2Inv) with
          | none => .crash
          | some (paX, paY) =>
            let minusOne := C.N - 1
            match C.ScalarBaseMult (Bytes minusOne) with
            | none => .crash
            | some (gX, gY) =>
              match C.Add paX paY gX gY with
              | none => .crash
              | some (paX, paY) =>
                let pa := make 64
                let pa := copy pa 0 32 (Bytes paX)
                let pa := copy pa 32 64 (Bytes paY)
                .ok { D2 := Bytes d2, D2Inv := Bytes d2Inv, P2 := p2, Pa := pa }

/-- The function `CoopSign`. `rk2` and `rk3` are what the two calls of
`rand.Int(rand.Reader, N)` return, in that order. -/
def CoopSign (C : Curve) (rk2 rk3 : Option Nat) (d2Inv q1 e : List Byte) :
    Outcome SM2CoopSignResult :=
  if q1.length ≠ 64 then .error .ErrInvalidQ1
  else if e.length ≠ 32 then .error .ErrInvalidE
  else
    let q1X := SetBytes (slice q1 0 32)
    let q1Y := SetBytes (slice q1 32 64)
    match rk2 with
    | none => .error .ErrSignFailed
    | some k2 =>
      match rk3 with
      | none => .error .ErrSignFailed
      | some k3 =>
        match C.ScalarBaseMult (Bytes k2) with
        | none => .crash
        | some (q2X, q2Y) =>
          match C.ScalarMult q1X q1Y (Bytes k3) with
          | none => .crash
          | some (x1X, x1Y) =>
            match C.Add x1X x1Y q2X q2Y with
            | none => .crash
            | some (x1X, _) =>
              let r := (SetBytes e + x1X) % C.N
              let d2InvBig := SetBytes d2Inv
              let s2 := (d2InvBig * k3) % C.N
              let rPlusK2 := r + k2
              let s3 := (d2InvBig * rPlusK2) % C.N
              .ok { R := Bytes r, S2 := Bytes s2, S3 := Bytes s3 }

/-- The function `CoopDecrypt`. -/
def CoopDecrypt (C : Curve) (d2Inv t1 : List Byte) : Outcome (List Byte) :=
  if t1.length ≠ 64 then .error .ErrInvalidT1
  else
    let t1X := SetBytes (slice t1 0 32)
    let t1Y := SetBytes (slice t1 32 64)
    match C.ScalarMult t1X t1Y d2Inv with
    | none => .crash
    | some (t2X, t2Y) =>
      let t2 := make 64
      let t2 := copy t2 0 32 (Bytes t2X)
      let t2 := copy t2 32 64 (Bytes t2Y)
      .ok t2

/-- The encoding of a point of section 4.1 of the specification: `X‖Y`, each
coordinate big-endian and padded with zeros on the left to 32 bytes. -/
def encodePoint (x y : Nat) : List Byte :=
  (make (32 - (Bytes x).length) ++ Bytes x) ++ (make (32 - (Bytes y).length) ++ Bytes y)

/-- Splitting of 64 bytes into the two big-endian coordinates, as the three
protocol functions read their input point. -/
def decodePoint (b : List Byte) : Nat × Nat :=
  (SetBytes (slice b 0 32), SetBytes (slice b 32 64))

/-! ## Contract of the curve library -/

/-- An interpretation of the affine pairs the library handles: the base point
in a group of points and the affine pair that stands for each point. -/
structure PointModel (Pt : Type) where
  G : Pt
  affine : Pt → Nat × Nat

/-- What the protocol code relies on from the curve library: the points are a
group in which every point is killed by the prime order `N`, the point at
infinity is the pair `(0, 0)`, coordinates fit in 32 bytes, and the three
methods compute scalar multiples and sums of the points their arguments stand
for, scalars being read big-endian. -/
structure CurveLaws {Pt : Type} [AddCommGroup Pt] (C : Curve) (M : PointModel Pt) : Prop where
  prime_N : Nat.Prime C.N
  order_N : ∀ Q : Pt, C.N • Q = 0
  G_ne_zero : M.G ≠ 0
  affine_inj : Function.Injective M.affine
  affine_zero : M.affine 0 = (0, 0)
  affine_lt : ∀ Q : Pt, (M.affine Q).1 < 256 ^ 32 ∧ (M.affine Q).2 < 256 ^ 32
  base_eq : ∀ k : List Byte, C.ScalarBaseMult k = some (M.affine (SetBytes k • M.G))
  mult_eq : ∀ (Q : Pt) (k : List Byte),
    C.ScalarMult (M.affine Q).1 (M.affine Q).2 k = some (M.affine (SetBytes k • Q))
  add_eq : ∀ Q R : Pt,
    C.Add (M.affine Q).1 (M.affine Q).2 (M.affine R).1 (M.affine R).2 = some (M.affine (Q + R))

/-- The seven points of the toy curve: the multiples `0·G, …, 6·G` of the base
point `G = (1, 3)`. -/
def toyAffine (g : ZMod 7) : Nat × Nat :=
  match g.val with
  | 0 => (0, 0)
  | 1 => (1, 3)
  | 2 => (3, 2)
  | 3 => (0, 4)
  | 4 => (0, 1)
  | 5 => (3, 3)
  | _ => (1, 2)

/-- The points of the toy curve as the integers modulo 7. -/
def toyModel : PointModel (ZMod 7) where
  G := 1
  affine := toyAffine

/-- The point of the toy curve an affine pair other than `(0, 0)` stands for. -/
def toyIndex (a : Nat × Nat) : Option (ZMod 7) :=
  if a = (1, 3) then some 1
  else if a = (3, 2) then some 2
  else if a = (0, 4) then some 3
  else if a = (0, 1) then some 4
  else if a = (3, 3) then some 5
  else if a = (1, 2) then some 6
  else none

/-- The point of the toy curve a Jacobian triple stands for. -/
def toyPt (t : Jac) : Option (ZMod 7) :=
  if t.Z = 0 then some 0 else toyIndex (toAffine toyParams t)

/-- The components of a Jacobian triple are reduced modulo 5. -/
def toyOk (t : Jac) : Prop := t.X < 5 ∧ t.Y < 5 ∧ t.Z < 5

/-! ## The client half and verification, as the specification states them -/

/-- The 64 bytes `CoopKeyGenInit` and `CoopDecrypt` build from the coordinates
of a point: `make([]byte, 64)`, then the two `copy` calls. -/
def putPoint (a : Nat × Nat) : List Byte :=
  copy (copy (make 64) 0 32 (Bytes a.1)) 32 64 (Bytes a.2)

/-- The client's completion of a signature (section 4.2.2):
`s = (d1·(k1·s2 + s3) − r) mod n`, for `r < n`. -/
def clientS (n d1 k1 r s2 s3 : Nat) : Nat :=
  (d1 * (k1 * s2 + s3) + (n - r)) % n

/-- SM2 signature verification of `(r, s)` on the digest `e` under the public
key with affine coordinates `pa` (GB/T 32918.2, section 7.1): `r` and `s` lie
in `[1, n-1]`, `t = (r + s) mod n` is not 0, and the x-coordinate `x'` of
`s·G + t·Pa` satisfies `(e + x') mod n = r`. `none` when the library panics. -/
def sm2Verify (C : Curve) (e : List Byte) (pa : Nat × Nat) (r s : Nat) : Option Bool :=
  if r = 0 ∨ C.N ≤ r ∨ s = 0 ∨ C.N ≤ s then some false
  else
    let t := (r + s) % C.N
    if t = 0 then some false
    else
      match C.ScalarBaseMult (Bytes s), C.ScalarMult pa.1 pa.2 (Bytes t) with
      | some (x0, y0), some (x1, y1) =>
        match C.Add x0 y0 x1 y1 with
        | some (x, _) => some (decide ((SetBytes e + x) % C.N = r))
        | none => none
      | _, _ => none

/-! ## Encodings of the standard library -/

/-- The alphabet of `base64.StdEncoding`. -/
def b64Alphabet : List Char :=
  "ABCDEFGHIJKLMNOPQRSTUVWXYZabcdefghijklmnopqrstuvwxyz0123456789+/".toList

/-- The character of a 6-bit value. -/
def b64Char (i : Nat) : Char := b64Alphabet.getD i 'A'

/-- Position of `c` in `l`, counted from `i`. -/
def indexFrom (c : Char) : List Char → Nat → Option Nat
  | [], _ => none
  | x :: xs, i => if x = c then some i else indexFrom c xs (i + 1)

/-- The 6-bit value of a character of the alphabet. -/
def b64Index (c : Char) : Option Nat := indexFrom c b64Alphabet 0

/-- The byte with the value `v mod 256`. -/
def toByte (v : Nat) : Byte := ⟨v % 256, Nat.mod_lt v (by decide)⟩

/-- Encoding of a byte sequence, three bytes to four characters, padded with
`=`. -/
def encodeChunks : List Byte → List Char
  | [] => []
  | [a] => [b64Char (a.val / 4), b64Char (a.val % 4 * 16), '=', '=']
  | [a, b] =>
    [b64Char (a.val / 4), b64Char (a.val % 4 * 16 + b.val / 16), b64Char (b.val % 16 * 4), '=']
  | a :: b :: c :: rest =>
    b64Char (a.val / 4) :: b64Char (a.val % 4 * 16 + b.val / 16)
      :: b64Char (b.val % 16 * 4 + c.val / 64) :: b64Char (c.val % 64) :: encodeChunks rest

/-- Decoding of a character sequence without line breaks, four characters to
three bytes; padding is accepted in the last group only, and trailing bits are
not checked (the encoding is not in strict mode). -/
def decodeChunks : List Char → Option (List Byte)
  | [] => some []
  | c1 :: c2 :: c3 :: c4 :: rest =>
    if c4 = '=' then
      if rest ≠ [] then none
      else if c3 = '=' then
        match b64Index c1, b64Index c2 with
        | some v1, some v2 => some [toByte (v1 * 4 + v2 / 16)]
        | _, _ => none
      else
        match b64Index c1, b64Index c2, b64Index c3 with
        | some v1, some v2, some v3 =>
          some [toByte (v1 * 4 + v2 / 16), toByte (v2 % 16 * 16 + v3 / 4)]
        | _, _, _ => none
    else
      match b64Index c1, b64Index c2, b64Index c3, b64Index c4, decodeChunks rest with
      | some v1, some v2, some v3, some v4, some bs =>
        some (toByte (v1 * 4 + v2 / 16) :: toByte (v2 % 16 * 16 + v3 / 4)
          :: toByte (v3 % 4 * 64 + v4) :: bs)
      | _, _, _, _, _ => none
  | _ => none

/-- The function `EncodeToBase64`: `base64.StdEncoding.EncodeToString`. -/
def EncodeToBase64 (data : List Byte) : String := String.mk (encodeChunks data)

/-- The function `DecodeFromBase64`: `base64.StdEncoding.DecodeString`, which
skips carriage returns and line feeds; `none` for a non-nil error. -/
def DecodeFromBase64 (data : String) : Option (List Byte) :=
  decodeChunks (data.toList.filter (fun c => c ≠ '\r' ∧ c ≠ '\n'))

/-- A hexadecimal digit, lower case. -/
def hexDigit (v : Nat) : Char := "0123456789abcdef".toList.getD v '0'

/-- The function `hex.EncodeToString`. -/
def hexEncode (bs : List Byte) : String :=
  String.mk (bs.flatMap fun b => [hexDigit (b.val / 16), hexDigit (b.val % 16)])

/-- The UTF-8 bytes of a character. -/
def utf8Char (c : Char) : List Byte :=
  let v := c.toNat
  if v ≤ 0x7f then [toByte v]
  else if v ≤ 0x7ff then [toByte (0xc0 + v / 64), toByte (0x80 + v % 64)]
  else if v ≤ 0xffff then
    [toByte (0xe0 + v / 4096), toByte (0x80 + v / 64 % 64), toByte (0x80 + v % 64)]
  else
    [toByte (0xf0 + v / 262144), toByte (0x80 + v / 4096 % 64), toByte (0x80 + v / 64 % 64),
      toByte (0x80 + v % 64)]

/-- The conversion `[]byte(s)` of a string. -/
def stringBytes (s : String) : List Byte := s.toList.flatMap utf8Char

/-! ## Response codes (`pkg/response/response.go`) -/

/-- The type `response.Code`. -/
abbrev Code := Int

def CodeSuccess : Code := 0
def CodeInvalidParam : Code := 10001
def CodeUserExists : Code := 10002
def CodeUserNotFound : Code := 10003
def CodePasswordError : Code := 10004
def CodeTokenInvalid : Code := 10005
def CodeTokenExpired : Code := 10006
def CodeUserDisabled : Code := 10007
def CodeKeyNotFound : Code := 10008
def CodeCryptoError : Code := 10009
def CodeDBError : Code := 10010
def CodeInternalError : Code := 10011
def CodeUnauthorized : Code := 10012
def CodeForbidden : Code := 10013

/-- The body `response.Success` and `response.Error` write: the code and the
data (the message is a function of the code). -/
structure Response (α : Type) where
  Code : Code
  Data : Option α
deriving DecidableEq, Repr

/-- The function `response.Success`. -/
def Success {α : Type} (data : α) : Response α := { Code := CodeSuccess, Data := some data }

/-- The function `response.Error`. -/
def Error {α : Type} (code : Code) : Response α := { Code := code, Data := none }

/-! ## Records (`internal/model`) and the store (`internal/repository`)

The `created_at` and `updated_at` columns, which the database fills in and no
modelled operation reads, are left out. -/

structure User where
  ID : String
  Username : String
  PasswordHash : String
  PublicKey : String
  Status : Int
deriving DecidableEq, Repr

def UserStatusDisabled : Int := 0
def UserStatusEnabled : Int := 1

/-- The method `(*User).IsEnabled`. -/
def User.IsEnabled (u : User) : Bool := u.Status = UserStatusEnabled

structure Key where
  ID : String
  UserID : String
  D2 : String
  D2Inv : String
  PublicKey : String
  HMACKey : String
  Status : Int
deriving DecidableEq, Repr

def KeyStatusDisabled : Int := 0
def KeyStatusEnabled : Int := 1

/-- A session; `ExpiresAt` is an instant, in nanoseconds. -/
structure Session where
  ID : String
  UserID : String
  ExpiresAt : Int
deriving DecidableEq, Repr

/-- The method `(*Session).IsExpired`: `time.Now().After(s.ExpiresAt)`, with
the value of `time.Now()` as `now`. -/
def Session.IsExpired (s : Session) (now : Int) : Bool := decide (s.ExpiresAt < now)

/-- The method `(*Session).IsValid`. -/
def Session.IsValid (s : Session) (now : Int) : Bool := !s.IsExpired now

structure AuditLog where
  ID : String
  UserID : String
  Action : String
  Detail : String
  IPAddress : String
deriving DecidableEq, Repr

def ActionRegister : String := "register"
def ActionLogin : String := "login"
def ActionLogout : String := "logout"
def ActionSign : String := "sign"
def ActionDecrypt : String := "decrypt"
def ActionKeyGen : String := "key_gen"

/-- The four tables. -/
structure DB where
  users : List User
  keys : List Key
  sessions : List Session
  auditLogs : List AuditLog
deriving DecidableEq, Repr

/-- The statements the modelled code sends to the database. -/
inductive Stmt where
  | userExists
  | userInsert
  | userByName
  | userByID
  | keyInsert
  | keyByUser
  | keyUpdate
  | sessionInsert
  | sessionByID
  | sessionDelete
  | auditInsert
deriving DecidableEq, Repr

/-- What one request takes from outside the program: the clock, whether each
statement fails in the database, the successive results of `rand.Int`, of
`uuid.New`, of `GenerateSalt` and of `GenerateToken`, and the configured
lifetime of a token. -/
structure World where
  now : Int
  fails : Stmt → Bool
  rand1 : Option Nat
  rand2 : Option Nat
  uuid : Nat → String
  salt : Option (List Byte)
  token : Option String
  tokenExpire : Int

namespace KeyRepository

/-- The method `FindByUserID`: the first row of the user, `none` for an error
(no row, or a failing query). -/
def FindByUserID (w : World) (db : DB) (userID : String) : Option Key :=
  if w.fails .keyByUser then none else db.keys.find? (fun k => k.UserID = userID)

/-- The method `Create`; `none` for an error. -/
def Create (w : World) (db : DB) (key : Key) : Option DB :=
  if w.fails .keyInsert then none else some { db with keys := db.keys ++ [key] }

/-- The method `Update`: sets the five columns of the rows with the key's id;
`none` for an error. -/
def Update (w : World) (db : DB) (key : Key) : Option DB :=
  if w.fails .keyUpdate then none
  else some { db with keys := db.keys.map fun k =>
    if k.ID = key.ID then
      { k with D2 := key.D2, D2Inv := key.D2Inv, PublicKey := key.PublicKey,
               HMACKey := key.HMACKey, Status := key.Status }
    else k }

end KeyRepository

namespace UserRepository

/-- The method `ExistsByUsername`; `none` for an error. -/
def ExistsByUsername (w : World) (db : DB) (username : String) : Option Bool :=
  if w.fails .userExists then none else some (db.users.any fun u => u.Username = username)

/-- The method `Create`; `none` for an error. -/
def Create (w : World) (db : DB) (user : User) : Option DB :=
  if w.fails .userInsert then none else some { db with users := db.users ++ [user] }

/-- The method `FindByUsername`; `none` for an error. -/
def FindByUsername (w : World) (db : DB) (username : String) : Option User :=
  if w.fails .userByName then none else db.users.find? (fun u => u.Username = username)

/-- The method `FindByID`; `none` for an error. -/
def FindByID (w : World) (db : DB) (id : String) : Option User :=
  if w.fails .userByID then none else db.users.find? (fun u => u.ID = id)

end UserRepository

namespace SessionRepository

/-- The method `Create`; `none` for an error. -/
def Create (w : World) (db : DB) (session : Session) : Option DB :=
  if w.fails .sessionInsert then none else some { db with sessions := db.sessions ++ [session] }

/-- The method `FindByID`; `none` for an error. -/
def FindByID (w : World) (db : DB) (id : String) : Option Session :=
  if w.fails .sessionByID then none else db.sessions.find? (fun s => s.ID = id)

/-- The method `Delete`; `none` for an error. -/
def Delete (w : World) (db : DB) (id : String) : Option DB :=
  if w.fails .sessionDelete then none
  else some { db with sessions := db.sessions.filter fun s => s.ID ≠ id }

end SessionRepository

namespace AuditLogRepository

/-- The method `Create`; `none` for an error. -/
def Create (w : World) (db : DB) (log : AuditLog) : Option DB :=
  if w.fails .auditInsert then none else some { db with auditLogs := db.auditLogs ++ [log] }

end AuditLogRepository

/-- How a call of a service method ends: it returns a result (nil for `none`)
and a code, or it panics; in both cases with the database as the call leaves
it. -/
inductive SvcResult (α : Type) where
  | ret (data : Option α) (code : Code) (db : DB)
  | crash (db : DB)
deriving DecidableEq, Repr

/-- The code a service call returns; `none` when it panics. -/
def SvcResult.code {α : Type} : SvcResult α → Option Code
  | .ret _ code _ => some code
  | .crash _ => none

/-- The database a service call leaves. -/
def SvcResult.db {α : Type} : SvcResult α → DB
  | .ret _ _ db => db
  | .crash db => db

/-- An audit record is written and the error of the write is dropped. -/
def writeAudit (w : World) (db : DB) (log : AuditLog) : DB :=
  (AuditLogRepository.Create w db log).getD db

/-! ## The cooperative services (`internal/service/cosign_service.go`) -/

structure KeyInitRequest where
  UserID : String
  P1 : String
deriving DecidableEq, Repr

structure KeyInitResponse where
  P2 : String
  PublicKey : String
deriving DecidableEq, Repr

structure SignRequest where
  UserID : String
  Q1 : String
  E : String
deriving DecidableEq, Repr

structure SignResponse where
  R : String
  S2 : String
  S3 : String
deriving DecidableEq, Repr

structure DecryptRequest where
  UserID : String
  T1 : String
deriving DecidableEq, Repr

structure DecryptResponse where
  T2 : String
deriving DecidableEq, Repr

namespace CosignService

/-- The method `(*CosignService).KeyInit`. -/
def KeyInit (C : Curve) (w : World) (db : DB) (req : KeyInitRequest) (ipAddress : String) :
    SvcResult KeyInitResponse :=
  match DecodeFromBase64 req.P1 with
  | none => .ret none CodeInvalidParam db
  | some p1 =>
    if p1.length ≠ 64 then .ret none CodeInvalidParam db
    else
      match CoopKeyGenInit C w.rand1 p1 with
      | .crash => .crash db
      | .error _ => .ret none CodeCryptoError db
      | .ok keyResult =>
        let resp : KeyInitResponse :=
          { P2 := EncodeToBase64 keyResult.P2, PublicKey := EncodeToBase64 keyResult.Pa }
        match KeyRepository.FindByUserID w db req.UserID with
        | some existingKey =>
          let existingKey := { existingKey with
            D2 := EncodeToBase64 keyResult.D2,
            D2Inv := EncodeToBase64 keyResult.D2Inv,
            PublicKey := EncodeToBase64 keyResult.Pa }
          match KeyRepository.Update w db existingKey with
          | none => .ret none CodeDBError db
          | some db1 =>
            let auditLog : AuditLog :=
              { ID := w.uuid 0, UserID := req.UserID, Action := ActionKeyGen, Detail := "",
                IPAddress := ipAddress }
            .ret (some resp) CodeSuccess (writeAudit w db1 auditLog)
        | none =>
          let key : Key :=
            { ID := w.uuid 0, UserID := req.UserID,
              D2 := EncodeToBase64 keyResult.D2,
              D2Inv := EncodeToBase64 keyResult.D2Inv,
              PublicKey := EncodeToBase64 keyResult.Pa,
              HMACKey := "", Status := KeyStatusEnabled }
          match KeyRepository.Create w db key with
          | none => .ret none CodeDBError db
          | some db1 =>
            let auditLog : AuditLog :=
              { ID := w.uuid 1, UserID := req.UserID, Action := ActionKeyGen, Detail := "",
                IPAddress := ipAddress }
            .ret (some resp) CodeSuccess (writeAudit w db1 auditLog)

/-- The method `(*CosignService).Sign`. -/
def Sign (C : Curve) (w : World) (db : DB) (req : SignRequest) (ipAddress : String) :
    SvcResult SignResponse :=
  match KeyRepository.FindByUserID w db req.UserID with
  | none => .ret none CodeKeyNotFound db
  | some key =>
    match DecodeFromBase64 req.Q1 with
    | none => .ret none CodeInvalidParam db
    | some q1 =>
      if q1.length ≠ 64 then .ret none CodeInvalidParam db
      else
        match DecodeFromBase64 req.E with
        | none => .ret none CodeInvalidParam db
        | some e =>
          if e.length ≠ 32 then .ret none CodeInvalidParam db
          else
            match DecodeFromBase64 key.D2Inv with
            | none => .ret none CodeCryptoError db
            | some d2Inv =>
              match CoopSign C w.rand1 w.rand2 d2Inv q1 e with
              | .crash => .crash db
              | .error _ => .ret none CodeCryptoError db
              | .ok result =>
                let auditLog : AuditLog :=
                  { ID := w.uuid 0, UserID := req.UserID, Action := ActionSign, Detail := "",
                    IPAddress := ipAddress }
                .ret (some { R := EncodeToBase64 result.R, S2 := EncodeToBase64 result.S2,
                             S3 := EncodeToBase64 result.S3 })
                  CodeSuccess (writeAudit w db auditLog)

/-- The method `(*CosignService).Decrypt`. -/
def Decrypt (C : Curve) (w : World) (db : DB) (req : DecryptRequest) (ipAddress : String) :
    SvcResult DecryptResponse :=
  match KeyRepository.FindByUserID w db req.UserID with
  | none => .ret none CodeKeyNotFound db
  | some key =>
    match DecodeFromBase64 req.T1 with
    | none => .ret none CodeInvalidParam db
    | some t1 =>
      if t1.length ≠ 64 then .ret none CodeInvalidParam db
      else
        match DecodeFromBase64 key.D2Inv with
        | none => .ret none CodeCryptoError db
        | some d2Inv =>
          match CoopDecrypt C d2Inv t1 with
          | .crash => .crash db
          | .error _ => .ret none CodeCryptoError db
          | .ok t2 =>
            let auditLog : AuditLog :=
              { ID := w.uuid 0, UserID := req.UserID, Action := ActionDecrypt, Detail := "",
                IPAddress := ipAddress }
            .ret (some { T2 := EncodeToBase64 t2 }) CodeSuccess (writeAudit w db auditLog)

end CosignService

/-! ## The user service (`internal/service/user_service.go`) -/

structure RegisterRequest where
  Username : String
  Password : String
  P1 : String
deriving DecidableEq, Repr

structure RegisterResponse where
  UserID : String
  PublicKey : String
  P2 : String
deriving DecidableEq, Repr

/-- The function `SM3HashWithPassword` over the hash function `sm3` of
`github.com/emmansun/gmsm/sm3`: the salt is written first. -/
def SM3HashWithPassword (sm3 : List Byte → List Byte) (password salt : List Byte) : List Byte :=
  sm3 (salt ++ password)

namespace UserService

/-- The method `(*UserService).Register`. -/
def Register (C : Curve) (sm3 : List Byte → List Byte) (w : World) (db : DB)
    (req : RegisterRequest) (ipAddress : String) : SvcResult RegisterResponse :=
  match UserRepository.ExistsByUsername w db req.Username with
  | none => .ret none CodeDBError db
  | some true => .ret none CodeUserExists db
  | some false =>
    match DecodeFromBase64 req.P1 with
    | none => .ret none CodeInvalidParam db
    | some p1 =>
      if p1.length ≠ 64 then .ret none CodeInvalidParam db
      else
        match CoopKeyGenInit C w.rand1 p1 with
        | .crash => .crash db
        | .error _ => .ret none CodeCryptoError db
        | .ok keyResult =>
          let userID := w.uuid 0
          match w.salt with
          | none => .ret none CodeInternalError db
          | some salt =>
            let passwordHash := SM3HashWithPassword sm3 (stringBytes req.Password) salt
            let user : User :=
              { ID := userID, Username := req.Username,
                PasswordHash := hexEncode salt ++ hexEncode passwordHash,
                PublicKey := EncodeToBase64 keyResult.Pa,
                Status := UserStatusEnabled }
            match UserRepository.Create w db user with
            | none => .ret none CodeDBError db
            | some db1 =>
              let key : Key :=
                { ID := w.uuid 1, UserID := userID,
                  D2 := EncodeToBase64 keyResult.D2,
                  D2Inv := EncodeToBase64 keyResult.D2Inv,
                  PublicKey := EncodeToBase64 keyResult.Pa,
                  HMACKey := "", Status := KeyStatusEnabled }
              match KeyRepository.Create w db1 key with
              | none => .ret none CodeDBError db1
              | some db2 =>
                let auditLog : AuditLog :=
                  { ID := w.uuid 2, UserID := userID, Action := ActionRegister,
                    Detail := "\x7b\"username\":\"" ++ req.Username ++ "\"\x7d",
                    IPAddress := ipAddress }
                .ret (some { UserID := userID, PublicKey := EncodeToBase64 keyResult.Pa,
                             P2 := EncodeToBase64 keyResult.P2 })
                  CodeSuccess (writeAudit w db2 auditLog)

/-- The method `(*UserService).ValidateSession`: the session, the code and
the database it leaves. -/
def ValidateSession (w : World) (db : DB) (token : String) : Option Session × Code × DB :=
  match SessionRepository.FindByID w db token with
  | none => (none, CodeTokenInvalid, db)
  | some session =>
    if session.IsExpired w.now then
      (none, CodeTokenExpired, (SessionRepository.Delete w db token).getD db)
    else (some session, CodeSuccess, db)

end UserService

/-! ## The session gate (`internal/middleware/auth.go`) and the handlers
(`internal/handler/cosign.go`) -/

/-- The part of `fiber.Ctx` the gate and the handlers use: the `Authorization`
header (empty when absent), the client address and the two locals. -/
structure Ctx where
  authorization : String
  ip : String
  userID : Option String
  session : Option Session
deriving DecidableEq, Repr

/-- How the handling of a request ends: a response is written, or the handler
panics; in both cases with the database as the request leaves it. -/
inductive HttpResult (α : Type) where
  | response (r : Response α) (db : DB)
  | crash (db : DB)
deriving DecidableEq, Repr

/-- The call `strings.SplitN(s, " ", 2)` on the characters of `s`: the part
before the first space and the part after it, or `s` alone when it has no
space. -/
def splitFirstSpace : List Char → List (List Char)
  | [] => [[]]
  | c :: cs =>
    if c = ' ' then [[], cs]
    else
      match splitFirstSpace cs with
      | [a] => [c :: a]
      | a :: rest => (c :: a) :: rest
      | [] => []

/-- The call `strings.SplitN(s, " ", 2)`. -/
def SplitN2 (s : String) : List String := (splitFirstSpace s.toList).map String.mk

/-- The function `GetUserID`: the local `user_id` when it is a string, the
empty string otherwise. -/
def GetUserID (c : Ctx) : String := c.userID.getD ""

/-- The handler `AuthMiddleware` returns; `next` is the rest of the chain,
run by `c.Next()`. -/
def AuthMiddleware {α : Type} (w : World) (db : DB) (c : Ctx)
    (next : Ctx → DB → HttpResult α) : HttpResult α :=
  let authHeader := c.authorization
  if authHeader = "" then .response (Error CodeUnauthorized) db
  else
    match SplitN2 authHeader with
    | [p0, token] =>
      if p0 ≠ "Bearer" then .response (Error CodeUnauthorized) db
      else
        match UserService.ValidateSession w db token with
        | (some session, code, db1) =>
          if code ≠ CodeSuccess then .response (Error code) db1
          else next { c with userID := some session.UserID, session := some session } db1
        | (none, code, db1) =>
          if code ≠ CodeSuccess then .response (Error code) db1
          else .crash db1
    | _ => .response (Error CodeUnauthorized) db

/-- What a handler does with the result of its service call. -/
def respond {α : Type} : SvcResult α → HttpResult α
  | .crash db => .crash db
  | .ret data code db =>
    if code ≠ CodeSuccess then .response (Error code) db
    else .response { Code := CodeSuccess, Data := data } db

namespace CosignHandler

/-- The method `(*CosignHandler).KeyInit`; `body` is what `c.BodyParser`
reads, `none` when it returns an error. -/
def KeyInit (C : Curve) (w : World) (c : Ctx) (body : Option KeyInitRequest) (db : DB) :
    HttpResult KeyInitResponse :=
  let userID := GetUserID c
  if userID = "" then .response (Error CodeUnauthorized) db
  else
    match body with
    | none => .response (Error CodeInvalidParam) db
    | some req =>
      let req := { req with UserID := userID }
      respond (CosignService.KeyInit C w db req c.ip)

/-- The method `(*CosignHandler).Sign`. -/
def Sign (C : Curve) (w : World) (c : Ctx) (body : Option SignRequest) (db : DB) :
    HttpResult SignResponse :=
  let userID := GetUserID c
  if userID = "" then .response (Error CodeUnauthorized) db
  else
    match body with
    | none => .response (Error CodeInvalidParam) db
    | some req =>
      let req := { req with UserID := userID }
      respond (CosignService.Sign C w db req c.ip)

/-- The method `(*CosignHandler).Decrypt`. -/
def Decrypt (C : Curve) (w : World) (c : Ctx) (body : Option DecryptRequest) (db : DB) :
    HttpResult DecryptResponse :=
  let userID := GetUserID c
  if userID = "" then .response (Error CodeUnauthorized) db
  else
    match body with
    | none => .response (Error CodeInvalidParam) db
    | some req =>
      let req := { req with UserID := userID }
      respond (CosignService.Decrypt C w db req c.ip)

end CosignHandler

/-! ## The routes behind the gate (`cmd/server/main.go`, `setupRoutes`) -/

/-- The route `POST /api/key/init`. -/
def apiKeyInit (C : Curve) (w : World) (db : DB) (c : Ctx) (body : Option KeyInitRequest) :
    HttpResult KeyInitResponse :=
  AuthMiddleware w db c fun c1 db1 => CosignHandler.KeyInit C w c1 body db1

/-- The route `POST /api/sign`. -/
def apiSign (C : Curve) (w : World) (db : DB) (c : Ctx) (body : Option SignRequest) :
    HttpResult SignResponse :=
  AuthMiddleware w db c fun c1 db1 => CosignHandler.Sign C w c1 body db1

/-- The route `POST /api/decrypt`. -/
def apiDecrypt (C : Curve) (w : World) (db : DB) (c : Ctx) (body : Option DecryptRequest) :
    HttpResult DecryptResponse :=
  AuthMiddleware w db c fun c1 db1 => CosignHandler.Decrypt C w c1 body db1

/-! ## Predicates used by the properties -/

/-- The scalars of a stored share: `d2` and `d2_inv`, read as big-endian
integers from their base64 columns, lie strictly between 0 and `N` and
`d2_inv · d2 ≡ 1 (mod N)`. -/
def GoodShare (C : Curve) (k : Key) : Prop :=
  match DecodeFromBase64 k.D2, DecodeFromBase64 k.D2Inv with
  | some d2, some d2Inv =>
    0 < SetBytes d2 ∧ SetBytes d2 < C.N ∧ 0 < SetBytes d2Inv ∧ SetBytes d2Inv < C.N ∧
      (SetBytes d2Inv * SetBytes d2) % C.N = 1
  | _, _ => False

/-- The integer `rand.Int(rand.Reader, N)` returns without error lies in
`[0, N)`. -/
def DrawInRange (C : Curve) (rnd : Option Nat) : Prop := ∀ d, rnd = some d → d < C.N

/-- The base64 string `s` decodes, and to exactly `n` bytes. -/
def decodesTo (s : String) (n : Nat) : Bool :=
  match DecodeFromBase64 s with
  | some b => decide (b.length = n)
  | none => false

/-! ## Sample data for the instances -/

/-- A world in which no statement fails. -/
def sampleWorld : World where
  now := 1000
  fails := fun _ => false
  rand1 := some 3
  rand2 := some 2
  uuid := fun i => if i = 0 then "id-0" else if i = 1 then "id-1" else "id-2"
  salt := some (make 16)
  token := some "t0"
  tokenExpire := 3600

/-- The empty database. -/
def emptyDB : DB := { users := [], keys := [], sessions := [], auditLogs := [] }

/-- A hash function that stands in for SM3 where the digest does not matter. -/
def sampleHash (bs : List Byte) : List Byte := bs.take 32

/-- The user `alice`, enabled or not, with the public key `pk`. -/
def sampleUser (pk : List Byte) (status : Int) : User :=
  { ID := "id-0", Username := "alice", PasswordHash := "", PublicKey := EncodeToBase64 pk,
    Status := status }

/-- The share of `alice` with the scalars `d2`, `d2Inv` and the public key
`pk`. -/
def sampleKey (d2 d2Inv : Nat) (pk : List Byte) : Key :=
  { ID := "id-1", UserID := "id-0", D2 := EncodeToBase64 (Bytes d2),
    D2Inv := EncodeToBase64 (Bytes d2Inv), PublicKey := EncodeToBase64 pk, HMACKey := "",
    Status := KeyStatusEnabled }

/-- A session of `alice` with the token `t0` that expires at instant 2000. -/
def sampleSession : Session := { ID := "t0", UserID := "id-0", ExpiresAt := 2000 }

/-- A database over the toy curve: the user `alice`, her share (`d2 = 3`,
`d2_inv = 5`, public key `4·G`) and her session. -/
def toyDB : DB where
  users := [sampleUser (putPoint (0, 1)) UserStatusEnabled]
  keys := [sampleKey 3 5 (putPoint (0, 1))]
  sessions := [sampleSession]
  auditLogs := []

/-- A request context that carries the bearer token `t0`. -/
def sampleCtx : Ctx :=
  { authorization := "Bearer t0", ip := "10.0.0.1", userID := none, session := none }

/-- The share of the SM2 examples: `d2 = 5` and its inverse modulo `n`. -/
def sm2D2Inv : Nat := 0x99999998ffffffffffffffffffffffffaacf1fa6addd364d323d926bef7ff3e2

/-- The cooperative public key of the SM2 examples, for the client scalar
`d1 = 2` and the server scalar `d2 = 5`. -/
def sm2Pa : Nat × Nat :=
  (0x22c97d0075535bb411572a8540a0a78a74479340ec90822abc0fcd2cf8b1e375,
   0xc931490cea838aa7ae275bf09bdcb59ac60bd1c88bedf3b64bc1de0a576f57e7)

/-- A database over the SM2 curve in which the user `alice` is disabled
(`status = 0`); her share and her session are in place. -/
def disabledDB : DB where
  users := [sampleUser (putPoint sm2Pa) UserStatusDisabled]
  keys := [sampleKey 5 sm2D2Inv (putPoint sm2Pa)]
  sessions := [sampleSession]
  auditLogs := []

/-- The base point of the SM2 curve. -/
def sm2G : Nat × Nat := (sm2Params.Gx, sm2Params.Gy)

/-- The inverse of the client scalar `d1 = 2` modulo `n`. -/
def sm2D1Inv : Nat := 0x7fffffff7fffffffffffffffffffffffb901efb590e30295a9ddfa049ceaa092

/-- The client's key-generation point `P1 = d1⁻¹·G` for `d1 = 2`. -/
def sm2P1 : Nat × Nat :=
  (0xa3721db9207e1c46e24f06ec2d2d4d785617828a72b72f62370952e0572e033,
   0x731e6395efd89dfa94b15b12a6c98902c0b32a0c15d55ec8dd8bfe5302a8f74b)

/-- The point `3·G`. -/
def sm2G3 : Nat × Nat :=
  (0xa97f7cd4b3c993b4be2daa8cdb41e24ca13f6bd945302244e26918f1d0509ebf,
   0x530b5dd88c688ef5ccc5cec08a72150f7c400ee5cd045292aaacdd037458f6e6)

/-- The point `107·G`, whose y-coordinate has 31 bytes. -/
def sm2G107 : Nat × Nat :=
  (0x3b3de05121ff3a36d9dcd23ac5c15de8d757ae92795b15410e1ecd9e46466a47,
   0x7b8326ebd1926d5ab4cccacefee53ad6106c43e6eb5c91a11606102e19c39b)

/-- The point `119·G`, whose y-coordinate has 31 bytes. -/
def sm2G119 : Nat × Nat :=
  (0x42b957edf0eac80b5a90c85c2b95d141e92a3100a8aa7d860b40d7846acd93bd,
   0x35cde42dc2cf15e178efd995023ccd8164c5fc56ad0b3c97b291bad89c9cf3)

/-- The digest of the SM2 examples: the bytes `01 02 … 20`. -/
def sm2E : List Byte := Bytes 0x102030405060708090a0b0c0d0e0f101112131415161718191a1b1c1d1e1f20

/-! ## Login (`internal/service/user_service.go`) -/

/-- The table `reverseHexTable` of `encoding/hex`: the value of a byte that is
a hexadecimal digit, of either case; `none` for any other byte. -/
def fromHexChar (b : Byte) : Option Nat :=
  if 48 ≤ b.val ∧ b.val ≤ 57 then some (b.val - 48)
  else if 97 ≤ b.val ∧ b.val ≤ 102 then some (b.val - 87)
  else if 65 ≤ b.val ∧ b.val ≤ 70 then some (b.val - 55)
  else none

/-- The call `salt, _ := hex.DecodeString(s)` on the bytes of `s`: the error
is dropped and the bytes decoded before it are kept. -/
def hexDecode : List Byte → List Byte
  | p :: q :: rest =>
    match fromHexChar p, fromHexChar q with
    | some a, some b => toByte (a * 16 + b) :: hexDecode rest
    | _, _ => []
  | _ => []

structure LoginRequest where
  Username : String
  Password : String
deriving DecidableEq, Repr

/-- The result of a login; `ExpiresAt` is the instant whose RFC 3339 text the
response carries. -/
structure LoginResponse where
  Token : String
  ExpiresAt : Int
  UserID : String
deriving DecidableEq, Repr

namespace UserService

/-- The method `(*UserService).Login`. The length, the slices and the
comparison of the stored hash are those of Go strings, on bytes. -/
def Login (sm3 : List Byte → List Byte) (w : World) (db : DB) (req : LoginRequest)
    (ipAddress : String) : SvcResult LoginResponse :=
  match UserRepository.FindByUsername w db req.Username with
  | none => .ret none CodeUserNotFound db
  | some user =>
    let storedHash := stringBytes user.PasswordHash
    if storedHash.length < 64 then .ret none CodePasswordError db
    else
      let salt := hexDecode (storedHash.take 32)
      let expectedHash := storedHash.drop 32
      let actualHash :=
        stringBytes (hexEncode (SM3HashWithPassword sm3 (stringBytes req.Password) salt))
      if actualHash ≠ expectedHash then .ret none CodePasswordError db
      else if !user.IsEnabled then .ret none CodeUserDisabled db
      else
        match w.token with
        | none => .ret none CodeInternalError db
        | some token =>
          let expiresAt := w.now + w.tokenExpire
          let session : Session := { ID := token, UserID := user.ID, ExpiresAt := expiresAt }
          match SessionRepository.Create w db session with
          | none => .ret none CodeDBError db
          | some db1 =>
            let auditLog : AuditLog :=
              { ID := w.uuid 0, UserID := user.ID, Action := ActionLogin, Detail := "",
                IPAddress := ipAddress }
            .ret (some { Token := token, ExpiresAt := expiresAt, UserID := user.ID })
              CodeSuccess (writeAudit w db1 auditLog)

end UserService

/-- The verifier of the specification for a password and a salt:
`hex(salt) ‖ hex(SM3(salt ‖ password))`. -/
def specVerifier (sm3 : List Byte → List Byte) (salt : List Byte) (password : String) :
    String :=
  hexEncode salt ++ hexEncode (sm3 (salt ++ stringBytes password))

/-- Every character of `s` is a lower-case hexadecimal digit. -/
def isHex (s : String) : Bool := s.toList.all fun c => "0123456789abcdef".toList.contains c

/-! ## The JSON form of the records and the responses -/

/-- A value of a member of the JSON objects modelled. -/
inductive JSONValue where
  | str (s : String)
  | num (n : Int)
deriving DecidableEq, Repr

/-- The object `encoding/json` writes for a `Key`, by the `json` tags of the
struct: a member for each field whose tag is a name, none for the fields
tagged `-` (`D2`, `D2Inv`, `HMACKey`). -/
def Key.json (k : Key) : List (String × JSONValue) :=
  [("id", .str k.ID), ("userId", .str k.UserID), ("publicKey", .str k.PublicKey),
   ("status", .num k.Status)]

/-- The object written for a `RegisterResponse`. -/
def RegisterResponse.json (r : RegisterResponse) : List (String × JSONValue) :=
  [("userId", .str r.UserID), ("publicKey", .str r.PublicKey), ("p2", .str r.P2)]

/-- The object written for a `KeyInitResponse`. -/
def KeyInitResponse.json (r : KeyInitResponse) : List (String × JSONValue) :=
  [("p2", .str r.P2), ("publicKey", .str r.PublicKey)]

/-! ## The rows the services write -/

/-- The row of the user `Register` writes. -/
def registerUser (sm3 : List Byte → List Byte) (w : World) (req : RegisterRequest)
    (salt : List Byte) (res : SM2CoopKeyGenResult) : User :=
  { ID := w.uuid 0, Username := req.Username,
    PasswordHash :=
      hexEncode salt ++ hexEncode (SM3HashWithPassword sm3 (stringBytes req.Password) salt),
    PublicKey := EncodeToBase64 res.Pa, Status := UserStatusEnabled }

/-- The row of a new share, with the identifier `id`, for the user `userID`:
the one `Register` writes, and `KeyInit` when it finds no share. -/
def newShare (id userID : String) (res : SM2CoopKeyGenResult) : Key :=
  { ID := id, UserID := userID, D2 := EncodeToBase64 res.D2,
    D2Inv := EncodeToBase64 res.D2Inv, PublicKey := EncodeToBase64 res.Pa, HMACKey := "",
    Status := KeyStatusEnabled }

/-- The row `KeyInit` passes to `Update` when it finds the share `k`. -/
def replacedShare (k : Key) (res : SM2CoopKeyGenResult) : Key :=
  { k with D2 := EncodeToBase64 res.D2, D2Inv := EncodeToBase64 res.D2Inv,
           PublicKey := EncodeToBase64 res.Pa }

/-- The row `r` after the statement of `Update` has set its five columns from
`key`. -/
def updatedRow (r key : Key) : Key :=
  { r with D2 := key.D2, D2Inv := key.D2Inv, PublicKey := key.PublicKey,
           HMACKey := key.HMACKey, Status := key.Status }

/-- The audit record of `Register`. -/
def registerAudit (w : World) (req : RegisterRequest) (ip : String) : AuditLog :=
  { ID := w.uuid 2, UserID := w.uuid 0, Action := ActionRegister,
    Detail := "\x7b\"username\":\"" ++ req.Username ++ "\"\x7d", IPAddress := ip }

/-- The audit record of `Login`, `KeyInit`, `Sign` and `Decrypt`: an
identifier, the user, the action and the client address. -/
def actionAudit (id userID action ip : String) : AuditLog :=
  { ID := id, UserID := userID, Action := action, Detail := "", IPAddress := ip }

/-! ## The share store over a sequence of calls -/

/-- The states of the store that calls of `Register` and `KeyInit` reach from
the empty store, one call after the other. Any statement of a call may fail,
the look-up of `KeyInit` included; the identifier `uuid.New` gives `Register`
for the new user is not the `user_id` of a share in the store. -/
inductive Reachable (C : Curve) (sm3 : List Byte → List Byte) : DB → Prop where
  | init : Reachable C sm3 emptyDB
  | register (w : World) (db : DB) (req : RegisterRequest) (ip : String) :
      Reachable C sm3 db → (∀ k ∈ db.keys, k.UserID ≠ w.uuid 0) →
      Reachable C sm3 (UserService.Register C sm3 w db req ip).db
  | keyInit (w : World) (db : DB) (req : KeyInitRequest) (ip : String) :
      Reachable C sm3 db →
      Reachable C sm3 (CosignService.KeyInit C w db req ip).db

/-- The store `db` with other scalars in its shares: the row `k` carries the
`d2` and `d2_inv` that `f k` gives, and nothing else changes. -/
def withShares (f : Key → Nat × Nat) (db : DB) : DB :=
  { db with keys := db.keys.map fun k =>
      { k with D2 := EncodeToBase64 (Bytes (f k).1), D2Inv := EncodeToBase64 (Bytes (f k).2) } }

/-- The result a service call returns; `none` when it panics or returns
nil. -/
def SvcResult.data {α : Type} : SvcResult α → Option α
  | .ret data _ _ => data
  | .crash _ => none

/-- Whether `ScalarMult` returns does not depend on the scalar (the library
panics on a point that is not on the curve). -/
def ScalarTotal (C : Curve) : Prop :=
  ∀ x y k1 k2, (C.ScalarMult x y k1).isSome = (C.ScalarMult x y k2).isSome

/-! ## More sample data -/

/-- The sample world in which the statement `s`, and no other, fails. -/
def failingWorld (s : Stmt) : World := { sampleWorld with fails := fun t => decide (t = s) }

/-- The store of `toyDB` without the share of `alice`. -/
def noShareDB : DB := { toyDB with keys := [] }

/-- A hash function with 32-byte digests that stands in for SM3: the first 32
bytes of the input followed by 32 zero bytes. -/
def paddedHash (bs : List Byte) : List Byte := (bs ++ make 32).take 32

/-- The request that registers `alice` over the toy curve, with `P1 = G`. -/
def aliceRegister : RegisterRequest :=
  { Username := "alice", Password := "pw123", P1 := EncodeToBase64 (encodePoint 1 3) }

/-- The row `Register` writes for `alice` in the sample world. -/
def aliceUser : User :=
  { ID := "id-0", Username := "alice",
    PasswordHash := "00000000000000000000000000000000"
      ++ "0000000000000000000000000000000070773132330000000000000000000000",
    PublicKey := EncodeToBase64 (putPoint (0, 1)), Status := UserStatusEnabled }

/-- The store after `alice` has registered in the empty store, in the sample
world, over the toy curve and with `paddedHash`. -/
def aliceDB : DB where
  users := [aliceUser]
  keys := [sampleKey 3 5 (putPoint (0, 1))]
  sessions := []
  auditLogs := [{ ID := "id-2", UserID := "id-0", Action := "register",
                  Detail := "\x7b\"username\":\"alice\"\x7d", IPAddress := "10.0.0.1" }]

/-! ## The user handlers (`internal/handler/user.go`) -/

namespace UserService

/-- The method `(*UserService).GetUserInfo`. -/
def GetUserInfo (w : World) (db : DB) (userID : String) : Option User × Code :=
  match UserRepository.FindByID w db userID with
  | none => (none, CodeUserNotFound)
  | some user => (some user, CodeSuccess)

end UserService

namespace UserHandler

/-- The method `(*UserHandler).Register`; `body` is what `c.BodyParser` reads,
`none` when it returns an error. No other check is made on the request. -/
def Register (C : Curve) (sm3 : List Byte → List Byte) (w : World) (c : Ctx)
    (body : Option RegisterRequest) (db : DB) : HttpResult RegisterResponse :=
  match body with
  | none => .response (Error CodeInvalidParam) db
  | some req => respond (UserService.Register C sm3 w db req c.ip)

/-- The method `(*UserHandler).GetUserInfo`. -/
def GetUserInfo (w : World) (c : Ctx) (db : DB) : HttpResult User :=
  let userID := GetUserID c
  if userID = "" then .response (Error CodeUnauthorized) db
  else
    match UserService.GetUserInfo w db userID with
    | (some user, code) =>
      if code ≠ CodeSuccess then .response (Error code) db
      else .response (Success user) db
    | (none, code) =>
      if code ≠ CodeSuccess then .response (Error code) db
      else .response { Code := CodeSuccess, Data := none } db

end UserHandler

/-- The code of the response a handler writes; `none` when it panics. -/
def HttpResult.code {α : Type} : HttpResult α → Option Code
  | .response r _ => some r.Code
  | .crash _ => none

/-- The database the handling of a request leaves. -/
def HttpResult.db {α : Type} : HttpResult α → DB
  | .response _ db => db
  | .crash db => db

/-- What the `validate` tags of `RegisterRequest` declare: `username` is
`required,min=3,max=32`, `password` is `required,min=6,max=64` and `p1` is
`required`; the lengths of the validator are counts of characters. -/
def RegisterRequest.validate (req : RegisterRequest) : Bool :=
  decide (req.Username ≠ "") && decide (3 ≤ req.Username.length) &&
    decide (req.Username.length ≤ 32) &&
  decide (req.Password ≠ "") && decide (6 ≤ req.Password.length) &&
    decide (req.Password.length ≤ 64) &&
  decide (req.P1 ≠ "")

/-! ## The database directory (`internal/repository/repository.go`) -/

/-- The directory `InitDB` passes to `os.MkdirAll`:
`dbPath[:len(dbPath)-len("/cosign.db")]`, on the bytes of the path; `none`
when the bound of the slice is negative and the expression panics. -/
def InitDBDir (dbPath : List Byte) : Option (List Byte) :=
  if dbPath.length < (stringBytes "/cosign.db").length then none
  else some (dbPath.take (dbPath.length - (stringBytes "/cosign.db").length))

/-- The parent directory of a path in the words of the claim: the path without
its final slash and file name. -/
def specParentDir (path : List Byte) : List Byte :=
  ((path.reverse.dropWhile fun b => b ≠ toByte 47).drop 1).reverse

/-! ## Sample data for the last properties -/

/-- The point `18·G` of the SM2 curve. -/
def sm2G18 : Nat × Nat :=
  (0x69fdf8a436fd8e5d221ea8657781ce71a3448557a24554db427e33ae8ed9c317,
   0xbaa856d1cad68af36b0a9658b33b347beb7b1ad657c155f571e35709341fdcab)

/-- The point `9·G` of the SM2 curve. -/
def sm2G9 : Nat × Nat :=
  (0xa27233f3a59595080b4a2444a46a74c5fe8d59cb43619e4f173472a58cca247e,
   0x379e72f63722c924768f7689b210f45fc3a8433140d1ebca85227940922c02e9)

/-- The point `7·G` of the SM2 curve. -/
def sm2G7 : Nat × Nat :=
  (0xddf092555409c19dfdbe86a75c139906a80198337744ee78cd27e384d9fcaf15,
   0x847d18ffb38e87065cd6b6e9c12d2922037937707d6a49a2223b949657e52bc1)

/-- The inverse of `d1·d2 = 10` modulo the order of the SM2 curve. -/
def sm2TenInv : Nat := 0x4ccccccc7fffffffffffffffffffffffd5678fd356ee9b26991ec935f7bff9f1

/-- A registration with a username and a password of two characters. -/
def shortRegister : RegisterRequest :=
  { Username := "ab", Password := "pw", P1 := EncodeToBase64 (encodePoint 1 3) }

/-- A registration with a username of 33 and a password of 65 characters. -/
def longRegister : RegisterRequest :=
  { Username := String.mk (List.replicate 33 'a'),
    Password := String.mk (List.replicate 65 'b'),
    P1 := EncodeToBase64 (encodePoint 1 3) }

/-- The store `aliceDB` after `alice` has called `KeyInit` with `P1 = G` and
the draw `d2 = 2`: her share carries the new public key `3·G`, her user row
the public key `4·G` of the registration. -/
def rekeyedAliceDB : DB :=
  { aliceDB with
    keys := [sampleKey 2 4 (putPoint (0, 4))],
    auditLogs := aliceDB.auditLogs ++ [actionAudit "id-0" "id-0" "key_gen" "10.0.0.1"] }

/-- The sample world with the draw `d2 = 2` and new identifiers, in which the
look-up of a share by its user fails and no other statement does. -/
def lookupFailingWorld : World :=
  { sampleWorld with
    fails := fun t => decide (t = Stmt.keyByUser),
    rand1 := some 2,
    uuid := fun i => if i = 0 then "id-3" else "id-4" }

/-- The store `aliceDB` after a `KeyInit` of `alice` with `P1 = G` and the draw
`d2 = 2` whose look-up of the share failed: next to her share of the
registration there is a second one, with the identifier `id-3`. -/
def twoShareDB : DB :=
  { aliceDB with
    keys := [sampleKey 3 5 (putPoint (0, 1)),
             { sampleKey 2 4 (putPoint (0, 4)) with ID := "id-3" }],
    auditLogs := aliceDB.auditLogs ++ [actionAudit "id-4" "id-0" "key_gen" "10.0.0.1"] }

/-! ## Properties -/

/-! ### Big integers -/

theorem forceNat_eq {α : Type} (x : Nat) (f : Nat → α) : forceNat x f = f x := by
  cases x <;> rfl

theorem foldl_SetBytes (bs : List Byte) (a : Nat) :
    bs.foldl (fun acc b => acc * 256 + b.val) a = a * 256 ^ bs.length + SetBytes bs := by
  induction bs generalizing a with
  | nil => simp [SetBytes]
  | cons b bs ih =>
    have h0 := ih (0 * 256 + b.val)
    have h1 := ih (a * 256 + b.val)
    simp only [SetBytes, List.foldl_cons, List.length_cons] at h0 h1 ⊢
    rw [h1, h0, pow_succ]
    ring

theorem SetBytes_nil : SetBytes [] = 0 := rfl

theorem SetBytes_cons (b : Byte) (bs : List Byte) :
    SetBytes (b :: bs) = b.val * 256 ^ bs.length + SetBytes bs := by
  have h := foldl_SetBytes bs (0 * 256 + b.val)
  simp only [SetBytes, List.foldl_cons] at h ⊢
  rw [h]
  ring

theorem SetBytes_append (xs ys : List Byte) :
    SetBytes (xs ++ ys) = SetBytes xs * 256 ^ ys.length + SetBytes ys := by
  have h := foldl_SetBytes ys (SetBytes xs)
  simp only [SetBytes, List.foldl_append] at h ⊢
  exact h

theorem SetBytes_lt (bs : List Byte) : SetBytes bs < 256 ^ bs.length := by
  induction bs with
  | nil => simp [SetBytes]
  | cons b bs ih =>
    rw [SetBytes_cons, List.length_cons, pow_succ]
    have hb : b.val < 256 := b.isLt
    have hp : 0 < 256 ^ bs.length := Nat.pos_of_ne_zero (by positivity)
    nlinarith

theorem SetBytes_replicate_zero (k : Nat) : SetBytes (List.replicate k (0 : Byte)) = 0 := by
  induction k with
  | zero => rfl
  | succ k ih => rw [List.replicate_succ, SetBytes_cons, ih]; simp

theorem bytesAux_spec : ∀ (fuel n : Nat) (acc : List Byte), n ≤ fuel →
    SetBytes (bytesAux fuel n acc) = n * 256 ^ acc.length + SetBytes acc := by
  intro fuel
  induction fuel with
  | zero =>
    intro n acc h
    have : n = 0 := by omega
    subst this
    simp [bytesAux]
  | succ fuel ih =>
    intro n acc h
    unfold bytesAux
    by_cases h0 : n = 0
    · simp [h0]
    · rw [if_neg h0, ih _ _ (by omega), SetBytes_cons, List.length_cons, pow_succ]
      simp only
      have h1 : n = 256 * (n / 256) + n % 256 := (Nat.div_add_mod n 256).symm
      generalize 256 ^ acc.length = w
      generalize n / 256 = q at h1 ⊢
      generalize n % 256 = r at h1 ⊢
      subst h1
      ring

/-- Reading back the bytes of a big integer gives the integer. -/
theorem SetBytes_Bytes (n : Nat) : SetBytes (Bytes n) = n := by
  unfold Bytes
  rw [bytesAux_spec n n [] le_rfl]
  simp [SetBytes]

/-! ### Modular inverse -/

theorem invLoop_step_cast (n g q r0 r1 t0 t1 : Nat) (hn : 0 < n)
    (h0 : ((t0 * g : Nat) : ZMod n) = (r0 : ZMod n))
    (h1 : ((t1 * g : Nat) : ZMod n) = (r1 : ZMod n))
    (hq : r0 = r1 * q + r0 % r1) :
    ((((t0 + (n - (q * t1) % n)) % n) * g : Nat) : ZMod n) = ((r0 % r1 : Nat) : ZMod n) := by
  have hle : (q * t1) % n ≤ n := (Nat.mod_lt _ hn).le
  have hr : (r0 : ZMod n) = (r1 : ZMod n) * q + ((r0 % r1 : Nat) : ZMod n) := by
    conv_lhs => rw [hq]
    push_cast
    ring
  push_cast at h0 h1 ⊢
  rw [ZMod.natCast_mod, Nat.cast_add, Nat.cast_sub hle, ZMod.natCast_self, ZMod.natCast_mod]
  push_cast
  have : ((r0 % r1 : Nat) : ZMod n) = (r0 : ZMod n) - (r1 : ZMod n) * q := by
    rw [hr]; ring
  rw [this, ← h0, ← h1]
  ring

theorem invLoop_spec (g n : Nat) (hn : 0 < n) : ∀ (fuel r0 r1 t0 t1 : Nat), r1 < fuel →
    ((t0 * g : Nat) : ZMod n) = (r0 : ZMod n) →
    ((t1 * g : Nat) : ZMod n) = (r1 : ZMod n) →
    t0 < n → t1 < n → Nat.gcd r0 r1 = Nat.gcd g n →
    (Nat.gcd g n = 1 → ∃ v, invLoop fuel n r0 r1 t0 t1 = some v ∧ v < n ∧ (g * v) % n = 1 % n) ∧
    (Nat.gcd g n ≠ 1 → invLoop fuel n r0 r1 t0 t1 = none) := by
  intro fuel
  induction fuel with
  | zero => intro r0 r1 t0 t1 h; omega
  | succ fuel ih =>
    intro r0 r1 t0 t1 hfuel h0 h1 ht0 ht1 hg
    unfold invLoop
    by_cases hr1 : r1 = 0
    · subst hr1
      rw [Nat.gcd_zero_right] at hg
      simp only [if_true]
      constructor
      · intro h
        rw [if_pos (hg.trans h)]
        refine ⟨t0, rfl, ht0, ?_⟩
        have : ((g * t0 : Nat) : ZMod n) = ((1 : Nat) : ZMod n) := by
          rw [Nat.mul_comm, h0, hg, h]
        exact (ZMod.natCast_eq_natCast_iff' _ _ _).1 this
      · intro h
        rw [if_neg (fun h2 => h (hg.symm.trans h2))]
    · rw [if_neg hr1]
      simp only [forceNat_eq]
      apply ih
      · exact lt_of_lt_of_le (Nat.mod_lt _ (Nat.pos_of_ne_zero hr1)) (by omega)
      · exact h1
      · exact invLoop_step_cast n g (r0 / r1) r0 r1 t0 t1 hn h0 h1 (Nat.div_add_mod r0 r1).symm
      · exact ht1
      · exact Nat.mod_lt _ hn
      · rw [← hg, Nat.gcd_comm r0 r1, Nat.gcd_rec r1 r0, Nat.gcd_comm]

/-- Contract of `ModInverse`: when `g` and `n` are relatively prime the result
is the inverse of `g` modulo `n` in the range `[0, n)`. -/
theorem ModInverse_of_coprime (g n : Nat) (hn : 0 < n) (h : Nat.gcd g n = 1) :
    ∃ v, ModInverse g n = some v ∧ v < n ∧ (g * v) % n = 1 % n := by
  unfold ModInverse
  refine (invLoop_spec g n hn (g + 1) n (g % n) 0 (1 % n) ?_ ?_ ?_ hn (Nat.mod_lt _ hn) ?_).1 h
  · exact lt_of_le_of_lt (Nat.mod_le _ _) (Nat.lt_succ_self g)
  · simp
  · push_cast
    rw [ZMod.natCast_mod, ZMod.natCast_mod]
    simp
  · rw [Nat.gcd_comm n (g % n), ← Nat.gcd_rec, Nat.gcd_comm]

/-- Contract of `ModInverse`: nil exactly when `g` and `n` are not relatively
prime. -/
theorem ModInverse_eq_none (g n : Nat) (hn : 0 < n) (h : Nat.gcd g n ≠ 1) :
    ModInverse g n = none := by
  unfold ModInverse
  refine (invLoop_spec g n hn (g + 1) n (g % n) 0 (1 % n) ?_ ?_ ?_ hn (Nat.mod_lt _ hn) ?_).2 h
  · exact lt_of_le_of_lt (Nat.mod_le _ _) (Nat.lt_succ_self g)
  · simp
  · push_cast
    rw [ZMod.natCast_mod, ZMod.natCast_mod]
    simp
  · rw [Nat.gcd_comm n (g % n), ← Nat.gcd_rec, Nat.gcd_comm]

theorem ModInverse_some (g n v : Nat) (hn : 0 < n) (h : ModInverse g n = some v) :
    Nat.gcd g n = 1 ∧ v < n ∧ (g * v) % n = 1 % n := by
  by_cases hg : Nat.gcd g n = 1
  · obtain ⟨w, hw, hlt, hmul⟩ := ModInverse_of_coprime g n hn hg
    rw [h] at hw
    cases hw
    exact ⟨hg, hlt, hmul⟩
  · rw [ModInverse_eq_none g n hn hg] at h
    cases h

/-! ### The toy curve satisfies the contract -/

theorem toy_double_fin : ∀ X Y Z : Fin 5, (toyPt ⟨X.val, Y.val, Z.val⟩).isSome = true →
    (jdouble toyParams ⟨X.val, Y.val, Z.val⟩).X < 5 ∧
    (jdouble toyParams ⟨X.val, Y.val, Z.val⟩).Y < 5 ∧
    (jdouble toyParams ⟨X.val, Y.val, Z.val⟩).Z < 5 ∧
    toyPt (jdouble toyParams ⟨X.val, Y.val, Z.val⟩)
      = (toyPt ⟨X.val, Y.val, Z.val⟩).map (fun g => g + g) := by
  decide!

theorem toy_add_fin : ∀ (X Y Z : Fin 5) (q : Fin 7), q ≠ 0 →
    (toyPt ⟨X.val, Y.val, Z.val⟩).isSome = true →
    (jaddMixed toyParams ⟨X.val, Y.val, Z.val⟩ (toyAffine q).1 (toyAffine q).2).X < 5 ∧
    (jaddMixed toyParams ⟨X.val, Y.val, Z.val⟩ (toyAffine q).1 (toyAffine q).2).Y < 5 ∧
    (jaddMixed toyParams ⟨X.val, Y.val, Z.val⟩ (toyAffine q).1 (toyAffine q).2).Z < 5 ∧
    toyPt (jaddMixed toyParams ⟨X.val, Y.val, Z.val⟩ (toyAffine q).1 (toyAffine q).2)
      = (toyPt ⟨X.val, Y.val, Z.val⟩).map (fun g => g + q) := by
  decide!

theorem toy_affine_fin : ∀ X Y Z : Fin 5, (toyPt ⟨X.val, Y.val, Z.val⟩).isSome = true →
    some (toAffine toyParams ⟨X.val, Y.val, Z.val⟩)
      = (toyPt ⟨X.val, Y.val, Z.val⟩).map toyAffine := by
  decide!

theorem toy_add_eq_fin : ∀ Q R : Fin 7,
    refAdd toyParams (toyAffine Q).1 (toyAffine Q).2 (toyAffine R).1 (toyAffine R).2
      = some (toyAffine (Q + R)) := by
  decide!

theorem toy_from_affine_fin : ∀ Q : Fin 7, Q ≠ 0 →
    pointFromAffine toyParams (toyAffine Q).1 (toyAffine Q).2
      = some ⟨(toyAffine Q).1, (toyAffine Q).2, 1⟩ := by
  decide!

theorem toy_double (t : Jac) (g : ZMod 7) (hb : toyOk t) (h : toyPt t = some g) :
    toyOk (jdouble toyParams t) ∧ toyPt (jdouble toyParams t) = some (g + g) := by
  have key := toy_double_fin ⟨t.X, hb.1⟩ ⟨t.Y, hb.2.1⟩ ⟨t.Z, hb.2.2⟩
  have ht : (⟨t.X, t.Y, t.Z⟩ : Jac) = t := rfl
  simp only [ht, h, Option.isSome_some, Option.map_some', true_implies] at key
  exact ⟨⟨key.1, key.2.1, key.2.2.1⟩, key.2.2.2⟩

theorem toy_add (t : Jac) (g q : ZMod 7) (hq : q ≠ 0) (hb : toyOk t) (h : toyPt t = some g) :
    toyOk (jaddMixed toyParams t (toyAffine q).1 (toyAffine q).2) ∧
    toyPt (jaddMixed toyParams t (toyAffine q).1 (toyAffine q).2) = some (g + q) := by
  have key := toy_add_fin ⟨t.X, hb.1⟩ ⟨t.Y, hb.2.1⟩ ⟨t.Z, hb.2.2⟩ q hq
  have ht : (⟨t.X, t.Y, t.Z⟩ : Jac) = t := rfl
  simp only [ht, h, Option.isSome_some, Option.map_some', true_implies] at key
  exact ⟨⟨key.1, key.2.1, key.2.2.1⟩, key.2.2.2⟩

theorem toy_affine (t : Jac) (g : ZMod 7) (hb : toyOk t) (h : toyPt t = some g) :
    toAffine toyParams t = toyAffine g := by
  have key := toy_affine_fin ⟨t.X, hb.1⟩ ⟨t.Y, hb.2.1⟩ ⟨t.Z, hb.2.2⟩
  have ht : (⟨t.X, t.Y, t.Z⟩ : Jac) = t := rfl
  simp only [ht, h, Option.isSome_some, Option.map_some', true_implies] at key
  exact Option.some.inj key

theorem jloop_succ (cp : CurveParams) (k x y i : Nat) (acc : Jac) :
    jloop cp k x y (i + 1) acc
      = jloop cp k x y i
          (if Nat.testBit k i = true then jaddMixed cp (jdouble cp acc) x y
           else jdouble cp acc) := by
  cases h : Nat.testBit k i
  · simp only [jloop, h, Bool.false_eq_true, if_false]
  · simp only [jloop, h, if_true]

theorem toy_jloop (k : Nat) (q : ZMod 7) (hq : q ≠ 0) : ∀ (i : Nat) (t : Jac) (g : ZMod 7),
    toyOk t → toyPt t = some g →
    toyOk (jloop toyParams k (toyAffine q).1 (toyAffine q).2 i t) ∧
    toyPt (jloop toyParams k (toyAffine q).1 (toyAffine q).2 i t)
      = some (((2 ^ i : Nat) : ZMod 7) * g + ((k % 2 ^ i : Nat) : ZMod 7) * q) := by
  intro i
  induction i with
  | zero =>
    intro t g hb h
    simp [jloop, hb, h, Nat.mod_one]
  | succ i ih =>
    intro t g hb h
    obtain ⟨hb2, h2⟩ := toy_double t g hb h
    have hmod : k % 2 ^ (i + 1) = k % 2 ^ i + 2 ^ i * (k / 2 ^ i % 2) := Nat.mod_pow_succ
    rw [jloop_succ]
    by_cases hbit : Nat.testBit k i = true
    · obtain ⟨hb3, h3⟩ := toy_add _ (g + g) q hq hb2 h2
      have hone : k / 2 ^ i % 2 = 1 := by
        have h5 := hbit
        rw [Nat.testBit_to_div_mod] at h5
        exact of_decide_eq_true h5
      rw [if_pos hbit]
      obtain ⟨hb4, h4⟩ := ih _ _ hb3 h3
      refine ⟨hb4, ?_⟩
      rw [h4, hmod, hone]
      congr 1
      push_cast
      ring
    · have hzero : k / 2 ^ i % 2 = 0 := by
        have h5 := hbit
        rw [Nat.testBit_to_div_mod] at h5
        simpa using h5
      rw [if_neg hbit]
      obtain ⟨hb4, h4⟩ := ih _ _ hb2 h2
      refine ⟨hb4, ?_⟩
      rw [h4, hmod, hzero]
      congr 1
      push_cast
      ring

theorem toy_mult_eq (Q : ZMod 7) (k : List Byte) :
    refScalarMult toyParams (toyAffine Q).1 (toyAffine Q).2 k
      = some (toyAffine (SetBytes k • Q)) := by
  by_cases hQ : Q = 0
  · subst hQ
    simp [refScalarMult, pointFromAffine, toyAffine]
  · unfold refScalarMult
    rw [toy_from_affine_fin Q hQ]
    simp only [forceNat_eq, one_ne_zero, if_false]
    have h0 : toyOk ⟨1, 1, 0⟩ ∧ toyPt ⟨1, 1, 0⟩ = some 0 := by
      unfold toyOk
      decide
    obtain ⟨hb, h⟩ := toy_jloop (SetBytes k) Q hQ (8 * k.length) _ _ h0.1 h0.2
    rw [toy_affine _ _ hb h]
    have hlt : SetBytes k < 2 ^ (8 * k.length) := by
      have := SetBytes_lt k
      rwa [show (256 : Nat) = 2 ^ 8 by norm_num, ← pow_mul] at this
    rw [Nat.mod_eq_of_lt hlt]
    simp

/-- The reference implementation at the toy constants satisfies the contract
of the curve library. -/
theorem toyLaws : CurveLaws toyCurve toyModel where
  prime_N := by
    show Nat.Prime 7
    norm_num
  order_N := by
    intro Q
    show 7 • Q = 0
    revert Q
    decide
  G_ne_zero := by
    show (1 : ZMod 7) ≠ 0
    decide
  affine_inj := by
    intro a b
    show toyAffine a = toyAffine b → a = b
    revert a b
    decide
  affine_zero := rfl
  affine_lt := by
    intro Q
    show (toyAffine Q).1 < 256 ^ 32 ∧ (toyAffine Q).2 < 256 ^ 32
    revert Q
    decide
  base_eq := by
    intro k
    have h := toy_mult_eq 1 k
    exact h
  mult_eq := by
    intro Q k
    exact toy_mult_eq Q k
  add_eq := by
    intro Q R
    exact toy_add_eq_fin Q R

/-! ### The protocol engine over a curve that satisfies the contract -/

theorem decodePoint_fst (b : List Byte) : (decodePoint b).1 = SetBytes (slice b 0 32) := rfl

theorem decodePoint_snd (b : List Byte) : (decodePoint b).2 = SetBytes (slice b 32 64) := rfl

theorem coprime_of_pos_of_lt_prime {d n : Nat} (hp : Nat.Prime n) (h1 : 1 ≤ d) (h2 : d < n) :
    Nat.gcd d n = 1 :=
  Nat.Coprime.symm ((Nat.Prime.coprime_iff_not_dvd hp).2 (Nat.not_dvd_of_pos_of_lt h1 h2))

/-- What `CoopKeyGenInit` returns once the drawn `d2` has the inverse `d2Inv`
and `P1` is on the curve: the points of the specification, written the way the
code writes a point. -/
theorem CoopKeyGenInit_of_inverse {Pt : Type} [AddCommGroup Pt] (C : Curve) (M : PointModel Pt)
    (L : CurveLaws C M) (p1 : List Byte) (P1 : Pt) (d2 d2Inv : Nat)
    (hlen : p1.length = 64) (hP : decodePoint p1 = M.affine P1)
    (hinv : ModInverse d2 C.N = some d2Inv) :
    CoopKeyGenInit C (some d2) p1 =
      .ok { D2 := Bytes d2, D2Inv := Bytes d2Inv,
            P2 := putPoint (M.affine (d2Inv • M.G)),
            Pa := putPoint (M.affine (d2Inv • P1 + (C.N - 1) • M.G)) } := by
  unfold CoopKeyGenInit
  rw [if_neg (by simp [hlen])]
  simp only [hinv, ← decodePoint_fst, ← decodePoint_snd, hP, L.base_eq, L.mult_eq, L.add_eq,
    SetBytes_Bytes, putPoint]

/-- What `CoopDecrypt` returns for a point `T1` on the curve. -/
theorem CoopDecrypt_of_point {Pt : Type} [AddCommGroup Pt] (C : Curve) (M : PointModel Pt)
    (L : CurveLaws C M) (d2Inv t1 : List Byte) (T1 : Pt)
    (hlen : t1.length = 64) (hT : decodePoint t1 = M.affine T1) :
    CoopDecrypt C d2Inv t1 = .ok (putPoint (M.affine (SetBytes d2Inv • T1))) := by
  unfold CoopDecrypt
  rw [if_neg (by simp [hlen])]
  simp only [← decodePoint_fst, ← decodePoint_snd, hT, L.mult_eq, putPoint]

/-- C2: for every `D2Inv`, every 64-byte `Q1` that encodes a point on the
curve, every 32-byte `e` and every drawn `k2`, `k3`, `CoopSign` returns
`r = (e + x1) mod n` with `x1` the affine x-coordinate of `k3·Q1 + k2·G`,
`s2 = D2Inv·k3 mod n` and `s3 = D2Inv·(r + k2) mod n`, each as the big-endian
bytes of that integer. -/
theorem CoopSign_computes {Pt : Type} [AddCommGroup Pt] (C : Curve) (M : PointModel Pt)
    (L : CurveLaws C M) (d2Inv q1 e : List Byte) (Q1 : Pt) (k2 k3 : Nat)
    (hq : q1.length = 64) (hQ : decodePoint q1 = M.affine Q1) (he : e.length = 32) :
    CoopSign C (some k2) (some k3) d2Inv q1 e =
      .ok { R := Bytes ((SetBytes e + (M.affine (k3 • Q1 + k2 • M.G)).1) % C.N),
            S2 := Bytes ((SetBytes d2Inv * k3) % C.N),
            S3 := Bytes ((SetBytes d2Inv *
              ((SetBytes e + (M.affine (k3 • Q1 + k2 • M.G)).1) % C.N + k2)) % C.N) } := by
  unfold CoopSign
  rw [if_neg (by simp [hq]), if_neg (by simp [he])]
  simp only [← decodePoint_fst, ← decodePoint_snd, hQ, L.base_eq, L.mult_eq, L.add_eq,
    SetBytes_Bytes]

theorem CoopSign_computes_witness :
    CoopSign toyCurve (some 2) (some 3) (Bytes 5) (encodePoint 1 3) (make 31 ++ [4]) =
      .ok { R := Bytes ((SetBytes (make 31 ++ [4])
                  + (toyModel.affine (3 • (1 : ZMod 7) + 2 • toyModel.G)).1) % toyCurve.N),
            S2 := Bytes ((SetBytes (Bytes 5) * 3) % toyCurve.N),
            S3 := Bytes ((SetBytes (Bytes 5) *
              ((SetBytes (make 31 ++ [4])
                  + (toyModel.affine (3 • (1 : ZMod 7) + 2 • toyModel.G)).1) % toyCurve.N + 2))
                % toyCurve.N) } :=
  CoopSign_computes toyCurve toyModel toyLaws (Bytes 5) (encodePoint 1 3) (make 31 ++ [4])
    (1 : ZMod 7) 2 3 (by decide) (by decide) (by decide)

/-! ### The algebra of the shares -/

theorem nsmul_mod_order {Pt : Type} [AddCommGroup Pt] {C : Curve} {M : PointModel Pt}
    (L : CurveLaws C M) (k : Nat) (Q : Pt) : (k % C.N) • Q = k • Q := by
  conv_rhs => rw [← Nat.div_add_mod k C.N]
  rw [add_nsmul, mul_nsmul, L.order_N, nsmul_zero, zero_add]

theorem nsmul_congr_order {Pt : Type} [AddCommGroup Pt] {C : Curve} {M : PointModel Pt}
    (L : CurveLaws C M) {a b : Nat} (h : a % C.N = b % C.N) (Q : Pt) : a • Q = b • Q := by
  rw [← nsmul_mod_order L a Q, ← nsmul_mod_order L b Q, h]

theorem pred_order_nsmul {Pt : Type} [AddCommGroup Pt] {C : Curve} {M : PointModel Pt}
    (L : CurveLaws C M) (Q : Pt) : (C.N - 1) • Q = -Q := by
  have hpos : 1 ≤ C.N := L.prime_N.one_lt.le
  have h : (C.N - 1) • Q + Q = 0 := by
    rw [← succ_nsmul, Nat.sub_add_cancel hpos, L.order_N]
  exact eq_neg_of_add_eq_zero_left h

theorem inverse_unique_mod {n d a b : Nat} (ha : (d * a) % n = 1) (hb : (d * b) % n = 1) :
    a % n = b % n := by
  have h1 : ((d * a : Nat) : ZMod n) = ((d * b : Nat) : ZMod n) := by
    rw [ZMod.natCast_eq_natCast_iff', ha, hb]
  have h2 : ((d * a : Nat) : ZMod n) = 1 := by
    have : ((d * a : Nat) : ZMod n) = ((1 : Nat) : ZMod n) := by
      rw [ZMod.natCast_eq_natCast_iff', ha]
      rcases Nat.lt_or_ge 1 n with h | h
      · exact (Nat.mod_eq_of_lt h).symm
      · interval_cases n
        · simp
        · omega
    simpa using this
  have h3 : ((d * b : Nat) : ZMod n) = 1 := h1 ▸ h2
  rw [← ZMod.natCast_eq_natCast_iff']
  push_cast at h2 h3
  calc (a : ZMod n) = a * ((d : ZMod n) * b) := by rw [h3, mul_one]
    _ = ((d : ZMod n) * a) * b := by ring
    _ = b := by rw [h2, one_mul]

/-- The point `CoopKeyGenInit` computes for `Pa` is `(d1·d2)⁻¹·G − G`: for
inverses `d1Inv`, `d2Inv` of `d1`, `d2` and an inverse `w` of `d1·d2` modulo
the order, `d2Inv·(d1Inv·G) + (N − 1)·G = w·G − G`. -/
theorem public_key_point {Pt : Type} [AddCommGroup Pt] {C : Curve} {M : PointModel Pt}
    (L : CurveLaws C M) (d1 d1Inv d2 d2Inv w : Nat)
    (h1 : (d1 * d1Inv) % C.N = 1) (h2 : (d2 * d2Inv) % C.N = 1)
    (hw : (d1 * d2 * w) % C.N = 1) :
    d2Inv • (d1Inv • M.G) + (C.N - 1) • M.G = w • M.G - M.G := by
  have hprod : (d1 * d2 * (d1Inv * d2Inv)) % C.N = 1 := by
    have : d1 * d2 * (d1Inv * d2Inv) = (d1 * d1Inv) * (d2 * d2Inv) := by ring
    rw [this, Nat.mul_mod, h1, h2]
    exact Nat.mod_eq_of_lt L.prime_N.one_lt
  have hmod : (d1Inv * d2Inv) % C.N = w % C.N := inverse_unique_mod hprod hw
  rw [pred_order_nsmul L, ← mul_nsmul, nsmul_congr_order L hmod, sub_eq_add_neg]

/-- The point `CoopDecrypt` computes: with `C1 = k·G`, `T1 = d1Inv·C1` and
`Pa` the point of `public_key_point`, `d2Inv·T1 − C1 = k·Pa`. -/
theorem decrypt_point {Pt : Type} [AddCommGroup Pt] {C : Curve} {M : PointModel Pt}
    (L : CurveLaws C M) (d1Inv d2Inv k : Nat) :
    d2Inv • (d1Inv • (k • M.G)) - k • M.G
      = k • (d2Inv • (d1Inv • M.G) + (C.N - 1) • M.G) := by
  rw [pred_order_nsmul L, nsmul_add, smul_neg, sub_eq_add_neg]
  congr 1
  rw [← mul_nsmul, ← mul_nsmul, ← mul_nsmul, ← mul_nsmul]
  congr 1
  ring

/-! ### The bytes of a point -/

theorem bytesAux_zero (fuel : Nat) (acc : List Byte) : bytesAux fuel 0 acc = acc := by
  cases fuel <;> simp [bytesAux]

theorem bytesAux_length : ∀ (k n fuel : Nat) (acc : List Byte), n ≤ fuel →
    256 ^ k ≤ n → n < 256 ^ (k + 1) → (bytesAux fuel n acc).length = k + 1 + acc.length := by
  intro k
  induction k with
  | zero =>
    intro n fuel acc hf h1 h2
    have hn : n ≠ 0 := by
      rw [pow_zero] at h1
      omega
    cases fuel with
    | zero => omega
    | succ f =>
      unfold bytesAux
      rw [if_neg hn]
      have hd : n / 256 = 0 := by
        rw [zero_add, pow_one] at h2
        omega
      rw [hd, bytesAux_zero]
      simp
      omega
  | succ k ih =>
    intro n fuel acc hf h1 h2
    have hpos : 0 < 256 ^ (k + 1) := Nat.pos_of_ne_zero (by positivity)
    have hn : n ≠ 0 := by omega
    cases fuel with
    | zero => omega
    | succ f =>
      unfold bytesAux
      rw [if_neg hn]
      have h3 : 256 ^ k ≤ n / 256 := by
        rw [Nat.le_div_iff_mul_le (by decide), ← pow_succ]
        exact h1
      have h4 : n / 256 < 256 ^ (k + 1) := by
        rw [Nat.div_lt_iff_lt_mul (by decide), ← pow_succ]
        exact h2
      rw [ih (n / 256) f _ (by omega) h3 h4]
      simp
      omega

/-- A coordinate of full width has 32 bytes. -/
theorem Bytes_length_full (x : Nat) (h1 : 256 ^ 31 ≤ x) (h2 : x < 256 ^ 32) :
    (Bytes x).length = 32 := by
  unfold Bytes
  rw [bytesAux_length 31 x x [] le_rfl h1 h2]
  rfl

theorem copy_first_half (bx : List Byte) (h : bx.length = 32) :
    copy (make 64) 0 32 bx = bx ++ make 32 := by
  unfold copy make
  simp [h, List.take_of_length_le (le_of_eq h), List.drop_replicate]

theorem copy_second_half (bx bz src : List Byte) (hx : bx.length = 32) (hz : bz.length = 32)
    (hs : src.length = 32) : copy (bx ++ bz) 32 64 src = bx ++ src := by
  unfold copy
  simp only [hs, Nat.reduceSub, min_self, Nat.reduceAdd]
  rw [List.take_append_of_le_length (le_of_eq hx.symm), List.take_of_length_le (le_of_eq hx),
    List.take_of_length_le (le_of_eq hs), List.drop_of_length_le (by simp [hx, hz]),
    List.append_nil]

/-- For a point with two coordinates of full width, the bytes the code builds
are the encoding of the point. -/
theorem putPoint_eq_encodePoint (a : Nat × Nat)
    (hx1 : 256 ^ 31 ≤ a.1) (hx2 : a.1 < 256 ^ 32) (hy1 : 256 ^ 31 ≤ a.2) (hy2 : a.2 < 256 ^ 32) :
    putPoint a = encodePoint a.1 a.2 := by
  have hx := Bytes_length_full a.1 hx1 hx2
  have hy := Bytes_length_full a.2 hy1 hy2
  unfold putPoint encodePoint
  rw [copy_first_half _ hx, copy_second_half _ _ _ hx (by simp [make]) hy, hx, hy]
  simp [make]

/-- Key generation at the level of points: for a client scalar with inverse
`d1Inv`, `P1 = d1Inv·G`, a draw `d2` in `[1, N-1]` and an inverse `w` of
`d1·d2`, `CoopKeyGenInit` succeeds and the point it writes as `Pa` is
`w·G − G`; it writes the encoding of that point when both coordinates have
full width. -/
theorem CoopKeyGenInit_public_key {Pt : Type} [AddCommGroup Pt] (C : Curve)
    (M : PointModel Pt) (L : CurveLaws C M) (p1 : List Byte) (d1 d1Inv d2 w : Nat)
    (hlen : p1.length = 64) (hP : decodePoint p1 = M.affine (d1Inv • M.G))
    (h1 : (d1 * d1Inv) % C.N = 1) (hd2 : 1 ≤ d2) (hd2N : d2 < C.N)
    (hw : (d1 * d2 * w) % C.N = 1) :
    ∃ r, CoopKeyGenInit C (some d2) p1 = .ok r ∧
      r.Pa = putPoint (M.affine (w • M.G - M.G)) ∧
      (256 ^ 31 ≤ (M.affine (w • M.G - M.G)).1 → 256 ^ 31 ≤ (M.affine (w • M.G - M.G)).2 →
        r.Pa = encodePoint (M.affine (w • M.G - M.G)).1 (M.affine (w • M.G - M.G)).2) := by
  have hpos : 0 < C.N := L.prime_N.pos
  obtain ⟨d2Inv, hinv, _, hmul⟩ :=
    ModInverse_of_coprime d2 C.N hpos (coprime_of_pos_of_lt_prime L.prime_N hd2 hd2N)
  rw [Nat.mod_eq_of_lt L.prime_N.one_lt] at hmul
  have hpt := public_key_point L d1 d1Inv d2 d2Inv w h1 hmul hw
  refine ⟨_, CoopKeyGenInit_of_inverse C M L p1 _ d2 d2Inv hlen hP hinv, ?_, ?_⟩
  · simp only [hpt]
  · intro hx hy
    simp only [hpt]
    exact putPoint_eq_encodePoint _ hx (L.affine_lt _).1 hy (L.affine_lt _).2

/-- Decryption at the level of points: for `C1 = k·G` and `T1 = d1Inv·C1`,
`CoopDecrypt` writes the point `T2 = D2Inv·T1`, which satisfies
`T2 − C1 = k·Pa` for the point `Pa` of key generation; it writes the encoding
of `T2` when both coordinates have full width. -/
theorem CoopDecrypt_shared_point {Pt : Type} [AddCommGroup Pt] (C : Curve)
    (M : PointModel Pt) (L : CurveLaws C M) (t1 : List Byte) (d1Inv d2Inv k : Nat)
    (hlen : t1.length = 64) (hT : decodePoint t1 = M.affine (d1Inv • (k • M.G))) :
    CoopDecrypt C (Bytes d2Inv) t1 = .ok (putPoint (M.affine (d2Inv • (d1Inv • (k • M.G))))) ∧
    d2Inv • (d1Inv • (k • M.G)) - k • M.G
      = k • (d2Inv • (d1Inv • M.G) + (C.N - 1) • M.G) ∧
    (256 ^ 31 ≤ (M.affine (d2Inv • (d1Inv • (k • M.G)))).1 →
      256 ^ 31 ≤ (M.affine (d2Inv • (d1Inv • (k • M.G)))).2 →
      CoopDecrypt C (Bytes d2Inv) t1
        = .ok (encodePoint (M.affine (d2Inv • (d1Inv • (k • M.G)))).1
            (M.affine (d2Inv • (d1Inv • (k • M.G)))).2)) := by
  have h := CoopDecrypt_of_point C M L (Bytes d2Inv) t1 _ hlen hT
  rw [SetBytes_Bytes] at h
  refine ⟨h, decrypt_point L d1Inv d2Inv k, ?_⟩
  intro hx hy
  rw [h, putPoint_eq_encodePoint _ hx (L.affine_lt _).1 hy (L.affine_lt _).2]

/-! ### Base64 round trip -/

theorem b64_char_facts : ∀ i : Fin 64,
    b64Index (b64Char i.val) = some i.val ∧ b64Char i.val ≠ '=' ∧
    b64Char i.val ≠ '\r' ∧ b64Char i.val ≠ '\n' := by
  decide

theorem b64Index_b64Char {i : Nat} (h : i < 64) : b64Index (b64Char i) = some i :=
  (b64_char_facts ⟨i, h⟩).1

theorem b64Char_ne_pad {i : Nat} (h : i < 64) : b64Char i ≠ '=' :=
  (b64_char_facts ⟨i, h⟩).2.1

theorem b64Char_keep {i : Nat} (h : i < 64) : b64Char i ≠ '\r' ∧ b64Char i ≠ '\n' :=
  ⟨(b64_char_facts ⟨i, h⟩).2.2.1, (b64_char_facts ⟨i, h⟩).2.2.2⟩

theorem pad_keep : '=' ≠ '\r' ∧ '=' ≠ '\n' := by decide

theorem encodeChunks_keep (bs : List Byte) :
    ∀ c ∈ encodeChunks bs, c ≠ '\r' ∧ c ≠ '\n' := by
  induction bs using encodeChunks.induct with
  | case1 => intro c hc; simp [encodeChunks] at hc
  | case2 a =>
    have ha := a.isLt
    intro c hc
    simp only [encodeChunks, List.mem_cons, List.mem_singleton, List.not_mem_nil, or_false] at hc
    rcases hc with rfl | rfl | rfl | rfl
    · exact b64Char_keep (by omega)
    · exact b64Char_keep (by omega)
    · exact pad_keep
    · exact pad_keep
  | case3 a b =>
    have ha := a.isLt
    have hb := b.isLt
    intro c hc
    simp only [encodeChunks, List.mem_cons, List.mem_singleton, List.not_mem_nil, or_false] at hc
    rcases hc with rfl | rfl | rfl | rfl
    · exact b64Char_keep (by omega)
    · exact b64Char_keep (by omega)
    · exact b64Char_keep (by omega)
    · exact pad_keep
  | case4 a b c rest ih =>
    have ha := a.isLt
    have hb := b.isLt
    have hc := c.isLt
    intro x hx
    simp only [encodeChunks, List.mem_cons] at hx
    rcases hx with rfl | rfl | rfl | rfl | hx
    · exact b64Char_keep (by omega)
    · exact b64Char_keep (by omega)
    · exact b64Char_keep (by omega)
    · exact b64Char_keep (by omega)
    · exact ih x hx

theorem encodeChunks_filter (bs : List Byte) :
    (encodeChunks bs).filter (fun c => c ≠ '\r' ∧ c ≠ '\n') = encodeChunks bs := by
  rw [List.filter_eq_self]
  intro c hc
  exact decide_eq_true (encodeChunks_keep bs c hc)

theorem toByte_val (a : Byte) {v : Nat} (h : v = a.val) : toByte v = a := by
  subst h
  apply Fin.ext
  simp [toByte, Nat.mod_eq_of_lt a.isLt]

theorem decodeChunks_encodeChunks (bs : List Byte) :
    decodeChunks (encodeChunks bs) = some bs := by
  induction bs using encodeChunks.induct with
  | case1 => rfl
  | case2 a =>
    have ha := a.isLt
    simp only [encodeChunks, decodeChunks, if_true, ne_eq, not_true_eq_false, if_false]
    rw [b64Index_b64Char (by omega), b64Index_b64Char (by omega)]
    simp only
    rw [toByte_val a (by omega)]
  | case3 a b =>
    have ha := a.isLt
    have hb := b.isLt
    have h3 : b64Char (b.val % 16 * 4) ≠ '=' := b64Char_ne_pad (by omega)
    simp only [encodeChunks, decodeChunks, if_true, ne_eq, not_true_eq_false, if_false, h3]
    rw [b64Index_b64Char (by omega), b64Index_b64Char (by omega), b64Index_b64Char (by omega)]
    simp only
    rw [toByte_val a (by omega), toByte_val b (by omega)]
  | case4 a b c rest ih =>
    have ha := a.isLt
    have hb := b.isLt
    have hc := c.isLt
    have h4 : b64Char (c.val % 64) ≠ '=' := b64Char_ne_pad (by omega)
    simp only [encodeChunks, decodeChunks, if_false, h4]
    rw [b64Index_b64Char (by omega), b64Index_b64Char (by omega), b64Index_b64Char (by omega),
      b64Index_b64Char (by omega), ih]
    simp only
    rw [toByte_val a (by omega), toByte_val b (by omega), toByte_val c (by omega)]

/-- Decoding what `EncodeToBase64` wrote gives the bytes back. -/
theorem DecodeFromBase64_EncodeToBase64 (bs : List Byte) :
    DecodeFromBase64 (EncodeToBase64 bs) = some bs := by
  unfold DecodeFromBase64 EncodeToBase64
  show decodeChunks ((encodeChunks bs).filter _) = some bs
  rw [encodeChunks_filter, decodeChunks_encodeChunks]

/-! ### Shares -/

theorem CoopKeyGenInit_ok_inv (C : Curve) (rnd : Option Nat) (p1 : List Byte)
    (res : SM2CoopKeyGenResult) (h : CoopKeyGenInit C rnd p1 = .ok res) :
    ∃ d2 d2Inv, rnd = some d2 ∧ ModInverse d2 C.N = some d2Inv ∧
      res.D2 = Bytes d2 ∧ res.D2Inv = Bytes d2Inv := by
  unfold CoopKeyGenInit at h
  split at h
  · cases h
  · cases rnd with
    | none => cases h
    | some d2 =>
      dsimp only at h
      cases hinv : ModInverse d2 C.N with
      | none => rw [hinv] at h; cases h
      | some d2Inv =>
        rw [hinv] at h
        dsimp only at h
        cases h1 : C.ScalarBaseMult (Bytes d2Inv) with
        | none => rw [h1] at h; cases h
        | some a =>
          rw [h1] at h
          dsimp only at h
          cases h2 : C.ScalarMult (SetBytes (slice p1 0 32)) (SetBytes (slice p1 32 64))
              (Bytes d2Inv) with
          | none => rw [h2] at h; cases h
          | some b =>
            rw [h2] at h
            dsimp only at h
            cases h3 : C.ScalarBaseMult (Bytes (C.N - 1)) with
            | none => rw [h3] at h; cases h
            | some g =>
              rw [h3] at h
              dsimp only at h
              cases h4 : C.Add b.1 b.2 g.1 g.2 with
              | none => rw [h4] at h; cases h
              | some s =>
                rw [h4] at h
                dsimp only at h
                cases h
                exact ⟨d2, d2Inv, rfl, hinv, rfl, rfl⟩

theorem scalars_of_keygen (C : Curve) (hN : 1 < C.N) (rnd : Option Nat) (p1 : List Byte)
    (res : SM2CoopKeyGenResult) (hr : DrawInRange C rnd)
    (h : CoopKeyGenInit C rnd p1 = .ok res) :
    0 < SetBytes res.D2 ∧ SetBytes res.D2 < C.N ∧
    0 < SetBytes res.D2Inv ∧ SetBytes res.D2Inv < C.N ∧
    (SetBytes res.D2Inv * SetBytes res.D2) % C.N = 1 := by
  obtain ⟨d2, d2Inv, hrnd, hinv, hD2, hD2Inv⟩ := CoopKeyGenInit_ok_inv C rnd p1 res h
  have hpos : 0 < C.N := by omega
  obtain ⟨hg, hlt, hmul⟩ := ModInverse_some d2 C.N d2Inv hpos hinv
  rw [Nat.mod_eq_of_lt hN] at hmul
  rw [hD2, hD2Inv, SetBytes_Bytes, SetBytes_Bytes]
  have hd2 : d2 ≠ 0 := by
    rintro rfl
    rw [Nat.gcd_zero_left] at hg
    omega
  have hd2Inv : d2Inv ≠ 0 := by
    rintro rfl
    simp at hmul
  refine ⟨Nat.pos_of_ne_zero hd2, hr d2 hrnd, Nat.pos_of_ne_zero hd2Inv, hlt, ?_⟩
  rw [Nat.mul_comm]
  exact hmul

theorem writeAudit_keys (w : World) (db : DB) (log : AuditLog) :
    (writeAudit w db log).keys = db.keys := by
  unfold writeAudit AuditLogRepository.Create
  split <;> rfl

theorem writeAudit_users (w : World) (db : DB) (log : AuditLog) :
    (writeAudit w db log).users = db.users := by
  unfold writeAudit AuditLogRepository.Create
  split <;> rfl

theorem writeAudit_sessions (w : World) (db : DB) (log : AuditLog) :
    (writeAudit w db log).sessions = db.sessions := by
  unfold writeAudit AuditLogRepository.Create
  split <;> rfl

theorem GoodShare_of_keygen (C : Curve) (hN : 1 < C.N) (rnd : Option Nat) (p1 : List Byte)
    (res : SM2CoopKeyGenResult) (hr : DrawInRange C rnd)
    (h : CoopKeyGenInit C rnd p1 = .ok res) (k : Key)
    (h2 : k.D2 = EncodeToBase64 res.D2) (h3 : k.D2Inv = EncodeToBase64 res.D2Inv) :
    GoodShare C k := by
  unfold GoodShare
  rw [h2, h3, DecodeFromBase64_EncodeToBase64, DecodeFromBase64_EncodeToBase64]
  exact scalars_of_keygen C hN rnd p1 res hr h

theorem KeyInit_keys (C : Curve) (hN : 1 < C.N) (w : World) (db : DB) (req : KeyInitRequest)
    (ip : String) (hr : DrawInRange C w.rand1) :
    ∀ k ∈ (CosignService.KeyInit C w db req ip).db.keys, k ∈ db.keys ∨ GoodShare C k := by
  intro k hk
  unfold CosignService.KeyInit at hk
  cases hd : DecodeFromBase64 req.P1 with
  | none => rw [hd] at hk; exact Or.inl hk
  | some p1 =>
    rw [hd] at hk
    dsimp only at hk
    split at hk
    · exact Or.inl hk
    · cases hg : CoopKeyGenInit C w.rand1 p1 with
      | crash => rw [hg] at hk; exact Or.inl hk
      | error e => rw [hg] at hk; exact Or.inl hk
      | ok res =>
        rw [hg] at hk
        dsimp only at hk
        cases hf : KeyRepository.FindByUserID w db req.UserID with
        | some existing =>
          rw [hf] at hk
          dsimp only at hk
          unfold KeyRepository.Update at hk
          by_cases hu : w.fails Stmt.keyUpdate = true
          · rw [if_pos hu] at hk; exact Or.inl hk
          · rw [if_neg hu] at hk
            simp only [SvcResult.db, writeAudit_keys, List.mem_map] at hk
            obtain ⟨k0, hk0, rfl⟩ := hk
            split
            · exact Or.inr (GoodShare_of_keygen C hN w.rand1 p1 res hr hg _ rfl rfl)
            · exact Or.inl hk0
        | none =>
          rw [hf] at hk
          dsimp only at hk
          unfold KeyRepository.Create at hk
          by_cases hu : w.fails Stmt.keyInsert = true
          · rw [if_pos hu] at hk; exact Or.inl hk
          · rw [if_neg hu] at hk
            simp only [SvcResult.db, writeAudit_keys, List.mem_append, List.mem_singleton] at hk
            rcases hk with hk | rfl
            · exact Or.inl hk
            · exact Or.inr (GoodShare_of_keygen C hN w.rand1 p1 res hr hg _ rfl rfl)

theorem Register_keys (C : Curve) (hN : 1 < C.N) (sm3 : List Byte → List Byte) (w : World)
    (db : DB) (req : RegisterRequest) (ip : String) (hr : DrawInRange C w.rand1) :
    ∀ k ∈ (UserService.Register C sm3 w db req ip).db.keys, k ∈ db.keys ∨ GoodShare C k := by
  intro k hk
  unfold UserService.Register at hk
  cases he : UserRepository.ExistsByUsername w db req.Username with
  | none => rw [he] at hk; exact Or.inl hk
  | some b =>
    cases b with
    | true => rw [he] at hk; exact Or.inl hk
    | false =>
      rw [he] at hk
      dsimp only at hk
      cases hd : DecodeFromBase64 req.P1 with
      | none => rw [hd] at hk; exact Or.inl hk
      | some p1 =>
        rw [hd] at hk
        dsimp only at hk
        split at hk
        · exact Or.inl hk
        · cases hg : CoopKeyGenInit C w.rand1 p1 with
          | crash => rw [hg] at hk; exact Or.inl hk
          | error e => rw [hg] at hk; exact Or.inl hk
          | ok res =>
            rw [hg] at hk
            dsimp only at hk
            cases hs : w.salt with
            | none => rw [hs] at hk; exact Or.inl hk
            | some salt =>
              rw [hs] at hk
              dsimp only at hk
              unfold UserRepository.Create at hk
              by_cases hu : w.fails Stmt.userInsert = true
              · rw [if_pos hu] at hk; exact Or.inl hk
              · rw [if_neg hu] at hk
                dsimp only at hk
                unfold KeyRepository.Create at hk
                by_cases hv : w.fails Stmt.keyInsert = true
                · rw [if_pos hv] at hk; exact Or.inl hk
                · rw [if_neg hv] at hk
                  simp only [SvcResult.db, writeAudit_keys, List.mem_append,
                    List.mem_singleton] at hk
                  rcases hk with hk | rfl
                  · exact Or.inl hk
                  · exact Or.inr (GoodShare_of_keygen C hN w.rand1 p1 res hr hg _ rfl rfl)

/-- C6: for every successful result of `CoopKeyGenInit`, and therefore for
every share that `KeyInit` or `Register` stores (every row of `keys` after the
call that is not a row from before it), `0 < d2 < n`, `0 < d2_inv < n` and
`d2_inv · d2 ≡ 1 (mod n)`, the columns being read back through base64 as
big-endian integers. The order `n` is greater than 1 and the drawn integer is
in the range `[0, n)` of `rand.Int`. -/
theorem stored_share_scalars (C : Curve) (hN : 1 < C.N) :
    (∀ (rnd : Option Nat) (p1 : List Byte) (res : SM2CoopKeyGenResult),
      DrawInRange C rnd → CoopKeyGenInit C rnd p1 = .ok res →
        0 < SetBytes res.D2 ∧ SetBytes res.D2 < C.N ∧
        0 < SetBytes res.D2Inv ∧ SetBytes res.D2Inv < C.N ∧
        (SetBytes res.D2Inv * SetBytes res.D2) % C.N = 1) ∧
    (∀ (w : World) (db : DB) (req : KeyInitRequest) (ip : String), DrawInRange C w.rand1 →
      ∀ k ∈ (CosignService.KeyInit C w db req ip).db.keys, k ∈ db.keys ∨ GoodShare C k) ∧
    (∀ (sm3 : List Byte → List Byte) (w : World) (db : DB) (req : RegisterRequest)
      (ip : String), DrawInRange C w.rand1 →
      ∀ k ∈ (UserService.Register C sm3 w db req ip).db.keys, k ∈ db.keys ∨ GoodShare C k) :=
  ⟨fun rnd p1 res hr h => scalars_of_keygen C hN rnd p1 res hr h,
   fun w db req ip hr => KeyInit_keys C hN w db req ip hr,
   fun sm3 w db req ip hr => Register_keys C hN sm3 w db req ip hr⟩

theorem stored_share_scalars_witness :
    GoodShare toyCurve (sampleKey 3 5 (putPoint (0, 1))) :=
  ((stored_share_scalars toyCurve (by decide)).2.2 sampleHash sampleWorld emptyDB
      { Username := "alice", Password := "pw123", P1 := EncodeToBase64 (encodePoint 1 3) }
      "10.0.0.1" (fun d h => by cases h; decide) _ (by decide)).resolve_left
    (by decide)

/-! ### The session gate -/

/-- The gate decides on the session alone: a stored session that has not
expired is returned with code 0, whatever the `users` table holds. -/
theorem ValidateSession_of_valid (w : World) (db : DB) (token : String) (s : Session)
    (hf : SessionRepository.FindByID w db token = some s)
    (he : s.IsExpired w.now = false) :
    UserService.ValidateSession w db token = (some s, CodeSuccess, db) := by
  unfold UserService.ValidateSession
  rw [hf]
  simp only [he, Bool.false_eq_true, if_false]

theorem AuthMiddleware_accepts {α : Type} (w : World) (db : DB) (c : Ctx)
    (next : Ctx → DB → HttpResult α) (token : String) (s : Session) (db1 : DB)
    (h1 : SplitN2 c.authorization = ["Bearer", token])
    (hv : UserService.ValidateSession w db token = (some s, CodeSuccess, db1)) :
    AuthMiddleware w db c next
      = next { c with userID := some s.UserID, session := some s } db1 := by
  have h0 : c.authorization ≠ "" := by
    intro h
    rw [h] at h1
    have h2 : SplitN2 "" = [""] := by decide
    rw [h2] at h1
    have h3 := congrArg List.length h1
    simp at h3
  unfold AuthMiddleware
  simp only [h0, if_false, h1, hv, ne_eq, not_true_eq_false]

theorem KeyInit_handler_eq (C : Curve) (w : World) (c : Ctx) (req : KeyInitRequest) (db : DB)
    (uid : String) (hu : c.userID = some uid) (hne : uid ≠ "") :
    CosignHandler.KeyInit C w c (some req) db
      = respond (CosignService.KeyInit C w db { UserID := uid, P1 := req.P1 } c.ip) := by
  unfold CosignHandler.KeyInit GetUserID
  simp only [hu, Option.getD_some, hne, if_false]

theorem Sign_handler_eq (C : Curve) (w : World) (c : Ctx) (req : SignRequest) (db : DB)
    (uid : String) (hu : c.userID = some uid) (hne : uid ≠ "") :
    CosignHandler.Sign C w c (some req) db
      = respond (CosignService.Sign C w db { UserID := uid, Q1 := req.Q1, E := req.E } c.ip) := by
  unfold CosignHandler.Sign GetUserID
  simp only [hu, Option.getD_some, hne, if_false]

theorem Decrypt_handler_eq (C : Curve) (w : World) (c : Ctx) (req : DecryptRequest) (db : DB)
    (uid : String) (hu : c.userID = some uid) (hne : uid ≠ "") :
    CosignHandler.Decrypt C w c (some req) db
      = respond (CosignService.Decrypt C w db { UserID := uid, T1 := req.T1 } c.ip) := by
  unfold CosignHandler.Decrypt GetUserID
  simp only [hu, Option.getD_some, hne, if_false]

theorem KeyInit_handler_body (C : Curve) (w : World) (c : Ctx) (db : DB) (u1 u2 p1 : String) :
    CosignHandler.KeyInit C w c (some { UserID := u1, P1 := p1 }) db
      = CosignHandler.KeyInit C w c (some { UserID := u2, P1 := p1 }) db := rfl

theorem Sign_handler_body (C : Curve) (w : World) (c : Ctx) (db : DB) (u1 u2 q1 e : String) :
    CosignHandler.Sign C w c (some { UserID := u1, Q1 := q1, E := e }) db
      = CosignHandler.Sign C w c (some { UserID := u2, Q1 := q1, E := e }) db := rfl

theorem Decrypt_handler_body (C : Curve) (w : World) (c : Ctx) (db : DB) (u1 u2 t1 : String) :
    CosignHandler.Decrypt C w c (some { UserID := u1, T1 := t1 }) db
      = CosignHandler.Decrypt C w c (some { UserID := u2, T1 := t1 }) db := rfl

/-- C7: on the routes `/api/key/init`, `/api/sign` and `/api/decrypt`, two
requests that differ only in the `userId` of the body are handled alike, and
once the gate has accepted a token the service is called with the user id of
the session in place of the one of the body. -/
theorem session_user_overrides_body (C : Curve) (w : World) (db : DB) (c : Ctx) :
    (∀ u1 u2 p1 : String,
      apiKeyInit C w db c (some { UserID := u1, P1 := p1 })
        = apiKeyInit C w db c (some { UserID := u2, P1 := p1 })) ∧
    (∀ u1 u2 q1 e : String,
      apiSign C w db c (some { UserID := u1, Q1 := q1, E := e })
        = apiSign C w db c (some { UserID := u2, Q1 := q1, E := e })) ∧
    (∀ u1 u2 t1 : String,
      apiDecrypt C w db c (some { UserID := u1, T1 := t1 })
        = apiDecrypt C w db c (some { UserID := u2, T1 := t1 })) ∧
    (∀ (token : String) (s : Session) (db1 : DB),
      SplitN2 c.authorization = ["Bearer", token] →
      UserService.ValidateSession w db token = (some s, CodeSuccess, db1) →
      s.UserID ≠ "" →
      (∀ req : KeyInitRequest, apiKeyInit C w db c (some req)
        = respond (CosignService.KeyInit C w db1 { UserID := s.UserID, P1 := req.P1 } c.ip)) ∧
      (∀ req : SignRequest, apiSign C w db c (some req)
        = respond (CosignService.Sign C w db1
            { UserID := s.UserID, Q1 := req.Q1, E := req.E } c.ip)) ∧
      (∀ req : DecryptRequest, apiDecrypt C w db c (some req)
        = respond (CosignService.Decrypt C w db1 { UserID := s.UserID, T1 := req.T1 } c.ip))) := by
  refine ⟨?_, ?_, ?_, ?_⟩
  · intro u1 u2 p1
    unfold apiKeyInit
    congr 1
  · intro u1 u2 q1 e
    unfold apiSign
    congr 1
  · intro u1 u2 t1
    unfold apiDecrypt
    congr 1
  · intro token s db1 h1 hv hne
    refine ⟨?_, ?_, ?_⟩
    · intro req
      unfold apiKeyInit
      rw [AuthMiddleware_accepts w db c _ token s db1 h1 hv]
      exact KeyInit_handler_eq C w _ req db1 s.UserID rfl hne
    · intro req
      unfold apiSign
      rw [AuthMiddleware_accepts w db c _ token s db1 h1 hv]
      exact Sign_handler_eq C w _ req db1 s.UserID rfl hne
    · intro req
      unfold apiDecrypt
      rw [AuthMiddleware_accepts w db c _ token s db1 h1 hv]
      exact Decrypt_handler_eq C w _ req db1 s.UserID rfl hne

theorem session_user_overrides_body_witness :
    apiDecrypt toyCurve sampleWorld toyDB sampleCtx
        (some { UserID := "mallory", T1 := EncodeToBase64 (encodePoint 1 3) })
      = respond (CosignService.Decrypt toyCurve sampleWorld toyDB
          { UserID := "id-0", T1 := EncodeToBase64 (encodePoint 1 3) } "10.0.0.1") :=
  ((session_user_overrides_body toyCurve sampleWorld toyDB sampleCtx).2.2.2 "t0"
      sampleSession toyDB
      (by decide) (by decide) (by decide)).2.2
    { UserID := "mallory", T1 := EncodeToBase64 (encodePoint 1 3) }

/-- C8, the claim as stated fails: at the instant `now = expires_at` the
session is not expired and `ValidateSession` returns it with code 0; and a
token whose row is no longer in storage is rejected with code 10005, not
10006. -/
theorem session_valid_at_expiry_instant :
    Session.IsExpired sampleSession 2000 = false ∧
    UserService.ValidateSession { sampleWorld with now := 2000 } toyDB "t0"
      = (some sampleSession, CodeSuccess, toyDB) ∧
    UserService.ValidateSession { sampleWorld with now := 3000 } emptyDB "t0"
      = (none, 10005, emptyDB) := by
  decide

/-- C8, amended: for every session and every instant `now` with
`expires_at < now`, `IsExpired` returns true and `ValidateSession` rejects the
token of a stored session with code 10006 and deletes the row; a token without
a row is rejected with code 10005. -/
theorem expired_session_rejected (s : Session) (now : Int) (h : s.ExpiresAt < now) :
    s.IsExpired now = true ∧
    (∀ (w : World) (db : DB) (token : String), w.now = now →
      SessionRepository.FindByID w db token = some s →
      UserService.ValidateSession w db token
        = (none, 10006, (SessionRepository.Delete w db token).getD db)) ∧
    (∀ (w : World) (db : DB) (token : String),
      SessionRepository.FindByID w db token = none →
      UserService.ValidateSession w db token = (none, 10005, db)) := by
  have he : s.IsExpired now = true := by
    unfold Session.IsExpired
    exact decide_eq_true h
  refine ⟨he, ?_, ?_⟩
  · intro w db token hw hf
    unfold UserService.ValidateSession
    rw [hf]
    simp only [hw, he, if_true]
    rfl
  · intro w db token hf
    unfold UserService.ValidateSession
    rw [hf]
    rfl

theorem expired_session_rejected_witness :
    Session.IsExpired sampleSession 2001 = true ∧
    UserService.ValidateSession { sampleWorld with now := 2001 } toyDB "t0"
      = (none, 10006, { toyDB with sessions := [] }) :=
  ⟨(expired_session_rejected sampleSession 2001
      (by decide)).1,
   (expired_session_rejected sampleSession 2001
      (by decide)).2.1 { sampleWorld with now := 2001 } toyDB "t0" rfl (by decide)⟩

/-! ### The engine on the SM2 curve -/

set_option maxRecDepth 100000

/-- C1, an input on which the claim fails: with `P1 = G` and the draw
`d2 = 107⁻¹ mod n` the call succeeds with `D2Inv = 107`, and the point
`D2Inv·G = 107·G` has a y-coordinate of 31 bytes. The returned `P2` carries
those 31 bytes at the start of its second half with a zero byte after them,
not the encoding of `107·G`; read back as two 32-byte big-endian integers it
gives a different pair. -/
theorem keygen_p2_misencoded :
    IsOnCurve sm2Params sm2G.1 sm2G.2 = true ∧
    (0 < 0xc42fd9b7753bd02647c69456217ecdc15e8dbbf72f6a4bbcb7cbda1efedcd965 ∧
      0xc42fd9b7753bd02647c69456217ecdc15e8dbbf72f6a4bbcb7cbda1efedcd965 < sm2P256.N) ∧
    CoopKeyGenInit sm2P256
        (some 0xc42fd9b7753bd02647c69456217ecdc15e8dbbf72f6a4bbcb7cbda1efedcd965)
        (encodePoint sm2G.1 sm2G.2)
      = .ok { D2 := Bytes 0xc42fd9b7753bd02647c69456217ecdc15e8dbbf72f6a4bbcb7cbda1efedcd965,
              D2Inv := Bytes 107,
              P2 := encodePoint sm2G107.1 (256 * sm2G107.2),
              Pa := encodePoint
                0x3e0417206422ad1bf56d0853313c64ec98999ef103eca18265b433a8dfb5ce3d
                0x63a185e898896c4a60cabfa0f854727802876cabef2d641ded5571f713fb7ed3 } ∧
    sm2P256.ScalarBaseMult (Bytes 107) = some sm2G107 ∧
    encodePoint sm2G107.1 (256 * sm2G107.2) ≠ encodePoint sm2G107.1 sm2G107.2 ∧
    decodePoint (encodePoint sm2G107.1 (256 * sm2G107.2)) ≠ sm2G107 := by
  decide!

/-- C3, an input on which the claim fails: client scalars `d1 = 2`, `k1 = 3`,
digest `e = 01 02 … 20`, server draws `d2 = 5`, `k2 = 7`, `k3 = 11`. Key
generation and signing succeed, `r` and the completed `s` lie in `[1, n-1]` and
`(r + s) mod n` is not 0, but verification under the returned `Pa` fails. The
same signature completed from `s2 = d2·k3` and `s3 = d2·(r + k2)`, that is with
`d2` where `CoopSign` multiplies by `d2_inv`, verifies. -/
theorem coop_signature_does_not_verify :
    (2 * sm2D1Inv) % sm2P256.N = 1 ∧
    sm2P256.ScalarBaseMult (Bytes sm2D1Inv) = some sm2P1 ∧
    sm2P256.ScalarBaseMult (Bytes 3) = some sm2G3 ∧
    CoopKeyGenInit sm2P256 (some 5) (encodePoint sm2P1.1 sm2P1.2)
      = .ok { D2 := Bytes 5, D2Inv := Bytes sm2D2Inv,
              P2 := encodePoint
                0x72936d2249f780f2f4a4a5d0fe1155c52284cad00a1bb942be0ccc8dd6e75d52
                0x6de2438f9123a7481f7af4b70ed122849ba9ccd190fa1e6df849df8be0c09c30,
              Pa := encodePoint sm2Pa.1 sm2Pa.2 } ∧
    CoopSign sm2P256 (some 7) (some 11) (Bytes sm2D2Inv) (encodePoint sm2G3.1 sm2G3.2) sm2E
      = .ok { R := Bytes 0x386dfce94544f4bf337c3596488799764c790484882aad7c45078b6b8b1d4070,
              S2 := Bytes 0x99999998ffffffffffffffffffffffffaacf1fa6addd364d323d926bef7ff3e4,
              S3 := Bytes 0x71af98fb0dda975970b2711e0e8185177019c0abc257be5d627fe3e5ffc18d59 } ∧
    clientS sm2P256.N 2 3
        0x386dfce94544f4bf337c3596488799764c790484882aad7c45078b6b8b1d4070
        0x99999998ffffffffffffffffffffffffaacf1fa6addd364d323d926bef7ff3e4
        0x71af98fb0dda975970b2711e0e8185177019c0abc257be5d627fe3e5ffc18d59
      = 0x448acea6d67039f3ade8aca5d47b70b8cc85bd0e889c00605e79dac32a108d0e ∧
    (0 < 0x386dfce94544f4bf337c3596488799764c790484882aad7c45078b6b8b1d4070 ∧
      0x386dfce94544f4bf337c3596488799764c790484882aad7c45078b6b8b1d4070 < sm2P256.N ∧
      0 < 0x448acea6d67039f3ade8aca5d47b70b8cc85bd0e889c00605e79dac32a108d0e ∧
      0x448acea6d67039f3ade8aca5d47b70b8cc85bd0e889c00605e79dac32a108d0e < sm2P256.N ∧
      (0x386dfce94544f4bf337c3596488799764c790484882aad7c45078b6b8b1d4070
        + 0x448acea6d67039f3ade8aca5d47b70b8cc85bd0e889c00605e79dac32a108d0e) % sm2P256.N ≠ 0) ∧
    sm2Verify sm2P256 sm2E sm2Pa
        0x386dfce94544f4bf337c3596488799764c790484882aad7c45078b6b8b1d4070
        0x448acea6d67039f3ade8aca5d47b70b8cc85bd0e889c00605e79dac32a108d0e
      = some false ∧
    sm2Verify sm2P256 sm2E sm2Pa
        0x386dfce94544f4bf337c3596488799764c790484882aad7c45078b6b8b1d4070
        (clientS sm2P256.N 2 3
          0x386dfce94544f4bf337c3596488799764c790484882aad7c45078b6b8b1d4070
          ((5 * 11) % sm2P256.N)
          ((5 * (0x386dfce94544f4bf337c3596488799764c790484882aad7c45078b6b8b1d4070 + 7)) % sm2P256.N))
      = some true := by
  decide!

/-- C4, an input on which the claim fails: with the client scalar `d1 = 2`
(`P1 = d1⁻¹·G`) and the draw `d2 = 216⁻¹ mod n`, `(d1·d2)⁻¹ = 108` and
`(d1·d2)⁻¹·G − G = 107·G`, whose y-coordinate has 31 bytes. The returned `Pa`
is not the encoding of that point, and read back as two 32-byte big-endian
integers it gives a different pair. -/
theorem keygen_pa_misencoded :
    (2 * sm2D1Inv) % sm2P256.N = 1 ∧
    sm2P256.ScalarBaseMult (Bytes sm2D1Inv) = some sm2P1 ∧
    (0 < 0xb097b4253c71c71c71c71c71c71c71c6ba804d14915f1da3d047943107e4e244 ∧
      0xb097b4253c71c71c71c71c71c71c71c6ba804d14915f1da3d047943107e4e244 < sm2P256.N) ∧
    (2 * 0xb097b4253c71c71c71c71c71c71c71c6ba804d14915f1da3d047943107e4e244 * 108) % sm2P256.N = 1 ∧
    (sm2P256.ScalarBaseMult (Bytes 108)).bind
        (fun a => sm2P256.Add a.1 a.2 sm2G.1 (sm2Params.P - sm2G.2))
      = some sm2G107 ∧
    CoopKeyGenInit sm2P256
        (some 0xb097b4253c71c71c71c71c71c71c71c6ba804d14915f1da3d047943107e4e244)
        (encodePoint sm2P1.1 sm2P1.2)
      = .ok { D2 := Bytes 0xb097b4253c71c71c71c71c71c71c71c6ba804d14915f1da3d047943107e4e244,
              D2Inv := Bytes 216,
              P2 := encodePoint
                0x1722b2c04c0bdb463dc8c539033cc8f8ab405c20ee2cc2e78d457d4f899101da
                0x9289386d2f4082b7eac55fe42fbd17d7034710480a5bd9aa5e9648b2dacd730,
              Pa := encodePoint sm2G107.1 (256 * sm2G107.2) } ∧
    encodePoint sm2G107.1 (256 * sm2G107.2) ≠ encodePoint sm2G107.1 sm2G107.2 ∧
    decodePoint (encodePoint sm2G107.1 (256 * sm2G107.2)) ≠ sm2G107 := by
  decide!

/-- C5, an input on which the claim fails: client scalar `d1 = 2`, ciphertext
point `C1 = 3·G`, `T1 = d1⁻¹·C1`, and a draw `d2` whose inverse `D2Inv` gives
`D2Inv·T1 = 119·G`, a point whose y-coordinate has 31 bytes. `CoopDecrypt`
returns bytes that are not the encoding of `D2Inv·T1`; read back as two 32-byte
big-endian integers they give a pair that is not on the curve, so the client
does not obtain the point `C1 + 3·Pa`. -/
theorem decrypt_t2_misencoded :
    (2 * sm2D1Inv) % sm2P256.N = 1 ∧
    sm2P256.ScalarBaseMult (Bytes sm2D1Inv) = some sm2P1 ∧
    sm2P256.ScalarMult sm2G3.1 sm2G3.2 (Bytes sm2D1Inv)
      = some (0xc3dfb74d39e291816d0e87cb418ae4f45122b1fcdd7cb9d97b2659cf0a98df38,
              0x51279b8334fe3c3a5b0a35d580764b39e923bf76b1c9d57791a8307ae56178d7) ∧
    CoopKeyGenInit sm2P256
        (some 0x237eeca35b6db6db6db6db6db6db6db6c7bdd90fee183accffc73cba49a1df15)
        (encodePoint sm2P1.1 sm2P1.2)
      = .ok { D2 := Bytes 0x237eeca35b6db6db6db6db6db6db6db6c7bdd90fee183accffc73cba49a1df15,
              D2Inv := Bytes 0xaaaaaaa9ffffffffffffffffffffffffa157ea476bd958c78d27f806268e2bbc,
              P2 := encodePoint
                0xccd6482815d85f1e999e8db029f84c84d3067e795a9a61a414ddf718685f7818
                0xabb05dd5e910bb07d2859f83e5b81741cae9e0c3011b79f16ba68beaef035edd,
              Pa := encodePoint
                0x4e4784044232edf2880d8a0509457e14fbdfe519bbb068ffb516ce50aed589c2
                0x1e77169e793f6f78df82fa75efe5c164df21c10a8633c9ba6d306becf4c1f61d } ∧
    sm2P256.ScalarMult
        0xc3dfb74d39e291816d0e87cb418ae4f45122b1fcdd7cb9d97b2659cf0a98df38
        0x51279b8334fe3c3a5b0a35d580764b39e923bf76b1c9d57791a8307ae56178d7
        (Bytes 0xaaaaaaa9ffffffffffffffffffffffffa157ea476bd958c78d27f806268e2bbc)
      = some sm2G119 ∧
    ((sm2P256.ScalarMult
        0x4e4784044232edf2880d8a0509457e14fbdfe519bbb068ffb516ce50aed589c2
        0x1e77169e793f6f78df82fa75efe5c164df21c10a8633c9ba6d306becf4c1f61d (Bytes 3)).bind
        (fun a => sm2P256.Add sm2G3.1 sm2G3.2 a.1 a.2))
      = some sm2G119 ∧
    CoopDecrypt sm2P256 (Bytes 0xaaaaaaa9ffffffffffffffffffffffffa157ea476bd958c78d27f806268e2bbc)
        (encodePoint
          0xc3dfb74d39e291816d0e87cb418ae4f45122b1fcdd7cb9d97b2659cf0a98df38
          0x51279b8334fe3c3a5b0a35d580764b39e923bf76b1c9d57791a8307ae56178d7)
      = .ok (encodePoint sm2G119.1 (256 * sm2G119.2)) ∧
    encodePoint sm2G119.1 (256 * sm2G119.2) ≠ encodePoint sm2G119.1 sm2G119.2 ∧
    decodePoint (encodePoint sm2G119.1 (256 * sm2G119.2)) ≠ sm2G119 ∧
    IsOnCurve sm2Params sm2G119.1 (256 * sm2G119.2) = false := by
  decide!

/-- The base point of the reference implementation is on the SM2 curve and
the order `n` kills it. -/
theorem sm2_base_point_order :
    IsOnCurve sm2Params sm2G.1 sm2G.2 = true ∧
    sm2P256.ScalarBaseMult (Bytes sm2P256.N) = some (0, 0) ∧
    sm2P256.ScalarBaseMult (Bytes (sm2P256.N - 1)) = some (sm2G.1, sm2Params.P - sm2G.2) := by
  decide!

/-- The reference implementation and `sm2Verify` on the signature example of
the SM2 standard (GB/T 32918.2-2016, Annex A, on the recommended curve): the
public key of the example is the multiple of the base point by its private key,
and the signature `(r, s)` of the example verifies on its digest `e`. -/
theorem sm2_standard_example :
    sm2P256.ScalarBaseMult
        (Bytes 0x3945208F7B2144B13F36E38AC6D39F95889393692860B51A42FB81EF4DF7C5B8)
      = some (0x09F9DF311E5421A150DD7D161E4BC5C672179FAD1833FC076BB08FF356F35020,
              0xCCEA490CE26775A52DC6EA718CC1AA600AED05FBF35E084A6632F6072DA9AD13) ∧
    sm2Verify sm2P256
        (Bytes 0xF0B43E94BA45ACCAACE692ED534382EB17E6AB5A19CE7B31F4486FDFC0D28640)
        (0x09F9DF311E5421A150DD7D161E4BC5C672179FAD1833FC076BB08FF356F35020,
         0xCCEA490CE26775A52DC6EA718CC1AA600AED05FBF35E084A6632F6072DA9AD13)
        0xF5A03B0648D2C4630EEAC513E1BB81A15944DA3827D5B74143AC7EACEEE720B3
        0xB1B6AA29DF212FD8763182BC0D421CA1BB9038FD1F7F42D4840B69C485BBC1AA
      = some true := by
  decide!


/-! ### Gate and input checks -/

/-- C9, an input on which the claim fails: the user `alice` is disabled, her
session `t0` exists and has not expired at instant 1000, and the request
`POST /api/decrypt` with `Authorization: Bearer t0` passes the gate: the
handler runs, the share of the disabled user is used and the response carries
code 0 with `T2`. -/
theorem disabled_user_passes_gate :
    UserRepository.FindByID sampleWorld disabledDB "id-0"
      = some (sampleUser (putPoint sm2Pa) UserStatusDisabled) ∧
    (sampleUser (putPoint sm2Pa) UserStatusDisabled).IsEnabled = false ∧
    UserService.ValidateSession sampleWorld disabledDB "t0"
      = (some sampleSession, CodeSuccess, disabledDB) ∧
    apiDecrypt sm2P256 sampleWorld disabledDB sampleCtx
        (some { UserID := "", T1 := EncodeToBase64 (encodePoint sm2G.1 sm2G.2) })
      = .response
          { Code := 0,
            Data := some { T2 := EncodeToBase64 (encodePoint
              0x72936d2249f780f2f4a4a5d0fe1155c52284cad00a1bb942be0ccc8dd6e75d52
              0x6de2438f9123a7481f7af4b70ed122849ba9ccd190fa1e6df849df8be0c09c30) } }
          { disabledDB with auditLogs :=
              [{ ID := "id-0", UserID := "id-0", Action := "decrypt", Detail := "",
                 IPAddress := "10.0.0.1" }] } := by
  decide!

/-- C10, the claim as stated fails: the pair `(1, 1)` is not on the SM2 curve,
yet on its 64-byte encoding none of the three functions returns its
invalid-input error and `KeyInit` does not report code 10001; the 64 zero
bytes, which the library reads as the point at infinity, are accepted by
`CoopKeyGenInit`, which returns `Pa = −G`. -/
theorem off_curve_input_not_rejected :
    IsOnCurve sm2Params 1 1 = false ∧
    CoopKeyGenInit sm2P256 (some 5) (encodePoint 1 1) ≠ .error .ErrInvalidP1 ∧
    CoopSign sm2P256 (some 7) (some 11) (Bytes sm2D2Inv) (encodePoint 1 1) sm2E
      ≠ .error .ErrInvalidQ1 ∧
    CoopDecrypt sm2P256 (Bytes sm2D2Inv) (encodePoint 1 1) ≠ .error .ErrInvalidT1 ∧
    (CosignService.KeyInit sm2P256 { sampleWorld with rand1 := some 5 } emptyDB
        { UserID := "id-0", P1 := EncodeToBase64 (encodePoint 1 1) } "10.0.0.1").code
      ≠ some 10001 ∧
    CoopKeyGenInit sm2P256 (some 5) (make 64)
      = .ok { D2 := Bytes 5, D2Inv := Bytes sm2D2Inv,
              P2 := encodePoint
                0x72936d2249f780f2f4a4a5d0fe1155c52284cad00a1bb942be0ccc8dd6e75d52
                0x6de2438f9123a7481f7af4b70ed122849ba9ccd190fa1e6df849df8be0c09c30,
              Pa := encodePoint sm2G.1 (sm2Params.P - sm2G.2) } := by
  decide!


theorem CoopKeyGenInit_invalid_iff (C : Curve) (rnd : Option Nat) (p1 : List Byte) :
    CoopKeyGenInit C rnd p1 = .error .ErrInvalidP1 ↔ p1.length ≠ 64 := by
  constructor
  · intro h
    intro hlen0
    have hlen : ¬ p1.length ≠ 64 := not_not.2 hlen0
    unfold CoopKeyGenInit at h
    rw [if_neg hlen] at h
    dsimp only at h
    repeat' split at h
    all_goals simp at h
  · intro hlen
    unfold CoopKeyGenInit
    rw [if_pos hlen]

theorem CoopSign_invalidQ1_iff (C : Curve) (rk2 rk3 : Option Nat) (d2Inv q1 e : List Byte) :
    CoopSign C rk2 rk3 d2Inv q1 e = .error .ErrInvalidQ1 ↔ q1.length ≠ 64 := by
  constructor
  · intro h
    intro hlen0
    have hlen : ¬ q1.length ≠ 64 := not_not.2 hlen0
    unfold CoopSign at h
    rw [if_neg hlen] at h
    dsimp only at h
    repeat' split at h
    all_goals simp at h
  · intro hlen
    unfold CoopSign
    rw [if_pos hlen]

theorem CoopSign_invalidE_iff (C : Curve) (rk2 rk3 : Option Nat) (d2Inv q1 e : List Byte) :
    CoopSign C rk2 rk3 d2Inv q1 e = .error .ErrInvalidE ↔ q1.length = 64 ∧ e.length ≠ 32 := by
  constructor
  · intro h
    unfold CoopSign at h
    by_cases hlen : q1.length ≠ 64
    · rw [if_pos hlen] at h
      simp at h
    · rw [if_neg hlen] at h
      by_cases he : e.length ≠ 32
      · exact ⟨not_not.1 hlen, he⟩
      · rw [if_neg he] at h
        dsimp only at h
        repeat' split at h
        all_goals simp at h
  · rintro ⟨hlen, he⟩
    unfold CoopSign
    rw [if_neg (by simp [hlen]), if_pos he]

theorem CoopDecrypt_invalid_iff (C : Curve) (d2Inv t1 : List Byte) :
    CoopDecrypt C d2Inv t1 = .error .ErrInvalidT1 ↔ t1.length ≠ 64 := by
  constructor
  · intro h
    intro hlen0
    have hlen : ¬ t1.length ≠ 64 := not_not.2 hlen0
    unfold CoopDecrypt at h
    rw [if_neg hlen] at h
    dsimp only at h
    repeat' split at h
    all_goals simp at h
  · intro hlen
    unfold CoopDecrypt
    rw [if_pos hlen]

theorem KeyInit_invalid_iff (C : Curve) (w : World) (db : DB) (req : KeyInitRequest)
    (ip : String) :
    (CosignService.KeyInit C w db req ip).code = some CodeInvalidParam
      ↔ decodesTo req.P1 64 = false := by
  unfold CosignService.KeyInit decodesTo
  cases hd : DecodeFromBase64 req.P1 with
  | none => simp [SvcResult.code]
  | some p1 =>
    dsimp only
    by_cases hlen : p1.length = 64
    · rw [if_neg (not_not.2 hlen)]
      simp only [hlen, decide_True, Bool.true_eq_false, iff_false]
      repeat' split
      all_goals simp [SvcResult.code, CodeInvalidParam, CodeCryptoError, CodeDBError,
        CodeSuccess]
    · rw [if_pos hlen]
      simp [SvcResult.code, hlen]

theorem Sign_invalid_iff (C : Curve) (w : World) (db : DB) (req : SignRequest) (ip : String) :
    (CosignService.Sign C w db req ip).code = some CodeInvalidParam
      ↔ (KeyRepository.FindByUserID w db req.UserID).isSome = true ∧
        (decodesTo req.Q1 64 && decodesTo req.E 32) = false := by
  unfold CosignService.Sign decodesTo
  cases hk : KeyRepository.FindByUserID w db req.UserID with
  | none => simp [SvcResult.code, CodeInvalidParam, CodeKeyNotFound]
  | some key =>
    dsimp only
    cases hq : DecodeFromBase64 req.Q1 with
    | none => simp [SvcResult.code]
    | some q1 =>
      dsimp only
      by_cases hlen : q1.length = 64
      · rw [if_neg (not_not.2 hlen)]
        cases he : DecodeFromBase64 req.E with
        | none => simp [SvcResult.code]
        | some e =>
          dsimp only
          by_cases hel : e.length = 32
          · rw [if_neg (not_not.2 hel)]
            simp only [hlen, hel, decide_True, Bool.and_self, Bool.true_eq_false, and_false,
              iff_false, Option.isSome_some]
            repeat' split
            all_goals simp [SvcResult.code, CodeInvalidParam, CodeCryptoError, CodeSuccess]
          · rw [if_pos hel]
            simp [SvcResult.code, hel]
      · rw [if_pos hlen]
        simp [SvcResult.code, hlen]

theorem Decrypt_invalid_iff (C : Curve) (w : World) (db : DB) (req : DecryptRequest)
    (ip : String) :
    (CosignService.Decrypt C w db req ip).code = some CodeInvalidParam
      ↔ (KeyRepository.FindByUserID w db req.UserID).isSome = true ∧
        decodesTo req.T1 64 = false := by
  unfold CosignService.Decrypt decodesTo
  cases hk : KeyRepository.FindByUserID w db req.UserID with
  | none => simp [SvcResult.code, CodeInvalidParam, CodeKeyNotFound]
  | some key =>
    dsimp only
    cases hq : DecodeFromBase64 req.T1 with
    | none => simp [SvcResult.code]
    | some t1 =>
      dsimp only
      by_cases hlen : t1.length = 64
      · rw [if_neg (not_not.2 hlen)]
        simp only [hlen, decide_True, Bool.true_eq_false, and_false, iff_false,
          Option.isSome_some]
        repeat' split
        all_goals simp [SvcResult.code, CodeInvalidParam, CodeCryptoError, CodeSuccess]
      · rw [if_pos hlen]
        simp [SvcResult.code, hlen]

/-- C10, amended: for every curve library, `CoopKeyGenInit`, `CoopSign` and
`CoopDecrypt` return `ErrInvalidP1`, `ErrInvalidQ1`, `ErrInvalidT1` exactly
when the point argument is not 64 bytes long (and `ErrInvalidE` exactly when
`Q1` has 64 bytes and `e` is not 32 bytes long): a 64-byte input goes to the
library whether or not it is on the curve. The services report code 10001
exactly when a base64 field does not decode to the required length (`Sign` and
`Decrypt` once the share of the user is found). -/
theorem invalid_input_is_wrong_length (C : Curve) :
    (∀ (rnd : Option Nat) (p1 : List Byte),
      CoopKeyGenInit C rnd p1 = .error .ErrInvalidP1 ↔ p1.length ≠ 64) ∧
    (∀ (rk2 rk3 : Option Nat) (d2Inv q1 e : List Byte),
      CoopSign C rk2 rk3 d2Inv q1 e = .error .ErrInvalidQ1 ↔ q1.length ≠ 64) ∧
    (∀ (rk2 rk3 : Option Nat) (d2Inv q1 e : List Byte),
      CoopSign C rk2 rk3 d2Inv q1 e = .error .ErrInvalidE ↔ q1.length = 64 ∧ e.length ≠ 32) ∧
    (∀ (d2Inv t1 : List Byte),
      CoopDecrypt C d2Inv t1 = .error .ErrInvalidT1 ↔ t1.length ≠ 64) ∧
    (∀ (w : World) (db : DB) (req : KeyInitRequest) (ip : String),
      (CosignService.KeyInit C w db req ip).code = some 10001
        ↔ decodesTo req.P1 64 = false) ∧
    (∀ (w : World) (db : DB) (req : SignRequest) (ip : String),
      (CosignService.Sign C w db req ip).code = some 10001
        ↔ (KeyRepository.FindByUserID w db req.UserID).isSome = true ∧
          (decodesTo req.Q1 64 && decodesTo req.E 32) = false) ∧
    (∀ (w : World) (db : DB) (req : DecryptRequest) (ip : String),
      (CosignService.Decrypt C w db req ip).code = some 10001
        ↔ (KeyRepository.FindByUserID w db req.UserID).isSome = true ∧
          decodesTo req.T1 64 = false) :=
  ⟨CoopKeyGenInit_invalid_iff C, CoopSign_invalidQ1_iff C, CoopSign_invalidE_iff C,
   CoopDecrypt_invalid_iff C, KeyInit_invalid_iff C, Sign_invalid_iff C,
   Decrypt_invalid_iff C⟩

/-! ### Parameter errors of the cooperative services -/

theorem decodesTo_false {s : String} {n : Nat} (h : decodesTo s n = false) :
    DecodeFromBase64 s = none ∨ ∃ b, DecodeFromBase64 s = some b ∧ b.length ≠ n := by
  unfold decodesTo at h
  cases hd : DecodeFromBase64 s with
  | none => exact Or.inl rfl
  | some b =>
    rw [hd] at h
    exact Or.inr ⟨b, rfl, by simpa using h⟩

theorem KeyInit_bad_param (C : Curve) (w : World) (db : DB) (req : KeyInitRequest)
    (ip : String) (h : decodesTo req.P1 64 = false) :
    CosignService.KeyInit C w db req ip = .ret none CodeInvalidParam db := by
  unfold CosignService.KeyInit
  rcases decodesTo_false h with hd | ⟨b, hd, hb⟩
  · rw [hd]
  · rw [hd]
    dsimp only
    rw [if_pos hb]

theorem Sign_bad_param (C : Curve) (w : World) (db : DB) (req : SignRequest) (ip : String)
    (key : Key) (hk : KeyRepository.FindByUserID w db req.UserID = some key)
    (h : decodesTo req.Q1 64 = false ∨ decodesTo req.E 32 = false) :
    CosignService.Sign C w db req ip = .ret none CodeInvalidParam db := by
  unfold CosignService.Sign
  rw [hk]
  dsimp only
  cases hq : DecodeFromBase64 req.Q1 with
  | none => rfl
  | some q1 =>
    dsimp only
    by_cases hql : q1.length ≠ 64
    · rw [if_pos hql]
    · rw [if_neg hql]
      have he : decodesTo req.E 32 = false := by
        rcases h with h | h
        · rcases decodesTo_false h with hd | ⟨b, hd, hb⟩
          · rw [hd] at hq
            cases hq
          · rw [hd] at hq
            cases hq
            exact absurd hb hql
        · exact h
      rcases decodesTo_false he with hd | ⟨b, hd, hb⟩
      · rw [hd]
      · rw [hd]
        dsimp only
        rw [if_pos hb]

theorem Decrypt_bad_param (C : Curve) (w : World) (db : DB) (req : DecryptRequest)
    (ip : String) (key : Key) (hk : KeyRepository.FindByUserID w db req.UserID = some key)
    (h : decodesTo req.T1 64 = false) :
    CosignService.Decrypt C w db req ip = .ret none CodeInvalidParam db := by
  unfold CosignService.Decrypt
  rw [hk]
  dsimp only
  rcases decodesTo_false h with hd | ⟨b, hd, hb⟩
  · rw [hd]
  · rw [hd]
    dsimp only
    rw [if_pos hb]

/-- C11, an input on which the claim fails: the user `alice` holds the valid
session `t0` and has no share; the string `!` is not base64, and on it `Sign`
and `Decrypt` return code 10008, not 10001, also through the routes behind the
gate. -/
theorem missing_share_reported_before_bad_parameter :
    DecodeFromBase64 "!" = none ∧
    UserService.ValidateSession sampleWorld noShareDB "t0"
      = (some sampleSession, CodeSuccess, noShareDB) ∧
    CosignService.Sign toyCurve sampleWorld noShareDB
        { UserID := "id-0", Q1 := "!", E := "!" } "10.0.0.1"
      = .ret none 10008 noShareDB ∧
    CosignService.Decrypt toyCurve sampleWorld noShareDB
        { UserID := "id-0", T1 := "!" } "10.0.0.1"
      = .ret none 10008 noShareDB ∧
    apiSign toyCurve sampleWorld noShareDB sampleCtx (some { UserID := "", Q1 := "!", E := "!" })
      = .response (Error 10008) noShareDB ∧
    apiDecrypt toyCurve sampleWorld noShareDB sampleCtx (some { UserID := "", T1 := "!" })
      = .response (Error 10008) noShareDB := by
  decide

/-- C11, as amended: `KeyInit` returns code 10001, and leaves the store as it
is, whenever `P1` is not base64 or does not decode to 64 bytes. `Sign` and
`Decrypt` look the share of the user up first: when it is found they return
10001 whenever `Q1` or `T1` does not decode to 64 bytes or `e` does not decode
to 32 bytes, and when it is not found they return 10008 whatever the
parameters are. -/
theorem bad_parameter_is_invalid_param (C : Curve) (w : World) (db : DB) (ip : String) :
    (∀ req : KeyInitRequest, decodesTo req.P1 64 = false →
      CosignService.KeyInit C w db req ip = .ret none 10001 db) ∧
    (∀ (req : SignRequest) (key : Key),
      KeyRepository.FindByUserID w db req.UserID = some key →
      decodesTo req.Q1 64 = false ∨ decodesTo req.E 32 = false →
      CosignService.Sign C w db req ip = .ret none 10001 db) ∧
    (∀ (req : DecryptRequest) (key : Key),
      KeyRepository.FindByUserID w db req.UserID = some key →
      decodesTo req.T1 64 = false →
      CosignService.Decrypt C w db req ip = .ret none 10001 db) ∧
    (∀ req : SignRequest, KeyRepository.FindByUserID w db req.UserID = none →
      CosignService.Sign C w db req ip = .ret none 10008 db) ∧
    (∀ req : DecryptRequest, KeyRepository.FindByUserID w db req.UserID = none →
      CosignService.Decrypt C w db req ip = .ret none 10008 db) := by
  refine ⟨fun req h => KeyInit_bad_param C w db req ip h,
    fun req key hk h => Sign_bad_param C w db req ip key hk h,
    fun req key hk h => Decrypt_bad_param C w db req ip key hk h, ?_, ?_⟩
  · intro req hk
    unfold CosignService.Sign
    rw [hk]
    rfl
  · intro req hk
    unfold CosignService.Decrypt
    rw [hk]
    rfl

theorem bad_parameter_is_invalid_param_witness :
    CosignService.Sign toyCurve sampleWorld toyDB { UserID := "id-0", Q1 := "!", E := "!" }
        "10.0.0.1"
      = .ret none 10001 toyDB :=
  (bad_parameter_is_invalid_param toyCurve sampleWorld toyDB "10.0.0.1").2.1
    { UserID := "id-0", Q1 := "!", E := "!" } (sampleKey 3 5 (putPoint (0, 1))) (by decide)
    (Or.inl (by decide))

/-! ### Failures inside key generation and registration -/

/-- C13, an input on which the code fails: the draw `d2 = 0` has no inverse
modulo the order of the SM2 curve, and on it `CoopKeyGenInit` dereferences the
nil inverse and panics; it does not return `ErrKeyGenFailed`. The panic goes
through `KeyInit` and `Register`, which leave the store as it was. -/
theorem keygen_panics_without_inverse :
    Nat.gcd 0 sm2P256.N ≠ 1 ∧
    ModInverse 0 sm2P256.N = none ∧
    (encodePoint sm2G.1 sm2G.2).length = 64 ∧
    CoopKeyGenInit sm2P256 (some 0) (encodePoint sm2G.1 sm2G.2) = .crash ∧
    CoopKeyGenInit sm2P256 (some 0) (encodePoint sm2G.1 sm2G.2) ≠ .error .ErrKeyGenFailed ∧
    CosignService.KeyInit sm2P256 { sampleWorld with rand1 := some 0 } emptyDB
        { UserID := "id-0", P1 := EncodeToBase64 (encodePoint sm2G.1 sm2G.2) } "10.0.0.1"
      = .crash emptyDB ∧
    UserService.Register sm2P256 sampleHash { sampleWorld with rand1 := some 0 } emptyDB
        { Username := "alice", Password := "pw123",
          P1 := EncodeToBase64 (encodePoint sm2G.1 sm2G.2) } "10.0.0.1"
      = .crash emptyDB := by
  decide!

/-- C15, an input on which the claim fails: the insertion of the share fails
while `alice` registers in the empty store; `Register` returns code 10010 and
the row of `alice` stays in the store, without a share. -/
theorem failed_share_insert_leaves_user :
    UserService.Register toyCurve paddedHash (failingWorld .keyInsert) emptyDB aliceRegister
        "10.0.0.1"
      = .ret none 10010 { emptyDB with users := [aliceUser] } ∧
    UserRepository.FindByUsername sampleWorld { emptyDB with users := [aliceUser] } "alice"
      = some aliceUser ∧
    KeyRepository.FindByUserID sampleWorld { emptyDB with users := [aliceUser] } "id-0"
      = none := by
  decide

/-- C15, as amended: when `Register` has persisted the User row and the
insertion of the Share fails, it returns code 10010 and leaves the store with
the new User row in it (nothing is rolled back): no share, no audit record. -/
theorem register_share_failure_keeps_user (C : Curve) (sm3 : List Byte → List Byte)
    (w : World) (db : DB) (req : RegisterRequest) (ip : String) (p1 salt : List Byte)
    (res : SM2CoopKeyGenResult)
    (hx : UserRepository.ExistsByUsername w db req.Username = some false)
    (hp : DecodeFromBase64 req.P1 = some p1) (hlen : p1.length = 64)
    (hk : CoopKeyGenInit C w.rand1 p1 = .ok res) (hs : w.salt = some salt)
    (hu : w.fails .userInsert = false) (hkf : w.fails .keyInsert = true) :
    UserService.Register C sm3 w db req ip
      = .ret none 10010
          { db with users := db.users ++
              [{ ID := w.uuid 0, Username := req.Username,
                 PasswordHash := hexEncode salt ++ hexEncode (sm3 (salt ++ stringBytes req.Password)),
                 PublicKey := EncodeToBase64 res.Pa, Status := UserStatusEnabled }] } := by
  unfold UserService.Register
  rw [hx, hp]
  dsimp only
  rw [if_neg (by simp [hlen]), hk]
  dsimp only
  rw [hs]
  simp only [UserRepository.Create, KeyRepository.Create, hu, hkf, SM3HashWithPassword]
  rfl

theorem register_share_failure_keeps_user_witness :
    UserService.Register toyCurve paddedHash (failingWorld .keyInsert) emptyDB aliceRegister
        "10.0.0.1"
      = .ret none 10010
          { emptyDB with users := emptyDB.users ++
              [{ ID := "id-0", Username := "alice",
                 PasswordHash := hexEncode (make 16)
                   ++ hexEncode (paddedHash (make 16 ++ stringBytes "pw123")),
                 PublicKey := EncodeToBase64 (putPoint (0, 1)),
                 Status := UserStatusEnabled }] } :=
  register_share_failure_keeps_user toyCurve paddedHash (failingWorld .keyInsert) emptyDB
    aliceRegister "10.0.0.1" (encodePoint 1 3) (make 16)
    { D2 := Bytes 3, D2Inv := Bytes 5, P2 := putPoint (3, 3), Pa := putPoint (0, 1) }
    (by decide) (by decide) (by decide) (by decide) (by decide) (by decide) (by decide)

/-- C20, an input on which the claim fails: the random source fails, and
`KeyInit` and `Sign` report code 10009, not 10011; the store stays as it
was. -/
theorem csprng_failure_reports_crypto_error :
    CoopKeyGenInit toyCurve none (encodePoint 1 3) = .error .ErrKeyGenFailed ∧
    CosignService.KeyInit toyCurve { sampleWorld with rand1 := none } toyDB
        { UserID := "id-0", P1 := EncodeToBase64 (encodePoint 1 3) } "10.0.0.1"
      = .ret none 10009 toyDB ∧
    CoopSign toyCurve (some 3) none (Bytes 5) (encodePoint 1 3) (make 32)
      = .error .ErrSignFailed ∧
    CosignService.Sign toyCurve { sampleWorld with rand2 := none } toyDB
        { UserID := "id-0", Q1 := EncodeToBase64 (encodePoint 1 3),
          E := EncodeToBase64 (make 32) } "10.0.0.1"
      = .ret none 10009 toyDB := by
  decide

/-- C20, as amended: when the random source returns an error, `KeyInit` (for
a `P1` of 64 bytes) and `Sign` (for a user whose share is found and decodes,
a `Q1` of 64 bytes and an `e` of 32 bytes) report code 10009, the code of a
cryptographic error, and leave the store, audit log included, as it was. -/
theorem csprng_failure_leaves_store (C : Curve) (w : World) (db : DB) (ip : String) :
    (∀ req : KeyInitRequest, decodesTo req.P1 64 = true → w.rand1 = none →
      CosignService.KeyInit C w db req ip = .ret none 10009 db) ∧
    (∀ (req : SignRequest) (key : Key) (d2Inv : List Byte),
      KeyRepository.FindByUserID w db req.UserID = some key →
      DecodeFromBase64 key.D2Inv = some d2Inv →
      decodesTo req.Q1 64 = true → decodesTo req.E 32 = true →
      w.rand1 = none ∨ w.rand2 = none →
      CosignService.Sign C w db req ip = .ret none 10009 db) := by
  constructor
  · intro req hp hr
    unfold decodesTo at hp
    unfold CosignService.KeyInit
    cases hd : DecodeFromBase64 req.P1 with
    | none => rw [hd] at hp; cases hp
    | some p1 =>
      rw [hd] at hp
      have hlen : p1.length = 64 := by simpa using hp
      dsimp only
      rw [if_neg (by simp [hlen])]
      have hk : CoopKeyGenInit C w.rand1 p1 = .error .ErrKeyGenFailed := by
        unfold CoopKeyGenInit
        rw [if_neg (by simp [hlen]), hr]
      rw [hk]
      rfl
  · intro req key d2Inv hk hd hq he hr
    unfold decodesTo at hq he
    unfold CosignService.Sign
    rw [hk]
    dsimp only
    cases hdq : DecodeFromBase64 req.Q1 with
    | none => rw [hdq] at hq; cases hq
    | some q1 =>
      rw [hdq] at hq
      have hql : q1.length = 64 := by simpa using hq
      cases hde : DecodeFromBase64 req.E with
      | none => rw [hde] at he; cases he
      | some e =>
        rw [hde] at he
        have hel : e.length = 32 := by simpa using he
        dsimp only
        rw [if_neg (by simp [hql]), if_neg (by simp [hel]), hd]
        dsimp only
        have hs : CoopSign C w.rand1 w.rand2 d2Inv q1 e = .error .ErrSignFailed := by
          unfold CoopSign
          rw [if_neg (by simp [hql]), if_neg (by simp [hel])]
          rcases hr with hr | hr
          · rw [hr]
          · rw [hr]
            cases w.rand1 <;> rfl
        rw [hs]
        rfl

theorem csprng_failure_leaves_store_witness :
    CosignService.KeyInit toyCurve { sampleWorld with rand1 := none } toyDB
        { UserID := "id-0", P1 := EncodeToBase64 (encodePoint 1 3) } "10.0.0.1"
      = .ret none 10009 toyDB :=
  (csprng_failure_leaves_store toyCurve { sampleWorld with rand1 := none } toyDB "10.0.0.1").1
    { UserID := "id-0", P1 := EncodeToBase64 (encodePoint 1 3) } (by decide) rfl

/-! ### The password verifier -/

theorem hexDigit_byte : ∀ v : Fin 16,
    (utf8Char (hexDigit v.val)).map fromHexChar = [some v.val] := by
  decide

theorem toByte_hex : ∀ b : Byte, toByte (b.val / 16 * 16 + b.val % 16) = b := by
  intro b
  have h : b.val / 16 * 16 + b.val % 16 = b.val := by omega
  rw [h]
  unfold toByte
  apply Fin.ext
  simp [Nat.mod_eq_of_lt b.isLt]

theorem stringBytes_append (a b : String) :
    stringBytes (a ++ b) = stringBytes a ++ stringBytes b := by
  unfold stringBytes
  simp [String.toList, String.data_append]

theorem stringBytes_hexEncode_cons (b : Byte) (bs : List Byte) :
    stringBytes (hexEncode (b :: bs))
      = utf8Char (hexDigit (b.val / 16)) ++ utf8Char (hexDigit (b.val % 16))
          ++ stringBytes (hexEncode bs) := by
  unfold stringBytes hexEncode
  simp [String.toList]

theorem utf8Char_hexDigit (v : Nat) (hv : v < 16) :
    ∃ x : Byte, utf8Char (hexDigit v) = [x] ∧ fromHexChar x = some v := by
  have h := hexDigit_byte ⟨v, hv⟩
  cases hu : utf8Char (hexDigit v) with
  | nil => simp [hu] at h
  | cons x t =>
    cases t with
    | nil =>
      refine ⟨x, rfl, ?_⟩
      simpa [hu] using h
    | cons y t => simp [hu] at h

theorem stringBytes_hexEncode_length (bs : List Byte) :
    (stringBytes (hexEncode bs)).length = 2 * bs.length := by
  induction bs with
  | nil => rfl
  | cons b bs ih =>
    obtain ⟨x, hx, _⟩ := utf8Char_hexDigit (b.val / 16) (by omega)
    obtain ⟨y, hy, _⟩ := utf8Char_hexDigit (b.val % 16) (by omega)
    rw [stringBytes_hexEncode_cons, hx, hy]
    simp [ih]
    omega

theorem hexDecode_hexEncode (bs rest : List Byte) (hrest : rest = []) :
    hexDecode (stringBytes (hexEncode bs) ++ rest) = bs := by
  subst hrest
  induction bs with
  | nil => rfl
  | cons b bs ih =>
    obtain ⟨x, hx, hfx⟩ := utf8Char_hexDigit (b.val / 16) (by omega)
    obtain ⟨y, hy, hfy⟩ := utf8Char_hexDigit (b.val % 16) (by omega)
    rw [stringBytes_hexEncode_cons, hx, hy]
    simp only [List.cons_append, List.nil_append, List.append_nil] at ih ⊢
    rw [hexDecode, hfx, hfy]
    simp only [ih, toByte_hex]

theorem hexEncode_injective (a b : List Byte)
    (h : stringBytes (hexEncode a) = stringBytes (hexEncode b)) : a = b := by
  have h1 := hexDecode_hexEncode a [] rfl
  have h2 := hexDecode_hexEncode b [] rfl
  rw [List.append_nil] at h1 h2
  rw [← h1, ← h2, h]

theorem hexEncode_length (bs : List Byte) : (hexEncode bs).length = 2 * bs.length := by
  unfold hexEncode
  rw [String.length_mk]
  induction bs with
  | nil => rfl
  | cons b bs ih =>
    simp only [List.flatMap_cons, List.length_append, List.length_cons, List.length_nil, ih]
    omega

theorem hexDigit_isHex : ∀ v : Fin 16,
    "0123456789abcdef".toList.contains (hexDigit v.val) = true := by
  decide

theorem hexEncode_isHex (bs : List Byte) : isHex (hexEncode bs) = true := by
  unfold isHex hexEncode
  simp only [String.toList, List.all_eq_true, List.mem_flatMap]
  rintro c ⟨b, _, hc⟩
  simp only [List.mem_cons, List.mem_singleton, List.not_mem_nil, or_false] at hc
  rcases hc with hc | hc
  · rw [hc]
    exact hexDigit_isHex ⟨b.val / 16, by omega⟩
  · rw [hc]
    exact hexDigit_isHex ⟨b.val % 16, by omega⟩

theorem isHex_append (a b : String) (ha : isHex a = true) (hb : isHex b = true) :
    isHex (a ++ b) = true := by
  unfold isHex at ha hb ⊢
  simp only [String.toList, String.data_append, List.all_append, Bool.and_eq_true] at ha hb ⊢
  exact ⟨ha, hb⟩

/-- What `Login` reads from a stored verifier `hex(salt) ‖ hex(H)` with a salt
of 16 bytes: the salt, and the text of `H`. -/
theorem verifier_bytes (salt H : List Byte) (hs : salt.length = 16) :
    hexDecode ((stringBytes (hexEncode salt ++ hexEncode H)).take 32) = salt ∧
    (stringBytes (hexEncode salt ++ hexEncode H)).drop 32 = stringBytes (hexEncode H) ∧
    (stringBytes (hexEncode salt ++ hexEncode H)).length = 32 + 2 * H.length := by
  have h1 : (stringBytes (hexEncode salt)).length = 32 := by
    rw [stringBytes_hexEncode_length, hs]
  rw [stringBytes_append]
  refine ⟨?_, ?_, ?_⟩
  · rw [List.take_append_of_le_length (by omega), List.take_of_length_le (by omega)]
    have h := hexDecode_hexEncode salt [] rfl
    rwa [List.append_nil] at h
  · rw [List.drop_append_of_le_length (by omega), List.drop_of_length_le (by omega)]
    rfl
  · rw [List.length_append, h1, stringBytes_hexEncode_length]

/-- On a user whose stored verifier is that of `pw` under a 16-byte salt,
`Login` returns 10004 when the digest of the password differs. -/
theorem Login_wrong_password (sm3 : List Byte → List Byte) (w : World) (db : DB)
    (req : LoginRequest) (ip : String) (user : User) (salt : List Byte) (pw : String)
    (hs : salt.length = 16)
    (hf : UserRepository.FindByUsername w db req.Username = some user)
    (hv : user.PasswordHash = specVerifier sm3 salt pw)
    (hne : sm3 (salt ++ stringBytes req.Password) ≠ sm3 (salt ++ stringBytes pw)) :
    UserService.Login sm3 w db req ip = .ret none CodePasswordError db := by
  obtain ⟨h1, h2, _⟩ := verifier_bytes salt (sm3 (salt ++ stringBytes pw)) hs
  unfold UserService.Login
  rw [hf]
  dsimp only
  rw [hv]
  unfold specVerifier
  by_cases hl : (stringBytes (hexEncode salt
      ++ hexEncode (sm3 (salt ++ stringBytes pw)))).length < 64
  · rw [if_pos hl]
  · rw [if_neg hl, h1, h2, if_pos]
    intro h
    exact hne (hexEncode_injective _ _ h)

/-- On such a user `Login` goes past the password check when the digest of the
password is the stored one and has 32 bytes. -/
theorem Login_right_password (sm3 : List Byte → List Byte) (w : World) (db : DB)
    (req : LoginRequest) (ip : String) (user : User) (salt : List Byte) (pw : String)
    (hs : salt.length = 16) (h32 : (sm3 (salt ++ stringBytes pw)).length = 32)
    (hf : UserRepository.FindByUsername w db req.Username = some user)
    (hv : user.PasswordHash = specVerifier sm3 salt pw)
    (heq : sm3 (salt ++ stringBytes req.Password) = sm3 (salt ++ stringBytes pw)) :
    UserService.Login sm3 w db req ip =
      if !user.IsEnabled then .ret none CodeUserDisabled db
      else
        match w.token with
        | none => .ret none CodeInternalError db
        | some token =>
          match SessionRepository.Create w db
              { ID := token, UserID := user.ID, ExpiresAt := w.now + w.tokenExpire } with
          | none => .ret none CodeDBError db
          | some db1 =>
            .ret (some { Token := token, ExpiresAt := w.now + w.tokenExpire, UserID := user.ID })
              CodeSuccess
              (writeAudit w db1
                { ID := w.uuid 0, UserID := user.ID, Action := ActionLogin, Detail := "",
                  IPAddress := ip }) := by
  obtain ⟨h1, h2, h3⟩ := verifier_bytes salt (sm3 (salt ++ stringBytes pw)) hs
  unfold UserService.Login
  rw [hf]
  dsimp only
  rw [hv]
  unfold specVerifier
  rw [if_neg (by rw [h3, h32]; omega), h1, h2, if_neg]
  rw [SM3HashWithPassword, heq]
  exact not_not.2 rfl

/-! ### What `Register` and `KeyInit` leave in the store -/

/-- The ways a call of `Register` ends: it leaves the store as it was (a panic
or an error code); or the user row is written and the insertion of the share
fails; or it succeeds, with the user row, the share and the audit record. -/
theorem Register_cases (C : Curve) (sm3 : List Byte → List Byte) (w : World) (db : DB)
    (req : RegisterRequest) (ip : String) :
    (UserService.Register C sm3 w db req ip = .crash db ∨
      ∃ code, code ≠ CodeSuccess ∧ UserService.Register C sm3 w db req ip = .ret none code db) ∨
    ∃ p1 res salt, DecodeFromBase64 req.P1 = some p1 ∧ p1.length = 64 ∧
      CoopKeyGenInit C w.rand1 p1 = .ok res ∧ w.salt = some salt ∧
      w.fails .userInsert = false ∧
      ((w.fails .keyInsert = true ∧
          UserService.Register C sm3 w db req ip
            = .ret none CodeDBError
                { db with users := db.users ++ [registerUser sm3 w req salt res] }) ∨
       (w.fails .keyInsert = false ∧
          UserService.Register C sm3 w db req ip
            = .ret (some { UserID := w.uuid 0, PublicKey := EncodeToBase64 res.Pa,
                           P2 := EncodeToBase64 res.P2 })
                CodeSuccess
                (writeAudit w
                  { db with users := db.users ++ [registerUser sm3 w req salt res],
                            keys := db.keys ++ [newShare (w.uuid 1) (w.uuid 0) res] }
                  (registerAudit w req ip)))) := by
  unfold UserService.Register
  cases he : UserRepository.ExistsByUsername w db req.Username with
  | none => exact Or.inl (Or.inr ⟨_, by decide, rfl⟩)
  | some b =>
    cases b with
    | true => exact Or.inl (Or.inr ⟨_, by decide, rfl⟩)
    | false =>
      dsimp only
      cases hd : DecodeFromBase64 req.P1 with
      | none => exact Or.inl (Or.inr ⟨_, by decide, rfl⟩)
      | some p1 =>
        dsimp only
        by_cases hlen : p1.length ≠ 64
        · rw [if_pos hlen]
          exact Or.inl (Or.inr ⟨_, by decide, rfl⟩)
        · rw [if_neg hlen]
          cases hg : CoopKeyGenInit C w.rand1 p1 with
          | crash => exact Or.inl (Or.inl rfl)
          | error e => exact Or.inl (Or.inr ⟨_, by decide, rfl⟩)
          | ok res =>
            dsimp only
            cases hs : w.salt with
            | none => exact Or.inl (Or.inr ⟨_, by decide, rfl⟩)
            | some salt =>
              dsimp only
              unfold UserRepository.Create
              by_cases hu : w.fails Stmt.userInsert = true
              · rw [if_pos hu]
                exact Or.inl (Or.inr ⟨_, by decide, rfl⟩)
              · rw [if_neg hu]
                dsimp only
                unfold KeyRepository.Create
                refine Or.inr ⟨p1, res, salt, rfl, not_not.1 hlen, hg, rfl, by simpa using hu, ?_⟩
                by_cases hv : w.fails Stmt.keyInsert = true
                · rw [if_pos hv]
                  exact Or.inl ⟨hv, rfl⟩
                · rw [if_neg hv]
                  exact Or.inr ⟨by simpa using hv, rfl⟩

/-- The ways a call of `KeyInit` ends: it leaves the store as it was; or it
finds the share of the user and updates it; or it finds none and inserts
one. -/
theorem KeyInit_cases (C : Curve) (w : World) (db : DB) (req : KeyInitRequest) (ip : String) :
    (CosignService.KeyInit C w db req ip = .crash db ∨
      ∃ code, code ≠ CodeSuccess ∧ CosignService.KeyInit C w db req ip = .ret none code db) ∨
    ∃ p1 res, DecodeFromBase64 req.P1 = some p1 ∧ p1.length = 64 ∧
      CoopKeyGenInit C w.rand1 p1 = .ok res ∧
      ((∃ k, KeyRepository.FindByUserID w db req.UserID = some k ∧
          w.fails .keyUpdate = false ∧
          CosignService.KeyInit C w db req ip
            = .ret (some { P2 := EncodeToBase64 res.P2, PublicKey := EncodeToBase64 res.Pa })
                CodeSuccess
                (writeAudit w
                  { db with keys := db.keys.map fun r =>
                      if r.ID = k.ID then updatedRow r (replacedShare k res) else r }
                  (actionAudit (w.uuid 0) req.UserID ActionKeyGen ip))) ∨
       (KeyRepository.FindByUserID w db req.UserID = none ∧
          w.fails .keyInsert = false ∧
          CosignService.KeyInit C w db req ip
            = .ret (some { P2 := EncodeToBase64 res.P2, PublicKey := EncodeToBase64 res.Pa })
                CodeSuccess
                (writeAudit w
                  { db with keys := db.keys ++ [newShare (w.uuid 0) req.UserID res] }
                  (actionAudit (w.uuid 1) req.UserID ActionKeyGen ip)))) := by
  unfold CosignService.KeyInit
  cases hd : DecodeFromBase64 req.P1 with
  | none => exact Or.inl (Or.inr ⟨_, by decide, rfl⟩)
  | some p1 =>
    dsimp only
    by_cases hlen : p1.length ≠ 64
    · rw [if_pos hlen]
      exact Or.inl (Or.inr ⟨_, by decide, rfl⟩)
    · rw [if_neg hlen]
      cases hg : CoopKeyGenInit C w.rand1 p1 with
      | crash => exact Or.inl (Or.inl rfl)
      | error e => exact Or.inl (Or.inr ⟨_, by decide, rfl⟩)
      | ok res =>
        dsimp only
        cases hk : KeyRepository.FindByUserID w db req.UserID with
        | some k =>
          dsimp only
          unfold KeyRepository.Update
          by_cases hu : w.fails Stmt.keyUpdate = true
          · rw [if_pos hu]
            exact Or.inl (Or.inr ⟨_, by decide, rfl⟩)
          · rw [if_neg hu]
            exact Or.inr ⟨p1, res, rfl, not_not.1 hlen, hg,
              Or.inl ⟨k, rfl, by simpa using hu, rfl⟩⟩
        | none =>
          dsimp only
          unfold KeyRepository.Create
          by_cases hu : w.fails Stmt.keyInsert = true
          · rw [if_pos hu]
            exact Or.inl (Or.inr ⟨_, by decide, rfl⟩)
          · rw [if_neg hu]
            exact Or.inr ⟨p1, res, rfl, not_not.1 hlen, hg,
              Or.inr ⟨rfl, by simpa using hu, rfl⟩⟩

/-! ### Login -/

theorem paddedHash_length (bs : List Byte) : (paddedHash bs).length = 32 := by
  unfold paddedHash make
  simp

theorem Login_not_found_iff (sm3 : List Byte → List Byte) (w : World) (db : DB)
    (req : LoginRequest) (ip : String) :
    (UserService.Login sm3 w db req ip).code = some CodeUserNotFound
      ↔ UserRepository.FindByUsername w db req.Username = none := by
  unfold UserService.Login
  cases hf : UserRepository.FindByUsername w db req.Username with
  | none => simp [SvcResult.code]
  | some user =>
    simp only [reduceCtorEq, iff_false]
    repeat' split
    all_goals simp [SvcResult.code, CodeUserNotFound, CodePasswordError, CodeUserDisabled,
      CodeInternalError, CodeDBError, CodeSuccess]

/-- C16: for every password and every salt of 16 bytes, with digests of 32
bytes, the verifier of the specification `hex(salt) ‖ hex(SM3(salt ‖ password))`
has 96 characters, all hexadecimal digits. It is the verifier `Register`
stores: every call of `Register` leaves the user rows as they are or adds one
row, with the username of the request and this verifier; a successful call
adds the row, under the user id of the response; and so does a call that gets
as far as the insertion of the share and fails there with code 10010. On a
user who carries the verifier `Login` returns code 10004 whenever the digest
of the password given differs, and otherwise goes past the password check: it
does not return 10004, and it succeeds with a new session when the user is
enabled, a token is drawn and the session is inserted. -/
theorem verifier_round_trip (sm3 : List Byte → List Byte) (salt : List Byte)
    (hs : salt.length = 16) (h32 : ∀ x, (sm3 x).length = 32) :
    (∀ pw : String, (specVerifier sm3 salt pw).length = 96 ∧
      isHex (specVerifier sm3 salt pw) = true) ∧
    (∀ (C : Curve) (w : World) (db : DB) (req : RegisterRequest) (ip : String),
      w.salt = some salt →
      ((UserService.Register C sm3 w db req ip).db.users = db.users ∨
        ∃ u, (UserService.Register C sm3 w db req ip).db.users = db.users ++ [u] ∧
          u.Username = req.Username ∧ u.ID = w.uuid 0 ∧
          u.PasswordHash = specVerifier sm3 salt req.Password) ∧
      (∀ (resp : RegisterResponse) (db1 : DB),
        UserService.Register C sm3 w db req ip = .ret (some resp) CodeSuccess db1 →
        ∃ u, db1.users = db.users ++ [u] ∧ u.Username = req.Username ∧ u.ID = resp.UserID ∧
          u.PasswordHash = specVerifier sm3 salt req.Password) ∧
      (∀ (p1 : List Byte) (res : SM2CoopKeyGenResult),
        UserRepository.ExistsByUsername w db req.Username = some false →
        DecodeFromBase64 req.P1 = some p1 → p1.length = 64 →
        CoopKeyGenInit C w.rand1 p1 = .ok res →
        w.fails .userInsert = false → w.fails .keyInsert = true →
        ∃ u, UserService.Register C sm3 w db req ip
            = .ret none 10010 { db with users := db.users ++ [u] } ∧
          u.Username = req.Username ∧ u.ID = w.uuid 0 ∧
          u.PasswordHash = specVerifier sm3 salt req.Password)) ∧
    (∀ (w : World) (db : DB) (req : LoginRequest) (ip : String) (user : User) (pw : String),
      UserRepository.FindByUsername w db req.Username = some user →
      user.PasswordHash = specVerifier sm3 salt pw →
      (sm3 (salt ++ stringBytes req.Password) ≠ sm3 (salt ++ stringBytes pw) →
        UserService.Login sm3 w db req ip = .ret none 10004 db) ∧
      (sm3 (salt ++ stringBytes req.Password) = sm3 (salt ++ stringBytes pw) →
        (UserService.Login sm3 w db req ip).code ≠ some 10004 ∧
        (user.IsEnabled = true → ∀ token, w.token = some token →
          w.fails .sessionInsert = false →
          UserService.Login sm3 w db req ip
            = .ret (some { Token := token, ExpiresAt := w.now + w.tokenExpire,
                           UserID := user.ID })
                0
                (writeAudit w
                  { db with sessions := db.sessions ++
                      [{ ID := token, UserID := user.ID, ExpiresAt := w.now + w.tokenExpire }] }
                  (actionAudit (w.uuid 0) user.ID ActionLogin ip))))) := by
  refine ⟨?_, ?_, ?_⟩
  · intro pw
    constructor
    · unfold specVerifier
      rw [String.length_append, hexEncode_length, hexEncode_length, hs, h32]
    · exact isHex_append _ _ (hexEncode_isHex _) (hexEncode_isHex _)
  · intro C w db req ip hsalt
    refine ⟨?_, ?_, ?_⟩
    · rcases Register_cases C sm3 w db req ip with (h | ⟨code, hc, h⟩) | h
      · rw [h]
        exact Or.inl rfl
      · rw [h]
        exact Or.inl rfl
      · obtain ⟨p1, res, salt1, _, _, _, hs1, _, h⟩ := h
        rw [hsalt] at hs1
        cases hs1
        rcases h with ⟨_, h⟩ | ⟨_, h⟩
        · rw [h]
          exact Or.inr ⟨registerUser sm3 w req salt res, rfl, rfl, rfl, rfl⟩
        · rw [h]
          exact Or.inr ⟨registerUser sm3 w req salt res, by simp [SvcResult.db, writeAudit_users],
            rfl, rfl, rfl⟩
    · intro resp db1 hreg
      rcases Register_cases C sm3 w db req ip with (h | ⟨code, hc, h⟩) | h
      · rw [h] at hreg
        cases hreg
      · rw [h] at hreg
        cases hreg
      · obtain ⟨p1, res, salt1, _, _, _, hs1, _, h⟩ := h
        rw [hsalt] at hs1
        cases hs1
        rcases h with ⟨_, h⟩ | ⟨_, h⟩
        · rw [h] at hreg
          cases hreg
        · rw [h] at hreg
          cases hreg
          exact ⟨registerUser sm3 w req salt res, by rw [writeAudit_users], rfl, rfl, rfl⟩
    · intro p1 res hex hd hlen hg hui hki
      refine ⟨registerUser sm3 w req salt res, ?_, rfl, rfl, rfl⟩
      unfold UserService.Register
      rw [hex, hd]
      dsimp only
      rw [if_neg (by simp [hlen]), hg, hsalt]
      simp only [UserRepository.Create, KeyRepository.Create, hui, hki]
      rfl
  · intro w db req ip user pw hf hv
    constructor
    · intro hne
      exact Login_wrong_password sm3 w db req ip user salt pw hs hf hv hne
    · intro heq
      have h := Login_right_password sm3 w db req ip user salt pw hs (h32 _) hf hv heq
      constructor
      · rw [h]
        repeat' split
        all_goals simp [SvcResult.code, CodePasswordError, CodeUserDisabled,
          CodeInternalError, CodeDBError, CodeSuccess]
      · intro hen token ht hins
        rw [h, hen, ht]
        simp only [SessionRepository.Create, hins]
        rfl

theorem verifier_round_trip_witness :
    ((specVerifier paddedHash (make 16) "pw123").length = 96 ∧
      isHex (specVerifier paddedHash (make 16) "pw123") = true) ∧
    UserService.Register toyCurve paddedHash sampleWorld emptyDB aliceRegister "10.0.0.1"
      = .ret (some { UserID := "id-0", PublicKey := EncodeToBase64 (putPoint (0, 1)),
                     P2 := EncodeToBase64 (putPoint (3, 3)) }) 0 aliceDB ∧
    (∃ u, aliceDB.users = emptyDB.users ++ [u] ∧ u.Username = "alice" ∧ u.ID = "id-0" ∧
      u.PasswordHash = specVerifier paddedHash (make 16) "pw123") ∧
    (∃ u, UserService.Register toyCurve paddedHash (failingWorld .keyInsert) emptyDB
          aliceRegister "10.0.0.1"
        = .ret none 10010 { emptyDB with users := emptyDB.users ++ [u] } ∧
      u.Username = "alice" ∧ u.ID = "id-0" ∧
      u.PasswordHash = specVerifier paddedHash (make 16) "pw123") ∧
    UserService.Login paddedHash sampleWorld
        (UserService.Register toyCurve paddedHash sampleWorld emptyDB aliceRegister
          "10.0.0.1").db
        { Username := "alice", Password := "pw124" } "10.0.0.1"
      = .ret none 10004
        (UserService.Register toyCurve paddedHash sampleWorld emptyDB aliceRegister
          "10.0.0.1").db ∧
    (UserService.Login paddedHash sampleWorld
        (UserService.Register toyCurve paddedHash sampleWorld emptyDB aliceRegister
          "10.0.0.1").db
        { Username := "alice", Password := "pw123" } "10.0.0.1").code ≠ some 10004 ∧
    UserService.Login paddedHash sampleWorld
        (UserService.Register toyCurve paddedHash (failingWorld .keyInsert) emptyDB
          aliceRegister "10.0.0.1").db
        { Username := "alice", Password := "pw124" } "10.0.0.1"
      = .ret none 10004
        (UserService.Register toyCurve paddedHash (failingWorld .keyInsert) emptyDB
          aliceRegister "10.0.0.1").db := by
  have hreg : UserService.Register toyCurve paddedHash sampleWorld emptyDB aliceRegister
      "10.0.0.1"
      = .ret (some { UserID := "id-0", PublicKey := EncodeToBase64 (putPoint (0, 1)),
                     P2 := EncodeToBase64 (putPoint (3, 3)) }) 0 aliceDB := by decide
  exact
    ⟨(verifier_round_trip paddedHash (make 16) (by decide) paddedHash_length).1 "pw123",
     hreg,
     ((verifier_round_trip paddedHash (make 16) (by decide) paddedHash_length).2.1
        toyCurve sampleWorld emptyDB aliceRegister "10.0.0.1" rfl).2.1 _ aliceDB hreg,
     ((verifier_round_trip paddedHash (make 16) (by decide) paddedHash_length).2.1
        toyCurve (failingWorld .keyInsert) emptyDB aliceRegister "10.0.0.1" rfl).2.2
        (encodePoint 1 3)
        { D2 := Bytes 3, D2Inv := Bytes 5, P2 := putPoint (3, 3), Pa := putPoint (0, 1) }
        (by decide) (by decide) (by decide) (by decide) (by decide) (by decide),
     ((verifier_round_trip paddedHash (make 16) (by decide) paddedHash_length).2.2
        sampleWorld
        (UserService.Register toyCurve paddedHash sampleWorld emptyDB aliceRegister
          "10.0.0.1").db
        { Username := "alice", Password := "pw124" } "10.0.0.1" aliceUser
        "pw123" (by decide) (by decide)).1 (by decide),
     (((verifier_round_trip paddedHash (make 16) (by decide) paddedHash_length).2.2
        sampleWorld
        (UserService.Register toyCurve paddedHash sampleWorld emptyDB aliceRegister
          "10.0.0.1").db
        { Username := "alice", Password := "pw123" } "10.0.0.1" aliceUser
        "pw123" (by decide) (by decide)).2 rfl).1,
     ((verifier_round_trip paddedHash (make 16) (by decide) paddedHash_length).2.2
        sampleWorld
        (UserService.Register toyCurve paddedHash (failingWorld .keyInsert) emptyDB
          aliceRegister "10.0.0.1").db
        { Username := "alice", Password := "pw124" } "10.0.0.1" aliceUser
        "pw123" (by decide) (by decide)).1 (by decide)⟩

/-- C17, an input on which the claim fails: `alice` is registered and `bob` is
not; a login as `bob` returns code 10003 and a login as `alice` with a wrong
password returns code 10004. -/
theorem login_code_tells_registered_name :
    (UserService.Register toyCurve paddedHash sampleWorld emptyDB aliceRegister "10.0.0.1").db
      = aliceDB ∧
    UserService.Login paddedHash sampleWorld aliceDB
        { Username := "bob", Password := "pw124" } "10.0.0.1"
      = .ret none 10003 aliceDB ∧
    UserService.Login paddedHash sampleWorld aliceDB
        { Username := "alice", Password := "pw124" } "10.0.0.1"
      = .ret none 10004 aliceDB ∧
    (UserService.Login paddedHash sampleWorld aliceDB
        { Username := "alice", Password := "pw123" } "10.0.0.1").code = some 0 := by
  decide

/-- C17, as amended: `Login` returns code 10003 exactly when the look-up finds
no user with the username, and on a registered user whose stored verifier is
that of another digest it returns code 10004: the result code of a failed
login tells whether the username is registered. -/
theorem login_not_found_iff_unregistered (sm3 : List Byte → List Byte) (w : World) (db : DB)
    (req : LoginRequest) (ip : String) :
    ((UserService.Login sm3 w db req ip).code = some 10003
      ↔ UserRepository.FindByUsername w db req.Username = none) ∧
    (UserRepository.FindByUsername w db req.Username = none →
      UserService.Login sm3 w db req ip = .ret none 10003 db) ∧
    (∀ (user : User) (salt : List Byte) (pw : String), salt.length = 16 →
      UserRepository.FindByUsername w db req.Username = some user →
      user.PasswordHash = specVerifier sm3 salt pw →
      sm3 (salt ++ stringBytes req.Password) ≠ sm3 (salt ++ stringBytes pw) →
      UserService.Login sm3 w db req ip = .ret none 10004 db) := by
  refine ⟨Login_not_found_iff sm3 w db req ip, ?_, ?_⟩
  · intro h
    unfold UserService.Login
    rw [h]
    rfl
  · intro user salt pw hs hf hv hne
    exact Login_wrong_password sm3 w db req ip user salt pw hs hf hv hne

theorem login_not_found_iff_unregistered_witness :
    UserService.Login paddedHash sampleWorld aliceDB
        { Username := "bob", Password := "pw123" } "10.0.0.1"
      = .ret none 10003 aliceDB :=
  (login_not_found_iff_unregistered paddedHash sampleWorld aliceDB
    { Username := "bob", Password := "pw123" } "10.0.0.1").2.1 (by decide)

/-! ### One share per user -/

theorem find_map_of_same_user (keys : List Key) (f : Key → Key) (uid : String)
    (hf : ∀ r, (f r).UserID = r.UserID) :
    (keys.map f).find? (fun k => k.UserID = uid)
      = (keys.find? (fun k => k.UserID = uid)).map f := by
  induction keys with
  | nil => rfl
  | cons r rs ih =>
    simp only [List.map_cons, List.find?_cons, hf]
    by_cases h : r.UserID = uid
    · simp [h]
    · simp [h, ih]

theorem updated_same_user (k0 key r : Key) :
    (if r.ID = k0.ID then updatedRow r key else r).UserID = r.UserID := by
  split <;> rfl

theorem nodup_users_append (keys : List Key) (k : Key)
    (hn : (keys.map Key.UserID).Nodup) (hk : ∀ r ∈ keys, r.UserID ≠ k.UserID) :
    ((keys ++ [k]).map Key.UserID).Nodup := by
  rw [List.map_append, List.nodup_append]
  refine ⟨hn, by simp, ?_⟩
  intro a ha hb
  simp only [List.map_cons, List.map_nil, List.mem_singleton] at hb
  obtain ⟨r, hr, rfl⟩ := List.mem_map.1 ha
  exact hk r hr hb

theorem Register_keeps_one_share (C : Curve) (sm3 : List Byte → List Byte) (w : World)
    (db : DB) (req : RegisterRequest) (ip : String)
    (hn : (db.keys.map Key.UserID).Nodup) (hfresh : ∀ k ∈ db.keys, k.UserID ≠ w.uuid 0) :
    ((UserService.Register C sm3 w db req ip).db.keys.map Key.UserID).Nodup := by
  rcases Register_cases C sm3 w db req ip with (h | ⟨code, _, h⟩) | h
  · rw [h]; exact hn
  · rw [h]; exact hn
  · obtain ⟨p1, res, salt, _, _, _, _, _, h⟩ := h
    rcases h with ⟨_, h⟩ | ⟨_, h⟩
    · rw [h]; exact hn
    · rw [h]
      simp only [SvcResult.db, writeAudit_keys]
      exact nodup_users_append db.keys _ hn (fun r hr => hfresh r hr)

theorem KeyInit_keeps_one_share (C : Curve) (w : World) (db : DB) (req : KeyInitRequest)
    (ip : String) (hn : (db.keys.map Key.UserID).Nodup)
    (hlook : w.fails .keyByUser = false) :
    ((CosignService.KeyInit C w db req ip).db.keys.map Key.UserID).Nodup := by
  rcases KeyInit_cases C w db req ip with (h | ⟨code, _, h⟩) | h
  · rw [h]; exact hn
  · rw [h]; exact hn
  · obtain ⟨p1, res, _, _, _, h⟩ := h
    rcases h with ⟨k, _, _, h⟩ | ⟨hnone, _, h⟩
    · rw [h]
      simp only [SvcResult.db, writeAudit_keys, List.map_map]
      have he : (Key.UserID ∘ fun r => if r.ID = k.ID then updatedRow r (replacedShare k res)
          else r) = Key.UserID := by
        funext r
        exact updated_same_user k _ r
      rw [he]
      exact hn
    · rw [h]
      simp only [SvcResult.db, writeAudit_keys]
      refine nodup_users_append db.keys _ hn ?_
      intro r hr
      unfold KeyRepository.FindByUserID at hnone
      rw [hlook] at hnone
      simp only [Bool.false_eq_true, if_false, List.find?_eq_none, decide_eq_true_eq] at hnone
      exact hnone r hr

theorem KeyInit_replaces_found_share (C : Curve) (w : World) (db : DB) (req : KeyInitRequest)
    (ip : String) (k : Key) (resp : KeyInitResponse) (db1 : DB)
    (hk : KeyRepository.FindByUserID w db req.UserID = some k)
    (hok : CosignService.KeyInit C w db req ip = .ret (some resp) CodeSuccess db1) :
    db1.keys.length = db.keys.length ∧
    ∃ p1 res, DecodeFromBase64 req.P1 = some p1 ∧ CoopKeyGenInit C w.rand1 p1 = .ok res ∧
      resp.PublicKey = EncodeToBase64 res.Pa ∧
      KeyRepository.FindByUserID w db1 req.UserID
        = some { k with D2 := EncodeToBase64 res.D2, D2Inv := EncodeToBase64 res.D2Inv,
                        PublicKey := EncodeToBase64 res.Pa } := by
  rcases KeyInit_cases C w db req ip with (h | ⟨code, hc, h⟩) | h
  · rw [h] at hok
    cases hok
  · rw [h] at hok
    cases hok
  · obtain ⟨p1, res, hd, _, hg, h⟩ := h
    rcases h with ⟨k1, hk1, _, h⟩ | ⟨hnone, _, _⟩
    · rw [hk] at hk1
      cases hk1
      rw [h] at hok
      cases hok
      refine ⟨by simp [writeAudit_keys], p1, res, hd, hg, rfl, ?_⟩
      unfold KeyRepository.FindByUserID at hk ⊢
      by_cases hf : w.fails Stmt.keyByUser = true
      · rw [if_pos hf] at hk
        cases hk
      · rw [if_neg hf] at hk ⊢
        rw [writeAudit_keys]
        dsimp only
        rw [find_map_of_same_user _ _ _ (fun r => updated_same_user k _ r), hk]
        simp [updatedRow, replacedShare]
    · rw [hk] at hnone
      cases hnone

/-- C14, an input on which the code departs from the claim: `alice` has
registered and holds one share, a state reachable through `Register`. In her
next `KeyInit` the look-up of the share fails; `KeyInit` drops the error, takes
the share for missing, inserts a second one and returns code 0. The store then
has two shares with the `user_id` of `alice` where it had one, the share a
look-up finds is the old one, with the old `d2`, `d2_inv` and public key and
not the public key of the response, and this store is reachable through
`Register` and `KeyInit`. -/
theorem failed_lookup_duplicates_share :
    Reachable toyCurve paddedHash aliceDB ∧
    KeyRepository.FindByUserID sampleWorld aliceDB "id-0"
      = some (sampleKey 3 5 (putPoint (0, 1))) ∧
    lookupFailingWorld.fails .keyByUser = true ∧
    CosignService.KeyInit toyCurve lookupFailingWorld aliceDB
        { UserID := "id-0", P1 := EncodeToBase64 (encodePoint 1 3) } "10.0.0.1"
      = .ret (some { P2 := EncodeToBase64 (putPoint (0, 1)),
                     PublicKey := EncodeToBase64 (putPoint (0, 4)) })
          0 twoShareDB ∧
    aliceDB.keys.length = 1 ∧
    twoShareDB.keys.length = 2 ∧
    (twoShareDB.keys.filter fun k => k.UserID = "id-0").length = 2 ∧
    twoShareDB.keys.map Key.ID = ["id-1", "id-3"] ∧
    KeyRepository.FindByUserID sampleWorld twoShareDB "id-0"
      = some (sampleKey 3 5 (putPoint (0, 1))) ∧
    (sampleKey 3 5 (putPoint (0, 1))).PublicKey ≠ EncodeToBase64 (putPoint (0, 4)) ∧
    Reachable toyCurve paddedHash twoShareDB := by
  have h1 : (UserService.Register toyCurve paddedHash sampleWorld emptyDB aliceRegister
      "10.0.0.1").db = aliceDB := by decide
  have h2 : CosignService.KeyInit toyCurve lookupFailingWorld aliceDB
      { UserID := "id-0", P1 := EncodeToBase64 (encodePoint 1 3) } "10.0.0.1"
      = .ret (some { P2 := EncodeToBase64 (putPoint (0, 1)),
                     PublicKey := EncodeToBase64 (putPoint (0, 4)) })
          0 twoShareDB := by decide
  have h3 : (CosignService.KeyInit toyCurve lookupFailingWorld aliceDB
      { UserID := "id-0", P1 := EncodeToBase64 (encodePoint 1 3) } "10.0.0.1").db
      = twoShareDB := by rw [h2]; rfl
  have r1 : Reachable toyCurve paddedHash aliceDB :=
    h1 ▸ Reachable.register sampleWorld emptyDB aliceRegister "10.0.0.1" Reachable.init
      (fun k hk => by simp [emptyDB] at hk)
  have r2 : Reachable toyCurve paddedHash twoShareDB :=
    h3 ▸ Reachable.keyInit lookupFailingWorld aliceDB
      { UserID := "id-0", P1 := EncodeToBase64 (encodePoint 1 3) } "10.0.0.1" r1
  exact ⟨r1, by decide, by decide, h2, by decide, by decide, by decide, by decide, by decide,
    by decide, r2⟩

/-! ### The codes of the session gate -/

theorem splitFirstSpace_spec (l : List Char) :
    (' ' ∉ l ∧ splitFirstSpace l = [l]) ∨
    ∃ a b, l = a ++ ' ' :: b ∧ ' ' ∉ a ∧ splitFirstSpace l = [a, b] := by
  induction l with
  | nil => exact Or.inl ⟨by simp, rfl⟩
  | cons c cs ih =>
    by_cases hc : c = ' '
    · subst hc
      exact Or.inr ⟨[], cs, rfl, by simp, by simp [splitFirstSpace]⟩
    · rcases ih with ⟨hn, hs⟩ | ⟨a, b, hl, hn, hs⟩
      · refine Or.inl ⟨?_, ?_⟩
        · simp only [List.mem_cons, not_or]
          exact ⟨fun h => hc h.symm, hn⟩
        · simp [splitFirstSpace, hc, hs]
      · refine Or.inr ⟨c :: a, b, by rw [hl]; rfl, ?_, ?_⟩
        · simp only [List.mem_cons, not_or]
          exact ⟨fun h => hc h.symm, hn⟩
        · simp [splitFirstSpace, hc, hs]

/-- The header splits into `Bearer` and a token exactly when it is `Bearer`,
one space and the token. -/
theorem SplitN2_bearer (h token : String) :
    SplitN2 h = ["Bearer", token] ↔ h = "Bearer " ++ token := by
  constructor
  · intro hs
    unfold SplitN2 at hs
    rcases splitFirstSpace_spec h.toList with ⟨_, h1⟩ | ⟨a, b, hl, _, h1⟩
    · rw [h1] at hs
      simp at hs
    · rw [h1] at hs
      simp only [List.map_cons, List.map_nil, List.cons.injEq, and_true] at hs
      obtain ⟨ha, hb⟩ := hs
      apply String.ext
      rw [String.data_append]
      have ha1 : a = "Bearer".data := by rw [← ha]
      have hb1 : b = token.data := by rw [← hb]
      have hl1 : h.data = a ++ ' ' :: b := hl
      rw [hl1, ha1, hb1]
      rfl
  · intro hs
    subst hs
    unfold SplitN2
    have hl : ("Bearer " ++ token).toList
        = 'B' :: 'e' :: 'a' :: 'r' :: 'e' :: 'r' :: ' ' :: token.data := by
      simp only [String.toList, String.data_append]
      rfl
    rw [hl]
    simp [splitFirstSpace]

theorem bearer_ne_empty (token : String) : "Bearer " ++ token ≠ "" := by
  intro h
  have h1 := congrArg String.length h
  rw [String.length_append] at h1
  have h2 : "Bearer ".length = 7 := by decide
  have h3 : "".length = 0 := by decide
  omega

theorem AuthMiddleware_unauthorized {α : Type} (w : World) (db : DB) (c : Ctx)
    (next : Ctx → DB → HttpResult α)
    (h : ∀ token, c.authorization ≠ "Bearer " ++ token) :
    AuthMiddleware w db c next = .response (Error CodeUnauthorized) db := by
  unfold AuthMiddleware
  dsimp only
  split
  · rfl
  · split
    · rename_i p0 token hs
      by_cases hp : p0 ≠ "Bearer"
      · rw [if_pos hp]
      · rw [not_not.1 hp] at hs
        exact absurd ((SplitN2_bearer _ _).1 hs) (h token)
    · rfl

theorem AuthMiddleware_rejects {α : Type} (w : World) (db db1 : DB) (c : Ctx)
    (next : Ctx → DB → HttpResult α) (token : String) (code : Code)
    (h : c.authorization = "Bearer " ++ token) (hc : code ≠ CodeSuccess)
    (hv : UserService.ValidateSession w db token = (none, code, db1)) :
    AuthMiddleware w db c next = .response (Error code) db1 := by
  have hs := (SplitN2_bearer c.authorization token).2 h
  have h0 : c.authorization ≠ "" := by
    rw [h]
    exact bearer_ne_empty token
  unfold AuthMiddleware
  simp only [h0, if_false, hs, hv, ne_eq, not_true_eq_false, hc, not_false_eq_true, if_true]

/-- C18: `AuthMiddleware` answers with code 10012, without running the
handler, when the `Authorization` header is absent (empty) or is not `Bearer`,
one space and a token. For the header `Bearer`, one space and `token`: it
answers 10005, without running the handler, when the look-up finds no session
with that token; it answers 10006, without running the handler, when the
session found is expired, and the session is then deleted; and otherwise it
runs the handler with the user id of the session in the context. -/
theorem gate_codes {α : Type} (w : World) (db : DB) (c : Ctx)
    (next : Ctx → DB → HttpResult α) :
    (c.authorization = "" ∨ (∀ token, c.authorization ≠ "Bearer " ++ token) →
      AuthMiddleware w db c next = .response (Error 10012) db) ∧
    (∀ token, c.authorization = "Bearer " ++ token →
      (SessionRepository.FindByID w db token = none →
        AuthMiddleware w db c next = .response (Error 10005) db) ∧
      (∀ s, SessionRepository.FindByID w db token = some s → s.IsExpired w.now = true →
        AuthMiddleware w db c next
          = .response (Error 10006) ((SessionRepository.Delete w db token).getD db) ∧
        (w.fails .sessionDelete = false →
          ∀ s1 ∈ ((SessionRepository.Delete w db token).getD db).sessions, s1.ID ≠ token)) ∧
      (∀ s, SessionRepository.FindByID w db token = some s → s.IsExpired w.now = false →
        AuthMiddleware w db c next
          = next { c with userID := some s.UserID, session := some s } db)) := by
  constructor
  · intro h
    apply AuthMiddleware_unauthorized
    rcases h with h | h
    · intro token ht
      rw [h] at ht
      exact bearer_ne_empty token ht.symm
    · exact h
  · intro token h
    refine ⟨?_, ?_, ?_⟩
    · intro hf
      apply AuthMiddleware_rejects w db db c next token _ h (by decide)
      unfold UserService.ValidateSession
      rw [hf]
      rfl
    · intro s hf he
      constructor
      · apply AuthMiddleware_rejects w db _ c next token _ h (by decide)
        unfold UserService.ValidateSession
        rw [hf]
        simp only [he, if_true]
        rfl
      · intro hd s1 hs1
        unfold SessionRepository.Delete at hs1
        rw [hd] at hs1
        simp only [Bool.false_eq_true, if_false, Option.getD_some, List.mem_filter,
          decide_eq_true_eq] at hs1
        exact hs1.2
    · intro s hf he
      exact AuthMiddleware_accepts w db c next token s db
        ((SplitN2_bearer c.authorization token).2 h) (ValidateSession_of_valid w db token s hf he)

theorem gate_codes_witness :
    apiDecrypt toyCurve sampleWorld toyDB { sampleCtx with authorization := "t0" }
        (some { UserID := "id-0", T1 := "" })
      = .response (Error 10012) toyDB ∧
    apiDecrypt toyCurve sampleWorld toyDB { sampleCtx with authorization := "Bearer t1" }
        (some { UserID := "id-0", T1 := "" })
      = .response (Error 10005) toyDB ∧
    apiDecrypt toyCurve { sampleWorld with now := 2001 } toyDB sampleCtx
        (some { UserID := "id-0", T1 := "" })
      = .response (Error 10006)
          ((SessionRepository.Delete { sampleWorld with now := 2001 } toyDB "t0").getD toyDB) :=
  ⟨(gate_codes sampleWorld toyDB { sampleCtx with authorization := "t0" } _).1
      (Or.inr (fun token h => by
        have h1 := congrArg String.length h
        rw [String.length_append] at h1
        have h2 : "Bearer ".length = 7 := by decide
        have h3 : ({ sampleCtx with authorization := "t0" } : Ctx).authorization.length = 2 := by
          decide
        omega)),
   ((gate_codes sampleWorld toyDB { sampleCtx with authorization := "Bearer t1" } _).2 "t1"
      (by decide)).1 (by decide),
   (((gate_codes { sampleWorld with now := 2001 } toyDB sampleCtx _).2 "t0"
      (by decide)).2.1 sampleSession (by decide) (by decide)).1⟩

/-! ### What reaches the responses and the audit log -/

theorem writeAudit_auditLogs (w : World) (db : DB) (log : AuditLog) :
    (writeAudit w db log).auditLogs
      = if w.fails .auditInsert then db.auditLogs else db.auditLogs ++ [log] := by
  unfold writeAudit AuditLogRepository.Create
  split <;> rfl

theorem writeAudit_mem (w : World) (db : DB) (log a : AuditLog)
    (h : a ∈ (writeAudit w db log).auditLogs) : a ∈ db.auditLogs ∨ a = log := by
  rw [writeAudit_auditLogs] at h
  split at h
  · exact Or.inl h
  · simpa using h

theorem Register_audit_mem (C : Curve) (sm3 : List Byte → List Byte) (w : World) (db : DB)
    (req : RegisterRequest) (ip : String) (a : AuditLog)
    (h : a ∈ (UserService.Register C sm3 w db req ip).db.auditLogs) :
    a ∈ db.auditLogs ∨ a = registerAudit w req ip := by
  rcases Register_cases C sm3 w db req ip with (hc | ⟨code, _, hc⟩) | hc
  · rw [hc] at h; exact Or.inl h
  · rw [hc] at h; exact Or.inl h
  · obtain ⟨p1, res, salt, _, _, _, _, _, hc⟩ := hc
    rcases hc with ⟨_, hc⟩ | ⟨_, hc⟩
    · rw [hc] at h; exact Or.inl h
    · rw [hc] at h
      have h2 := writeAudit_mem w _ _ a h
      exact h2

theorem KeyInit_audit_mem (C : Curve) (w : World) (db : DB) (req : KeyInitRequest)
    (ip : String) (a : AuditLog)
    (h : a ∈ (CosignService.KeyInit C w db req ip).db.auditLogs) :
    a ∈ db.auditLogs ∨ a = actionAudit (w.uuid 0) req.UserID ActionKeyGen ip ∨
      a = actionAudit (w.uuid 1) req.UserID ActionKeyGen ip := by
  rcases KeyInit_cases C w db req ip with (hc | ⟨code, _, hc⟩) | hc
  · rw [hc] at h; exact Or.inl h
  · rw [hc] at h; exact Or.inl h
  · obtain ⟨p1, res, _, _, _, hc⟩ := hc
    rcases hc with ⟨k, _, _, hc⟩ | ⟨_, _, hc⟩
    · rw [hc] at h
      rcases writeAudit_mem w _ _ a h with h | h
      · exact Or.inl h
      · exact Or.inr (Or.inl h)
    · rw [hc] at h
      rcases writeAudit_mem w _ _ a h with h | h
      · exact Or.inl h
      · exact Or.inr (Or.inr h)

theorem Sign_audit_mem (C : Curve) (w : World) (db : DB) (req : SignRequest) (ip : String)
    (a : AuditLog) (h : a ∈ (CosignService.Sign C w db req ip).db.auditLogs) :
    a ∈ db.auditLogs ∨ a = actionAudit (w.uuid 0) req.UserID ActionSign ip := by
  unfold CosignService.Sign at h
  repeat' split at h
  all_goals first
    | exact Or.inl h
    | (have h2 := writeAudit_mem w _ _ a h; exact h2)

theorem Decrypt_audit_mem (C : Curve) (w : World) (db : DB) (req : DecryptRequest)
    (ip : String) (a : AuditLog)
    (h : a ∈ (CosignService.Decrypt C w db req ip).db.auditLogs) :
    a ∈ db.auditLogs ∨ a = actionAudit (w.uuid 0) req.UserID ActionDecrypt ip := by
  unfold CosignService.Decrypt at h
  repeat' split at h
  all_goals first
    | exact Or.inl h
    | (have h2 := writeAudit_mem w _ _ a h; exact h2)

theorem Login_audit_mem (sm3 : List Byte → List Byte) (w : World) (db : DB)
    (req : LoginRequest) (ip : String) (a : AuditLog)
    (h : a ∈ (UserService.Login sm3 w db req ip).db.auditLogs) :
    a ∈ db.auditLogs ∨ ∃ user, UserRepository.FindByUsername w db req.Username = some user ∧
      a = actionAudit (w.uuid 0) user.ID ActionLogin ip := by
  unfold UserService.Login at h
  cases hf : UserRepository.FindByUsername w db req.Username with
  | none => rw [hf] at h; exact Or.inl h
  | some user =>
    rw [hf] at h
    dsimp only at h
    unfold SessionRepository.Create at h
    repeat' split at h
    all_goals first
      | exact Or.inl h
      | skip
    all_goals
      rename_i hdb
      split at hdb
      · cases hdb
      · cases hdb
        rcases writeAudit_mem w _ _ a h with h | h
        · exact Or.inl h
        · exact Or.inr ⟨user, rfl, h⟩

theorem Register_congr (C : Curve) (sm3 : List Byte → List Byte) (w : World) (db db1 : DB)
    (req : RegisterRequest) (ip : String) (hu : db1.users = db.users)
    (ha : db1.auditLogs = db.auditLogs) :
    (UserService.Register C sm3 w db1 req ip).db.auditLogs
        = (UserService.Register C sm3 w db req ip).db.auditLogs ∧
    (UserService.Register C sm3 w db1 req ip).code
        = (UserService.Register C sm3 w db req ip).code ∧
    (UserService.Register C sm3 w db1 req ip).data
        = (UserService.Register C sm3 w db req ip).data := by
  unfold UserService.Register UserRepository.ExistsByUsername UserRepository.Create
    KeyRepository.Create
  rw [hu]
  repeat' split
  all_goals simp_all [SvcResult.db, SvcResult.code, SvcResult.data, writeAudit_auditLogs]

theorem Login_congr (sm3 : List Byte → List Byte) (w : World) (db db1 : DB)
    (req : LoginRequest) (ip : String) (hu : db1.users = db.users)
    (ha : db1.auditLogs = db.auditLogs) :
    (UserService.Login sm3 w db1 req ip).db.auditLogs
        = (UserService.Login sm3 w db req ip).db.auditLogs ∧
    (UserService.Login sm3 w db1 req ip).code = (UserService.Login sm3 w db req ip).code ∧
    (UserService.Login sm3 w db1 req ip).data = (UserService.Login sm3 w db req ip).data := by
  have hfind : UserRepository.FindByUsername w db1 req.Username
      = UserRepository.FindByUsername w db req.Username := by
    unfold UserRepository.FindByUsername
    rw [hu]
  unfold UserService.Login
  rw [hfind]
  cases hf : UserRepository.FindByUsername w db req.Username with
  | none => exact ⟨ha, rfl, rfl⟩
  | some user =>
    dsimp only
    by_cases h1 : (stringBytes user.PasswordHash).length < 64
    · simp only [if_pos h1]
      exact ⟨ha, rfl, rfl⟩
    · simp only [if_neg h1]
      by_cases h2 : stringBytes (hexEncode (SM3HashWithPassword sm3 (stringBytes req.Password)
          (hexDecode (List.take 32 (stringBytes user.PasswordHash)))))
            ≠ List.drop 32 (stringBytes user.PasswordHash)
      · simp only [if_pos h2]
        exact ⟨ha, rfl, rfl⟩
      · simp only [if_neg h2]
        by_cases h3 : (!user.IsEnabled) = true
        · simp only [if_pos h3]
          exact ⟨ha, rfl, rfl⟩
        · simp only [if_neg h3]
          cases w.token with
          | none => exact ⟨ha, rfl, rfl⟩
          | some token =>
            dsimp only
            unfold SessionRepository.Create
            by_cases h4 : w.fails Stmt.sessionInsert = true
            · simp only [if_pos h4]
              exact ⟨ha, rfl, rfl⟩
            · simp only [if_neg h4]
              simp only [SvcResult.db, SvcResult.code, SvcResult.data, writeAudit_auditLogs, ha,
                and_self]

theorem withShares_find (w : World) (db : DB) (f : Key → Nat × Nat) (uid : String) :
    KeyRepository.FindByUserID w (withShares f db) uid
      = (KeyRepository.FindByUserID w db uid).map fun k =>
          { k with D2 := EncodeToBase64 (Bytes (f k).1),
                   D2Inv := EncodeToBase64 (Bytes (f k).2) } := by
  unfold KeyRepository.FindByUserID withShares
  split
  · rfl
  · exact find_map_of_same_user _ _ _ (fun _ => rfl)

theorem KeyInit_congr (C : Curve) (w : World) (db db1 : DB) (req : KeyInitRequest)
    (ip : String)
    (hk : (KeyRepository.FindByUserID w db1 req.UserID).isSome
      = (KeyRepository.FindByUserID w db req.UserID).isSome)
    (ha : db1.auditLogs = db.auditLogs) :
    (CosignService.KeyInit C w db1 req ip).db.auditLogs
        = (CosignService.KeyInit C w db req ip).db.auditLogs ∧
    (CosignService.KeyInit C w db1 req ip).code = (CosignService.KeyInit C w db req ip).code ∧
    (CosignService.KeyInit C w db1 req ip).data
        = (CosignService.KeyInit C w db req ip).data := by
  unfold CosignService.KeyInit KeyRepository.Update KeyRepository.Create
  repeat' split
  all_goals simp_all [SvcResult.db, SvcResult.code, SvcResult.data, writeAudit_auditLogs]

/-- How `CoopSign` ends does not depend on the share: with two values of
`d2Inv` it panics in both runs, or returns the same error in both, or returns
a result in both, with the same `r`. -/
theorem CoopSign_shape (C : Curve) (rk2 rk3 : Option Nat) (d d1 q1 e : List Byte) :
    (CoopSign C rk2 rk3 d1 q1 e = .crash ∧ CoopSign C rk2 rk3 d q1 e = .crash) ∨
    (∃ err, CoopSign C rk2 rk3 d1 q1 e = .error err ∧ CoopSign C rk2 rk3 d q1 e = .error err) ∨
    (∃ r1 r, CoopSign C rk2 rk3 d1 q1 e = .ok r1 ∧ CoopSign C rk2 rk3 d q1 e = .ok r ∧
      r1.R = r.R) := by
  unfold CoopSign
  by_cases hq : q1.length ≠ 64
  · simp only [if_pos hq]
    exact Or.inr (Or.inl ⟨_, rfl, rfl⟩)
  · simp only [if_neg hq]
    by_cases he : e.length ≠ 32
    · simp only [if_pos he]
      exact Or.inr (Or.inl ⟨_, rfl, rfl⟩)
    · simp only [if_neg he]
      cases rk2 with
      | none => exact Or.inr (Or.inl ⟨_, rfl, rfl⟩)
      | some k2 =>
        cases rk3 with
        | none => exact Or.inr (Or.inl ⟨_, rfl, rfl⟩)
        | some k3 =>
          dsimp only
          cases C.ScalarBaseMult (Bytes k2) with
          | none => exact Or.inl ⟨rfl, rfl⟩
          | some q2 =>
            obtain ⟨q2X, q2Y⟩ := q2
            dsimp only
            cases C.ScalarMult (SetBytes (slice q1 0 32)) (SetBytes (slice q1 32 64))
                (Bytes k3) with
            | none => exact Or.inl ⟨rfl, rfl⟩
            | some x1 =>
              obtain ⟨x1X, x1Y⟩ := x1
              dsimp only
              cases C.Add x1X x1Y q2X q2Y with
              | none => exact Or.inl ⟨rfl, rfl⟩
              | some x2 =>
                obtain ⟨x2X, x2Y⟩ := x2
                exact Or.inr (Or.inr ⟨_, _, rfl, rfl, rfl⟩)

/-- How `CoopDecrypt` ends does not depend on the share, for a library whose
`ScalarMult` returns or panics whatever the scalar is. -/
theorem CoopDecrypt_shape (C : Curve) (hC : ScalarTotal C) (d d1 t1 : List Byte) :
    (CoopDecrypt C d1 t1 = .crash ∧ CoopDecrypt C d t1 = .crash) ∨
    (∃ err, CoopDecrypt C d1 t1 = .error err ∧ CoopDecrypt C d t1 = .error err) ∨
    (∃ r1 r, CoopDecrypt C d1 t1 = .ok r1 ∧ CoopDecrypt C d t1 = .ok r) := by
  unfold CoopDecrypt
  by_cases hl : t1.length ≠ 64
  · simp only [if_pos hl]
    exact Or.inr (Or.inl ⟨_, rfl, rfl⟩)
  · simp only [if_neg hl]
    have h := hC (SetBytes (slice t1 0 32)) (SetBytes (slice t1 32 64)) d1 d
    cases h1 : C.ScalarMult (SetBytes (slice t1 0 32)) (SetBytes (slice t1 32 64)) d1 with
    | none =>
      cases h2 : C.ScalarMult (SetBytes (slice t1 0 32)) (SetBytes (slice t1 32 64)) d with
      | none => exact Or.inl ⟨rfl, rfl⟩
      | some b => rw [h1, h2] at h; cases h
    | some a =>
      cases h2 : C.ScalarMult (SetBytes (slice t1 0 32)) (SetBytes (slice t1 32 64)) d with
      | none => rw [h1, h2] at h; cases h
      | some b => exact Or.inr (Or.inr ⟨_, _, rfl, rfl⟩)

theorem refCurve_ScalarTotal (cp : CurveParams) : ScalarTotal (refCurve cp) := by
  intro x y k1 k2
  show (refScalarMult cp x y k1).isSome = (refScalarMult cp x y k2).isSome
  unfold refScalarMult
  cases pointFromAffine cp x y with
  | none => rfl
  | some t =>
    dsimp only
    split
    · rfl
    · rw [forceNat_eq, forceNat_eq]
      rfl

theorem Sign_congr (C : Curve) (w : World) (db db1 : DB) (req : SignRequest) (ip : String)
    (hk : (KeyRepository.FindByUserID w db1 req.UserID).isSome
      = (KeyRepository.FindByUserID w db req.UserID).isSome)
    (hd : ∀ k, KeyRepository.FindByUserID w db req.UserID = some k →
      (DecodeFromBase64 k.D2Inv).isSome = true)
    (hd1 : ∀ k, KeyRepository.FindByUserID w db1 req.UserID = some k →
      (DecodeFromBase64 k.D2Inv).isSome = true)
    (ha : db1.auditLogs = db.auditLogs) :
    (CosignService.Sign C w db1 req ip).db.auditLogs
        = (CosignService.Sign C w db req ip).db.auditLogs ∧
    (CosignService.Sign C w db1 req ip).code = (CosignService.Sign C w db req ip).code := by
  unfold CosignService.Sign
  cases h1 : KeyRepository.FindByUserID w db1 req.UserID with
  | none =>
    cases h : KeyRepository.FindByUserID w db req.UserID with
    | none => exact ⟨ha, rfl⟩
    | some k => rw [h1, h] at hk; cases hk
  | some k1 =>
    cases h : KeyRepository.FindByUserID w db req.UserID with
    | none => rw [h1, h] at hk; cases hk
    | some k =>
      dsimp only
      cases hq : DecodeFromBase64 req.Q1 with
      | none => exact ⟨ha, rfl⟩
      | some q1 =>
        dsimp only
        by_cases hql : q1.length ≠ 64
        · simp only [if_pos hql]
          exact ⟨ha, rfl⟩
        · simp only [if_neg hql]
          cases he : DecodeFromBase64 req.E with
          | none => exact ⟨ha, rfl⟩
          | some e =>
            dsimp only
            by_cases hel : e.length ≠ 32
            · simp only [if_pos hel]
              exact ⟨ha, rfl⟩
            · simp only [if_neg hel]
              obtain ⟨d, hdk⟩ := Option.isSome_iff_exists.1 (hd k h)
              obtain ⟨d1, hdk1⟩ := Option.isSome_iff_exists.1 (hd1 k1 h1)
              rw [hdk, hdk1]
              dsimp only
              rcases CoopSign_shape C w.rand1 w.rand2 d d1 q1 e with ⟨c1, c2⟩ | ⟨err, c1, c2⟩ |
                ⟨r1, r, c1, c2, _⟩
              · rw [c1, c2]
                exact ⟨ha, rfl⟩
              · rw [c1, c2]
                exact ⟨ha, rfl⟩
              · rw [c1, c2]
                simp only [SvcResult.db, SvcResult.code, writeAudit_auditLogs, ha, and_self]

theorem Decrypt_congr (C : Curve) (hC : ScalarTotal C) (w : World) (db db1 : DB)
    (req : DecryptRequest) (ip : String)
    (hk : (KeyRepository.FindByUserID w db1 req.UserID).isSome
      = (KeyRepository.FindByUserID w db req.UserID).isSome)
    (hd : ∀ k, KeyRepository.FindByUserID w db req.UserID = some k →
      (DecodeFromBase64 k.D2Inv).isSome = true)
    (hd1 : ∀ k, KeyRepository.FindByUserID w db1 req.UserID = some k →
      (DecodeFromBase64 k.D2Inv).isSome = true)
    (ha : db1.auditLogs = db.auditLogs) :
    (CosignService.Decrypt C w db1 req ip).db.auditLogs
        = (CosignService.Decrypt C w db req ip).db.auditLogs ∧
    (CosignService.Decrypt C w db1 req ip).code = (CosignService.Decrypt C w db req ip).code := by
  unfold CosignService.Decrypt
  cases h1 : KeyRepository.FindByUserID w db1 req.UserID with
  | none =>
    cases h : KeyRepository.FindByUserID w db req.UserID with
    | none => exact ⟨ha, rfl⟩
    | some k => rw [h1, h] at hk; cases hk
  | some k1 =>
    cases h : KeyRepository.FindByUserID w db req.UserID with
    | none => rw [h1, h] at hk; cases hk
    | some k =>
      dsimp only
      cases hq : DecodeFromBase64 req.T1 with
      | none => exact ⟨ha, rfl⟩
      | some t1 =>
        dsimp only
        by_cases hql : t1.length ≠ 64
        · simp only [if_pos hql]
          exact ⟨ha, rfl⟩
        · simp only [if_neg hql]
          obtain ⟨d, hdk⟩ := Option.isSome_iff_exists.1 (hd k h)
          obtain ⟨d1, hdk1⟩ := Option.isSome_iff_exists.1 (hd1 k1 h1)
          rw [hdk, hdk1]
          dsimp only
          rcases CoopDecrypt_shape C hC d d1 t1 with ⟨c1, c2⟩ | ⟨err, c1, c2⟩ | ⟨r1, r, c1, c2⟩
          · rw [c1, c2]
            exact ⟨ha, rfl⟩
          · rw [c1, c2]
            exact ⟨ha, rfl⟩
          · rw [c1, c2]
            simp only [SvcResult.db, SvcResult.code, writeAudit_auditLogs, ha, and_self]

theorem withShares_isSome (w : World) (db : DB) (f g : Key → Nat × Nat) (uid : String) :
    (KeyRepository.FindByUserID w (withShares f db) uid).isSome
      = (KeyRepository.FindByUserID w (withShares g db) uid).isSome := by
  rw [withShares_find, withShares_find]
  cases KeyRepository.FindByUserID w db uid <;> rfl

theorem withShares_decodes (w : World) (db : DB) (f : Key → Nat × Nat) (uid : String)
    (k : Key) (h : KeyRepository.FindByUserID w (withShares f db) uid = some k) :
    (DecodeFromBase64 k.D2Inv).isSome = true := by
  rw [withShares_find] at h
  cases hk : KeyRepository.FindByUserID w db uid with
  | none => rw [hk] at h; cases h
  | some k0 =>
    rw [hk] at h
    cases h
    show (DecodeFromBase64 (EncodeToBase64 (Bytes (f k0).2))).isSome = true
    rw [DecodeFromBase64_EncodeToBase64]
    rfl

/-- C19: the objects written for the responses of `Register` and `KeyInit`
have the members `userId`, `publicKey`, `p2` and `p2`, `publicKey` and no
other; the object written for a `Key` has no member for `d2` and `d2_inv` and
does not change with them; every audit record that `Register`, `Login`,
`KeyInit`, `Sign` or `Decrypt` adds is built from the identifier drawn for it,
the user id, the action, the username and the client address; and two runs of
one of these calls on stores that differ only in the scalars `d2`, `d2_inv` of
their shares leave the same audit log (for `Decrypt`, over a library whose
`ScalarMult` returns or panics whatever the scalar is), with the same response
for `Register` and `KeyInit`. -/
theorem secrets_stay_in_store (C : Curve) (sm3 : List Byte → List Byte) (w : World) (db : DB)
    (ip : String) :
    (∀ r : RegisterResponse, r.json.map Prod.fst = ["userId", "publicKey", "p2"]) ∧
    (∀ r : KeyInitResponse, r.json.map Prod.fst = ["p2", "publicKey"]) ∧
    (∀ (k : Key) (d2 d2Inv : String),
      k.json.map Prod.fst = ["id", "userId", "publicKey", "status"] ∧
      Key.json { k with D2 := d2, D2Inv := d2Inv } = k.json) ∧
    (∀ (req : RegisterRequest) (a : AuditLog),
      a ∈ (UserService.Register C sm3 w db req ip).db.auditLogs →
      a ∈ db.auditLogs ∨ a = registerAudit w req ip) ∧
    (∀ (req : LoginRequest) (a : AuditLog),
      a ∈ (UserService.Login sm3 w db req ip).db.auditLogs →
      a ∈ db.auditLogs ∨
        ∃ user, UserRepository.FindByUsername w db req.Username = some user ∧
          a = actionAudit (w.uuid 0) user.ID ActionLogin ip) ∧
    (∀ (req : KeyInitRequest) (a : AuditLog),
      a ∈ (CosignService.KeyInit C w db req ip).db.auditLogs →
      a ∈ db.auditLogs ∨ a = actionAudit (w.uuid 0) req.UserID ActionKeyGen ip ∨
        a = actionAudit (w.uuid 1) req.UserID ActionKeyGen ip) ∧
    (∀ (req : SignRequest) (a : AuditLog),
      a ∈ (CosignService.Sign C w db req ip).db.auditLogs →
      a ∈ db.auditLogs ∨ a = actionAudit (w.uuid 0) req.UserID ActionSign ip) ∧
    (∀ (req : DecryptRequest) (a : AuditLog),
      a ∈ (CosignService.Decrypt C w db req ip).db.auditLogs →
      a ∈ db.auditLogs ∨ a = actionAudit (w.uuid 0) req.UserID ActionDecrypt ip) ∧
    (∀ f g : Key → Nat × Nat,
      (∀ req : RegisterRequest,
        (UserService.Register C sm3 w (withShares f db) req ip).db.auditLogs
            = (UserService.Register C sm3 w (withShares g db) req ip).db.auditLogs ∧
        (UserService.Register C sm3 w (withShares f db) req ip).data
            = (UserService.Register C sm3 w (withShares g db) req ip).data) ∧
      (∀ req : LoginRequest,
        (UserService.Login sm3 w (withShares f db) req ip).db.auditLogs
            = (UserService.Login sm3 w (withShares g db) req ip).db.auditLogs) ∧
      (∀ req : KeyInitRequest,
        (CosignService.KeyInit C w (withShares f db) req ip).db.auditLogs
            = (CosignService.KeyInit C w (withShares g db) req ip).db.auditLogs ∧
        (CosignService.KeyInit C w (withShares f db) req ip).data
            = (CosignService.KeyInit C w (withShares g db) req ip).data) ∧
      (∀ req : SignRequest,
        (CosignService.Sign C w (withShares f db) req ip).db.auditLogs
            = (CosignService.Sign C w (withShares g db) req ip).db.auditLogs) ∧
      (ScalarTotal C → ∀ req : DecryptRequest,
        (CosignService.Decrypt C w (withShares f db) req ip).db.auditLogs
            = (CosignService.Decrypt C w (withShares g db) req ip).db.auditLogs)) := by
  refine ⟨fun _ => rfl, fun _ => rfl, fun _ _ _ => ⟨rfl, rfl⟩,
    fun req a h => Register_audit_mem C sm3 w db req ip a h,
    fun req a h => Login_audit_mem sm3 w db req ip a h,
    fun req a h => KeyInit_audit_mem C w db req ip a h,
    fun req a h => Sign_audit_mem C w db req ip a h,
    fun req a h => Decrypt_audit_mem C w db req ip a h, ?_⟩
  intro f g
  refine ⟨?_, ?_, ?_, ?_, ?_⟩
  · intro req
    have h := Register_congr C sm3 w (withShares g db) (withShares f db) req ip rfl rfl
    exact ⟨h.1, h.2.2⟩
  · intro req
    exact (Login_congr sm3 w (withShares g db) (withShares f db) req ip rfl rfl).1
  · intro req
    have h := KeyInit_congr C w (withShares g db) (withShares f db) req ip
      (withShares_isSome w db f g req.UserID) rfl
    exact ⟨h.1, h.2.2⟩
  · intro req
    exact (Sign_congr C w (withShares g db) (withShares f db) req ip
      (withShares_isSome w db f g req.UserID)
      (fun k hk => withShares_decodes w db g req.UserID k hk)
      (fun k hk => withShares_decodes w db f req.UserID k hk) rfl).1
  · intro hC req
    exact (Decrypt_congr C hC w (withShares g db) (withShares f db) req ip
      (withShares_isSome w db f g req.UserID)
      (fun k hk => withShares_decodes w db g req.UserID k hk)
      (fun k hk => withShares_decodes w db f req.UserID k hk) rfl).1

theorem secrets_stay_in_store_witness :
    (CosignService.Decrypt toyCurve sampleWorld (withShares (fun _ => (3, 5)) toyDB)
        { UserID := "id-0", T1 := EncodeToBase64 (encodePoint 1 3) } "10.0.0.1").db.auditLogs
      = (CosignService.Decrypt toyCurve sampleWorld (withShares (fun _ => (2, 4)) toyDB)
        { UserID := "id-0", T1 := EncodeToBase64 (encodePoint 1 3) } "10.0.0.1").db.auditLogs :=
  ((secrets_stay_in_store toyCurve paddedHash sampleWorld toyDB "10.0.0.1").2.2.2.2.2.2.2.2
      (fun _ => (3, 5)) (fun _ => (2, 4))).2.2.2.2
    (refCurve_ScalarTotal toyParams)
    { UserID := "id-0", T1 := EncodeToBase64 (encodePoint 1 3) }

/-! ### The encoding of the points the engine emits -/

/-- C12, inputs on which the code fails: with the draw `d2 = 119⁻¹ mod n` and
the point `P1 = (108·119⁻¹)·G` of the SM2 curve, `CoopKeyGenInit` computes
`P2 = 119·G` and `Pa = 107·G`, and `CoopDecrypt` with `d2_inv = 107` and
`T1 = G` computes `T2 = 107·G`. The y-coordinates of `107·G` and `119·G` are
smaller than `2^248`: their 31 bytes are copied to the left of the 32-byte
field, so the bytes emitted are those of the y-coordinate times 256, and
reading them back does not give the point: the same defect as in C1, C4 and
C5. -/
theorem emitted_points_misencoded :
    IsOnCurve sm2Params
      0x167427fd6763c55d259cb10c10c382d9ee75e744f7875a9ede5442a43b6b91b
      0xa367c58730c6440bfca76729168165a663dd9fac52757cc61892e2d55a8dacd5 = true ∧
    (119 * 0x17a9f31792492492492492492492492485293b5ff4102733552f7dd1866bea0e) % sm2P256.N = 1 ∧
    sm2P256.ScalarBaseMult (Bytes 119) = some sm2G119 ∧
    sm2P256.ScalarBaseMult (Bytes 107) = some sm2G107 ∧
    (sm2G119.2 < 2 ^ 248 ∧ sm2G107.2 < 2 ^ 248) ∧
    CoopKeyGenInit sm2P256
        (some 0x17a9f31792492492492492492492492485293b5ff4102733552f7dd1866bea0e)
        (encodePoint
          0x167427fd6763c55d259cb10c10c382d9ee75e744f7875a9ede5442a43b6b91b
          0xa367c58730c6440bfca76729168165a663dd9fac52757cc61892e2d55a8dacd5)
      = .ok { D2 := Bytes 0x17a9f31792492492492492492492492485293b5ff4102733552f7dd1866bea0e,
              D2Inv := Bytes 119,
              P2 := encodePoint sm2G119.1 (256 * sm2G119.2),
              Pa := encodePoint sm2G107.1 (256 * sm2G107.2) } ∧
    CoopDecrypt sm2P256 (Bytes 107) (encodePoint sm2G.1 sm2G.2)
      = .ok (encodePoint sm2G107.1 (256 * sm2G107.2)) ∧
    decodePoint (encodePoint sm2G119.1 (256 * sm2G119.2)) = (sm2G119.1, 256 * sm2G119.2) ∧
    decodePoint (encodePoint sm2G107.1 (256 * sm2G107.2)) = (sm2G107.1, 256 * sm2G107.2) ∧
    decodePoint (encodePoint sm2G119.1 (256 * sm2G119.2)) ≠ sm2G119 ∧
    decodePoint (encodePoint sm2G107.1 (256 * sm2G107.2)) ≠ sm2G107 := by
  decide!

/-! ### The digest and the draws of `CoopSign` -/

/-- What `CoopSign` returns when the two draws succeed and the three calls of
the library return. -/
theorem CoopSign_of_library (C : Curve) (k2 k3 : Nat) (d q1 e : List Byte)
    (q2 x1 x : Nat × Nat) (hq : q1.length = 64) (he : e.length = 32)
    (h1 : C.ScalarBaseMult (Bytes k2) = some q2)
    (h2 : C.ScalarMult (SetBytes (slice q1 0 32)) (SetBytes (slice q1 32 64)) (Bytes k3)
      = some x1)
    (h3 : C.Add x1.1 x1.2 q2.1 q2.2 = some x) :
    CoopSign C (some k2) (some k3) d q1 e
      = .ok { R := Bytes ((SetBytes e + x.1) % C.N),
              S2 := Bytes ((SetBytes d * k3) % C.N),
              S3 := Bytes ((SetBytes d * ((SetBytes e + x.1) % C.N + k2)) % C.N) } := by
  obtain ⟨q2X, q2Y⟩ := q2
  obtain ⟨x1X, x1Y⟩ := x1
  obtain ⟨xX, xY⟩ := x
  unfold CoopSign
  rw [if_neg (by simp [hq]), if_neg (by simp [he])]
  simp only [h1, h2, h3]

/-- The result of `CoopSign` depends on `e` through its value modulo `N`
only. -/
theorem CoopSign_digest_mod (C : Curve) (rk2 rk3 : Option Nat) (d q1 e e1 : List Byte)
    (he : e.length = 32) (he1 : e1.length = 32)
    (h : SetBytes e % C.N = SetBytes e1 % C.N) :
    CoopSign C rk2 rk3 d q1 e = CoopSign C rk2 rk3 d q1 e1 := by
  have hr : ∀ x, (SetBytes e + x) % C.N = (SetBytes e1 + x) % C.N := by
    intro x
    rw [Nat.add_mod, h, ← Nat.add_mod]
  unfold CoopSign
  simp only [he, he1, hr]

/-- C21, an input on which the claim fails: the 32 bytes `ff … ff` have a
value above the order `n` of the SM2 curve, and on them `CoopSign` returns
`(r, s2, s3)`, with `r = (e + x1) mod n` for the x-coordinate `x1` of
`11·G + 7·G`; it returns no error. -/
theorem out_of_range_digest_accepted :
    (Bytes (2 ^ 256 - 1)).length = 32 ∧
    sm2P256.N ≤ SetBytes (Bytes (2 ^ 256 - 1)) ∧
    sm2P256.ScalarBaseMult (Bytes 18) = some sm2G18 ∧
    CoopSign sm2P256 (some 7) (some 11) (Bytes sm2D2Inv) (encodePoint sm2G.1 sm2G.2)
        (Bytes (2 ^ 256 - 1))
      = .ok { R := Bytes ((2 ^ 256 - 1 + sm2G18.1) % sm2P256.N),
              S2 := Bytes ((sm2D2Inv * 11) % sm2P256.N),
              S3 := Bytes ((sm2D2Inv * ((2 ^ 256 - 1 + sm2G18.1) % sm2P256.N + 7))
                % sm2P256.N) } := by
  decide!

/-- C21, as amended: `CoopSign` makes no check on the value of `e`. For every
`e` of 32 bytes it does not return `ErrInvalidE`, and what it returns depends
on `e` through its value modulo `n` only: a value outside `[0, n)` is reduced
modulo `n`. -/
theorem digest_is_reduced_mod_order (C : Curve) (rk2 rk3 : Option Nat)
    (d q1 e : List Byte) :
    (e.length = 32 → CoopSign C rk2 rk3 d q1 e ≠ .error .ErrInvalidE) ∧
    (∀ e1 : List Byte, e.length = 32 → e1.length = 32 →
      SetBytes e % C.N = SetBytes e1 % C.N →
      CoopSign C rk2 rk3 d q1 e = CoopSign C rk2 rk3 d q1 e1) := by
  constructor
  · intro he h
    have h1 := (CoopSign_invalidE_iff C rk2 rk3 d q1 e).1 h
    exact h1.2 he
  · intro e1 he he1 h
    exact CoopSign_digest_mod C rk2 rk3 d q1 e e1 he he1 h

theorem digest_is_reduced_mod_order_witness :
    CoopSign toyCurve (some 2) (some 3) (Bytes 5) (encodePoint 1 3) (make 31 ++ [11])
      = CoopSign toyCurve (some 2) (some 3) (Bytes 5) (encodePoint 1 3) (make 31 ++ [4]) :=
  (digest_is_reduced_mod_order toyCurve (some 2) (some 3) (Bytes 5) (encodePoint 1 3)
    (make 31 ++ [11])).2 (make 31 ++ [4]) (by decide) (by decide) (by decide)

/-- C24, inputs on which the claim fails, on the SM2 curve with `Q1 = G` and
the draws `k2 = 7`, `k3 = 11` (so `x1` is the x-coordinate of `18·G`): for
`e = n − x1` the result has `r = 0`, written as the empty byte string, and for
`e = n − 7 − x1` it has `r + k2 = n` and `s3 = 0`; both are returned. -/
theorem degenerate_draw_returned :
    sm2P256.ScalarBaseMult (Bytes 18) = some sm2G18 ∧
    (Bytes (sm2P256.N - sm2G18.1)).length = 32 ∧
    (Bytes (sm2P256.N - 7 - sm2G18.1)).length = 32 ∧
    CoopSign sm2P256 (some 7) (some 11) (Bytes sm2D2Inv) (encodePoint sm2G.1 sm2G.2)
        (Bytes (sm2P256.N - sm2G18.1))
      = .ok { R := [], S2 := Bytes ((sm2D2Inv * 11) % sm2P256.N),
              S3 := Bytes ((sm2D2Inv * 7) % sm2P256.N) } ∧
    CoopSign sm2P256 (some 7) (some 11) (Bytes sm2D2Inv) (encodePoint sm2G.1 sm2G.2)
        (Bytes (sm2P256.N - 7 - sm2G18.1))
      = .ok { R := Bytes (sm2P256.N - 7), S2 := Bytes ((sm2D2Inv * 11) % sm2P256.N),
              S3 := [] } := by
  decide!

/-- C24, as amended: `CoopSign` draws `k2` and `k3` once and makes no check on
`r`. Whenever the two draws succeed and the calls of the library return, it
returns the `(r, s2, s3)` computed from these draws, whatever their values:
also when `r = 0`, which it writes as the empty byte string, and when
`r + k2 ≡ 0 (mod n)`, where `s3` is the empty byte string. -/
theorem sign_returns_single_draw (C : Curve) (k2 k3 : Nat) (d q1 e : List Byte)
    (q2 x1 x : Nat × Nat) (hq : q1.length = 64) (he : e.length = 32)
    (h1 : C.ScalarBaseMult (Bytes k2) = some q2)
    (h2 : C.ScalarMult (SetBytes (slice q1 0 32)) (SetBytes (slice q1 32 64)) (Bytes k3)
      = some x1)
    (h3 : C.Add x1.1 x1.2 q2.1 q2.2 = some x) :
    ∃ res, CoopSign C (some k2) (some k3) d q1 e = .ok res ∧
      res.R = Bytes ((SetBytes e + x.1) % C.N) ∧
      res.S2 = Bytes ((SetBytes d * k3) % C.N) ∧
      res.S3 = Bytes ((SetBytes d * ((SetBytes e + x.1) % C.N + k2)) % C.N) ∧
      ((SetBytes e + x.1) % C.N = 0 → res.R = []) ∧
      (((SetBytes e + x.1) % C.N + k2) % C.N = 0 → res.S3 = []) := by
  refine ⟨_, CoopSign_of_library C k2 k3 d q1 e q2 x1 x hq he h1 h2 h3, rfl, rfl, rfl, ?_, ?_⟩
  · intro h
    show Bytes ((SetBytes e + x.1) % C.N) = []
    rw [h]
    rfl
  · intro h
    show Bytes ((SetBytes d * ((SetBytes e + x.1) % C.N + k2)) % C.N) = []
    rw [Nat.mul_mod, h, Nat.mul_zero, Nat.zero_mod]
    rfl

theorem sign_returns_single_draw_witness :
    ∃ res, CoopSign toyCurve (some 3) (some 2) (Bytes 5) (encodePoint 1 3) (make 31 ++ [4])
        = .ok res ∧
      res.R = Bytes ((SetBytes (make 31 ++ [4]) + ((3, 3) : Nat × Nat).1) % toyCurve.N) ∧
      res.S2 = Bytes ((SetBytes (Bytes 5) * 2) % toyCurve.N) ∧
      res.S3 = Bytes ((SetBytes (Bytes 5) *
        ((SetBytes (make 31 ++ [4]) + ((3, 3) : Nat × Nat).1) % toyCurve.N + 3)) % toyCurve.N) ∧
      ((SetBytes (make 31 ++ [4]) + ((3, 3) : Nat × Nat).1) % toyCurve.N = 0 → res.R = []) ∧
      (((SetBytes (make 31 ++ [4]) + ((3, 3) : Nat × Nat).1) % toyCurve.N + 3) % toyCurve.N = 0 →
        res.S3 = []) :=
  sign_returns_single_draw toyCurve 3 2 (Bytes 5) (encodePoint 1 3) (make 31 ++ [4])
    (0, 4) (3, 2) (3, 3) (by decide) (by decide) (by decide) (by decide) (by decide)

theorem CoopSign_ok_S2 (C : Curve) (k2 k3 : Nat) (d q1 e : List Byte)
    (res : SM2CoopSignResult) (h : CoopSign C (some k2) (some k3) d q1 e = .ok res) :
    res.S2 = Bytes ((SetBytes d * k3) % C.N) := by
  unfold CoopSign at h
  by_cases hq : q1.length ≠ 64
  · rw [if_pos hq] at h
    cases h
  · rw [if_neg hq] at h
    by_cases he : e.length ≠ 32
    · rw [if_pos he] at h
      cases h
    · rw [if_neg he] at h
      dsimp only at h
      cases h1 : C.ScalarBaseMult (Bytes k2) with
      | none => rw [h1] at h; cases h
      | some q2 =>
        obtain ⟨q2X, q2Y⟩ := q2
        rw [h1] at h
        dsimp only at h
        cases h2 : C.ScalarMult (SetBytes (slice q1 0 32)) (SetBytes (slice q1 32 64))
            (Bytes k3) with
        | none => rw [h2] at h; cases h
        | some x1 =>
          obtain ⟨x1X, x1Y⟩ := x1
          rw [h2] at h
          dsimp only at h
          cases h3 : C.Add x1X x1Y q2X q2Y with
          | none => rw [h3] at h; cases h
          | some x =>
            obtain ⟨xX, xY⟩ := x
            rw [h3] at h
            cases h
            rfl

/-- C25, an input on which the claim fails: 0 is in the range `[0, n)` of
`rand.Int(rand.Reader, N)`, and with the draws `k2 = 0` and `k3 = 0`
`CoopSign` on the SM2 curve uses them as they are: it returns `r = e mod n`,
`s2 = 0` and `s3 = d2_inv · r mod n`. -/
theorem zero_nonce_used :
    DrawInRange sm2P256 (some 0) ∧
    CoopSign sm2P256 (some 0) (some 0) (Bytes sm2D2Inv) (encodePoint sm2G.1 sm2G.2) sm2E
      = .ok { R := Bytes (SetBytes sm2E % sm2P256.N), S2 := [],
              S3 := Bytes ((sm2D2Inv * (SetBytes sm2E % sm2P256.N)) % sm2P256.N) } ∧
    CoopSign sm2P256 (some 7) (some 0) (Bytes sm2D2Inv) (encodePoint sm2G.1 sm2G.2) sm2E
      = .ok { R := Bytes ((SetBytes sm2E + sm2G7.1) % sm2P256.N), S2 := [],
              S3 := Bytes ((sm2D2Inv * ((SetBytes sm2E + sm2G7.1) % sm2P256.N + 7))
                % sm2P256.N) } := by
  refine ⟨?_, ?_⟩
  · intro d h
    cases h
    decide
  · decide!

/-- C25, as amended: the engine uses each draw as `rand.Int(rand.Reader, N)`
returns it, in `[0, n − 1]`, and does not exclude 0 as a nonce. With the draw
`k3 = 0` every result of `CoopSign` has `s2 = 0` (the empty byte string), and
the draw `k2 = 0` is used like any other: the result is computed from
`k2·G`, `s2 = d2_inv · k3` and `s3 = d2_inv · (r + 0)`. The `d2` of every
result `CoopKeyGenInit` returns is the draw and lies in `[1, n − 1]`: 0 is
never returned as a share. -/
theorem zero_draw_not_excluded (C : Curve) (hN : 1 < C.N) :
    (∀ (k2 : Nat) (d q1 e : List Byte) (res : SM2CoopSignResult),
      CoopSign C (some k2) (some 0) d q1 e = .ok res → res.S2 = []) ∧
    (∀ (k3 : Nat) (d q1 e : List Byte) (q2 x1 x : Nat × Nat),
      q1.length = 64 → e.length = 32 → C.ScalarBaseMult (Bytes 0) = some q2 →
      C.ScalarMult (SetBytes (slice q1 0 32)) (SetBytes (slice q1 32 64)) (Bytes k3)
        = some x1 →
      C.Add x1.1 x1.2 q2.1 q2.2 = some x →
      CoopSign C (some 0) (some k3) d q1 e
        = .ok { R := Bytes ((SetBytes e + x.1) % C.N),
                S2 := Bytes ((SetBytes d * k3) % C.N),
                S3 := Bytes ((SetBytes d * ((SetBytes e + x.1) % C.N + 0)) % C.N) }) ∧
    (∀ (rnd : Option Nat) (p1 : List Byte) (res : SM2CoopKeyGenResult),
      DrawInRange C rnd → CoopKeyGenInit C rnd p1 = .ok res →
      ∃ d2, rnd = some d2 ∧ 1 ≤ d2 ∧ d2 < C.N ∧ res.D2 = Bytes d2) := by
  have hpos : 0 < C.N := by omega
  have hzero : ModInverse 0 C.N = none := by
    apply ModInverse_eq_none 0 C.N hpos
    rw [Nat.gcd_zero_left]
    omega
  refine ⟨?_, ?_, ?_⟩
  · intro k2 d q1 e res h
    rw [CoopSign_ok_S2 C k2 0 d q1 e res h, Nat.mul_zero, Nat.zero_mod]
    rfl
  · intro k3 d q1 e q2 x1 x hq he h1 h2 h3
    exact CoopSign_of_library C 0 k3 d q1 e q2 x1 x hq he h1 h2 h3
  · intro rnd p1 res hr h
    obtain ⟨d2, d2Inv, hrnd, hinv, hD2, _⟩ := CoopKeyGenInit_ok_inv C rnd p1 res h
    refine ⟨d2, hrnd, ?_, hr d2 hrnd, hD2⟩
    rcases Nat.eq_zero_or_pos d2 with h0 | h0
    · rw [h0, hzero] at hinv
      cases hinv
    · exact h0

theorem zero_draw_not_excluded_witness :
    (CoopSign toyCurve (some 2) (some 0) (Bytes 5) (encodePoint 1 3) (make 32)
        = .ok { R := Bytes 3, S2 := [], S3 := Bytes 4 } ∧
      ({ R := Bytes 3, S2 := [], S3 := Bytes 4 } : SM2CoopSignResult).S2 = []) ∧
    CoopSign toyCurve (some 0) (some 3) (Bytes 5) (encodePoint 1 3) (make 32)
      = .ok { R := Bytes ((SetBytes (make 32) + 0) % toyCurve.N),
              S2 := Bytes ((SetBytes (Bytes 5) * 3) % toyCurve.N),
              S3 := Bytes ((SetBytes (Bytes 5) * ((SetBytes (make 32) + 0) % toyCurve.N + 0))
                % toyCurve.N) } ∧
    (CoopKeyGenInit toyCurve (some 3) (encodePoint 1 3)
        = .ok { D2 := Bytes 3, D2Inv := Bytes 5, P2 := putPoint (3, 3),
                Pa := putPoint (0, 1) } ∧
      ∃ d2, some 3 = some d2 ∧ 1 ≤ d2 ∧ d2 < toyCurve.N ∧
        ({ D2 := Bytes 3, D2Inv := Bytes 5, P2 := putPoint (3, 3), Pa := putPoint (0, 1) }
          : SM2CoopKeyGenResult).D2 = Bytes d2) := by
  have hs : CoopSign toyCurve (some 2) (some 0) (Bytes 5) (encodePoint 1 3) (make 32)
      = .ok { R := Bytes 3, S2 := [], S3 := Bytes 4 } := by decide
  have hk : CoopKeyGenInit toyCurve (some 3) (encodePoint 1 3)
      = .ok { D2 := Bytes 3, D2Inv := Bytes 5, P2 := putPoint (3, 3),
              Pa := putPoint (0, 1) } := by decide
  exact
    ⟨⟨hs, (zero_draw_not_excluded toyCurve (by decide)).1 2 (Bytes 5) (encodePoint 1 3)
        (make 32) { R := Bytes 3, S2 := [], S3 := Bytes 4 } hs⟩,
     (zero_draw_not_excluded toyCurve (by decide)).2.1 3 (Bytes 5) (encodePoint 1 3) (make 32)
        (0, 0) (0, 4) (0, 4) (by decide) (by decide) (by decide) (by decide) (by decide),
     ⟨hk, (zero_draw_not_excluded toyCurve (by decide)).2.2 (some 3) (encodePoint 1 3)
        { D2 := Bytes 3, D2Inv := Bytes 5, P2 := putPoint (3, 3), Pa := putPoint (0, 1) }
        (fun d h => by cases h; decide) hk⟩⟩

/-! ### Registration checks and the public key of the user record -/

/-- C22, inputs on which the code fails: a registration with a username and a
password of two characters, and one with a username of 33 and a password of 65
characters, do not satisfy the `validate` tags of `RegisterRequest`; the
handler passes both to `Register`, which answers with code 0 and creates the
user, its share and the audit record. -/
theorem short_credentials_registered :
    shortRegister.validate = false ∧
    (shortRegister.Username.length = 2 ∧ shortRegister.Password.length = 2) ∧
    UserHandler.Register toyCurve paddedHash sampleWorld sampleCtx (some shortRegister) emptyDB
      = .response
          { Code := 0,
            Data := some { UserID := "id-0", PublicKey := EncodeToBase64 (putPoint (0, 1)),
                           P2 := EncodeToBase64 (putPoint (3, 3)) } }
          { users := [{ ID := "id-0", Username := "ab",
                        PasswordHash := specVerifier paddedHash (make 16) "pw",
                        PublicKey := EncodeToBase64 (putPoint (0, 1)),
                        Status := UserStatusEnabled }],
            keys := [sampleKey 3 5 (putPoint (0, 1))],
            sessions := [],
            auditLogs := [registerAudit sampleWorld shortRegister "10.0.0.1"] } ∧
    longRegister.validate = false ∧
    (longRegister.Username.length = 33 ∧ longRegister.Password.length = 65) ∧
    (UserHandler.Register toyCurve paddedHash sampleWorld sampleCtx (some longRegister)
        emptyDB).code = some 0 ∧
    (UserHandler.Register toyCurve paddedHash sampleWorld sampleCtx (some longRegister)
        emptyDB).db.users.map User.Username = [longRegister.Username] := by
  decide

/-- C26, a reachable store on which the claim fails: `alice` registers over
the toy curve and then calls `KeyInit`, which succeeds and returns the new
cooperative public key `3·G`; her share carries that key, and her user record,
which `GetUserInfo` returns, still carries the public key `4·G` of the
registration. -/
theorem user_record_keeps_old_public_key :
    Reachable toyCurve paddedHash rekeyedAliceDB ∧
    (UserService.Register toyCurve paddedHash sampleWorld emptyDB aliceRegister "10.0.0.1").db
      = aliceDB ∧
    CosignService.KeyInit toyCurve { sampleWorld with rand1 := some 2 } aliceDB
        { UserID := "id-0", P1 := EncodeToBase64 (encodePoint 1 3) } "10.0.0.1"
      = .ret (some { P2 := EncodeToBase64 (putPoint (0, 1)),
                     PublicKey := EncodeToBase64 (putPoint (0, 4)) })
          0 rekeyedAliceDB ∧
    (KeyRepository.FindByUserID sampleWorld rekeyedAliceDB "id-0").map Key.PublicKey
      = some (EncodeToBase64 (putPoint (0, 4))) ∧
    UserService.GetUserInfo sampleWorld rekeyedAliceDB "id-0" = (some aliceUser, 0) ∧
    UserHandler.GetUserInfo sampleWorld { sampleCtx with userID := some "id-0" } rekeyedAliceDB
      = .response (Success aliceUser) rekeyedAliceDB ∧
    aliceUser.PublicKey = EncodeToBase64 (putPoint (0, 1)) ∧
    EncodeToBase64 (putPoint (0, 1)) ≠ EncodeToBase64 (putPoint (0, 4)) := by
  have h1 : (UserService.Register toyCurve paddedHash sampleWorld emptyDB aliceRegister
      "10.0.0.1").db = aliceDB := by decide
  have h2 : (CosignService.KeyInit toyCurve { sampleWorld with rand1 := some 2 } aliceDB
      { UserID := "id-0", P1 := EncodeToBase64 (encodePoint 1 3) } "10.0.0.1").db
      = rekeyedAliceDB := by decide
  have r1 : Reachable toyCurve paddedHash aliceDB :=
    h1 ▸ Reachable.register sampleWorld emptyDB aliceRegister "10.0.0.1" Reachable.init
      (fun k hk => by simp [emptyDB] at hk)
  have r2 : Reachable toyCurve paddedHash rekeyedAliceDB :=
    h2 ▸ Reachable.keyInit { sampleWorld with rand1 := some 2 } aliceDB
      { UserID := "id-0", P1 := EncodeToBase64 (encodePoint 1 3) } "10.0.0.1" r1
  exact ⟨r2, h1, by decide, by decide, by decide, by decide, by decide, by decide⟩

/-! ### The private scalar behind the cooperative public key -/

/-- Two multiples of the base point are equal exactly when the scalars are
congruent modulo the order. -/
theorem nsmul_G_eq_iff {Pt : Type} [AddCommGroup Pt] {C : Curve} {M : PointModel Pt}
    (L : CurveLaws C M) (a b : Nat) : a • M.G = b • M.G ↔ a % C.N = b % C.N := by
  constructor
  · intro h
    have hdvd : addOrderOf M.G ∣ C.N := addOrderOf_dvd_of_nsmul_eq_zero (L.order_N M.G)
    have hord : addOrderOf M.G = C.N := by
      rcases (Nat.dvd_prime L.prime_N).1 hdvd with h1 | h1
      · exact absurd (AddMonoid.addOrderOf_eq_one_iff.1 h1) L.G_ne_zero
      · exact h1
    have hm := nsmul_eq_nsmul_iff_modEq.1 h
    rw [hord] at hm
    exact hm
  · intro h
    exact nsmul_congr_order L h M.G

theorem inverse_eq_self_iff {n x w : Nat} (hx : (x * w) % n = 1) (hn : 1 < n) :
    w % n = x % n ↔ (x * x) % n = 1 := by
  have h1 : ((x : ZMod n) * (w : ZMod n)) = 1 := by
    have : ((x * w : Nat) : ZMod n) = ((1 : Nat) : ZMod n) := by
      rw [ZMod.natCast_eq_natCast_iff', hx, Nat.mod_eq_of_lt hn]
    simpa using this
  have e1 : w % n = x % n ↔ (w : ZMod n) = (x : ZMod n) :=
    (ZMod.natCast_eq_natCast_iff' w x n).symm
  have e2 : (x * x) % n = 1 ↔ ((x : ZMod n) * (x : ZMod n)) = 1 := by
    have : (x * x) % n = 1 ↔ (x * x) % n = 1 % n := by rw [Nat.mod_eq_of_lt hn]
    rw [this, ← ZMod.natCast_eq_natCast_iff']
    simp
  rw [e1, e2]
  constructor
  · intro h
    rw [← h] at h1
    rw [← h]
    have : (w : ZMod n) * (w : ZMod n) = 1 := h1
    exact this
  · intro h
    calc (w : ZMod n) = (w : ZMod n) * ((x : ZMod n) * (x : ZMod n)) := by rw [h, mul_one]
      _ = ((x : ZMod n) * (w : ZMod n)) * (x : ZMod n) := by ring
      _ = (x : ZMod n) := by rw [h1, one_mul]

/-- C23, an input on which the claim fails: on the SM2 curve with `d1 = 2`,
`P1 = d1⁻¹·G` and the draw `d2 = 5`, `CoopKeyGenInit` returns the `Pa` that
encodes `((d1·d2)⁻¹ − 1)·G`, which is not `(d1·d2 − 1)·G = 9·G`. -/
theorem public_key_scalar_is_not_product :
    (2 * sm2D1Inv) % sm2P256.N = 1 ∧
    sm2P256.ScalarBaseMult (Bytes sm2D1Inv) = some sm2P1 ∧
    (2 * 5 * sm2TenInv) % sm2P256.N = 1 ∧
    CoopKeyGenInit sm2P256 (some 5) (encodePoint sm2P1.1 sm2P1.2)
      = .ok { D2 := Bytes 5, D2Inv := Bytes sm2D2Inv,
              P2 := encodePoint
                0x72936d2249f780f2f4a4a5d0fe1155c52284cad00a1bb942be0ccc8dd6e75d52
                0x6de2438f9123a7481f7af4b70ed122849ba9ccd190fa1e6df849df8be0c09c30,
              Pa := encodePoint sm2Pa.1 sm2Pa.2 } ∧
    sm2P256.ScalarBaseMult (Bytes (sm2TenInv - 1)) = some sm2Pa ∧
    sm2P256.ScalarBaseMult (Bytes (2 * 5 - 1)) = some sm2G9 ∧
    sm2G9 ≠ sm2Pa ∧
    encodePoint sm2Pa.1 sm2Pa.2 ≠ encodePoint sm2G9.1 sm2G9.2 := by
  decide!

/-- C23, as amended: for every client scalar `d1` with `P1 = d1⁻¹·G` and every
draw `d2` in `[1, n − 1]`, with `w` the inverse of `d1·d2` modulo `n`, the
point `CoopKeyGenInit` writes as `Pa` is `d·G` for `d = (w − 1) mod n`, the
scalar with `(d + 1)·d1·d2 ≡ 1 (mod n)`; it is the point `(d1·d2 − 1)·G` only
when `(d1·d2)² ≡ 1 (mod n)`. The bytes are those the code writes for the point
(the encoding when both coordinates have full width). -/
theorem implicit_private_scalar {Pt : Type} [AddCommGroup Pt] (C : Curve)
    (M : PointModel Pt) (L : CurveLaws C M) (p1 : List Byte) (d1 d1Inv d2 w : Nat)
    (hlen : p1.length = 64) (hP : decodePoint p1 = M.affine (d1Inv • M.G))
    (h1 : (d1 * d1Inv) % C.N = 1) (hd2 : 1 ≤ d2) (hd2N : d2 < C.N)
    (hw : (d1 * d2 * w) % C.N = 1) :
    ∃ r, CoopKeyGenInit C (some d2) p1 = .ok r ∧
      r.Pa = putPoint (M.affine (((w + (C.N - 1)) % C.N) • M.G)) ∧
      ((d1 * d2) * ((w + (C.N - 1)) % C.N + 1)) % C.N = 1 ∧
      (((w + (C.N - 1)) % C.N) • M.G = ((d1 * d2 + (C.N - 1)) % C.N) • M.G
        ↔ (d1 * d2 * (d1 * d2)) % C.N = 1) := by
  have hN : 1 < C.N := L.prime_N.one_lt
  obtain ⟨r, hr, hPa, _⟩ :=
    CoopKeyGenInit_public_key C M L p1 d1 d1Inv d2 w hlen hP h1 hd2 hd2N hw
  have hpt : w • M.G - M.G = ((w + (C.N - 1)) % C.N) • M.G := by
    rw [nsmul_mod_order L, add_nsmul, pred_order_nsmul L, sub_eq_add_neg]
  have hsucc : ((w + (C.N - 1)) % C.N + 1) % C.N = w % C.N := by
    rw [Nat.add_mod ((w + (C.N - 1)) % C.N) 1, Nat.mod_mod, ← Nat.add_mod]
    have : w + (C.N - 1) + 1 = w + C.N := by omega
    rw [this, Nat.add_mod_right]
  refine ⟨r, hr, ?_, ?_, ?_⟩
  · rw [hPa, hpt]
  · rw [Nat.mul_mod, hsucc, ← Nat.mul_mod]
    exact hw
  · rw [nsmul_G_eq_iff L, Nat.mod_mod, Nat.mod_mod, ← inverse_eq_self_iff hw hN]
    constructor
    · intro h
      exact Nat.ModEq.add_right_cancel' (C.N - 1) h
    · intro h
      exact Nat.ModEq.add_right (C.N - 1) h

theorem implicit_private_scalar_witness :
    ∃ r, CoopKeyGenInit toyCurve (some 2) (encodePoint 0 1) = .ok r ∧
      r.Pa = putPoint (toyModel.affine (((2 + (toyCurve.N - 1)) % toyCurve.N) • toyModel.G)) ∧
      ((2 * 2) * ((2 + (toyCurve.N - 1)) % toyCurve.N + 1)) % toyCurve.N = 1 ∧
      (((2 + (toyCurve.N - 1)) % toyCurve.N) • toyModel.G
          = ((2 * 2 + (toyCurve.N - 1)) % toyCurve.N) • toyModel.G
        ↔ (2 * 2 * (2 * 2)) % toyCurve.N = 1) :=
  implicit_private_scalar toyCurve toyModel toyLaws (encodePoint 0 1) 2 4 2 2
    (by decide) (by decide) (by decide) (by decide) (by decide) (by decide)

/-! ### The database directory -/

/-- On a path that ends in `/cosign.db` the directory `InitDB` derives is the
parent directory. -/
theorem InitDBDir_cosign (dir : List Byte) :
    InitDBDir (dir ++ stringBytes "/cosign.db") = some dir ∧
    specParentDir (dir ++ stringBytes "/cosign.db") = dir := by
  have hs : stringBytes "/cosign.db"
      = [toByte 47, toByte 99, toByte 111, toByte 115, toByte 105, toByte 103, toByte 110,
         toByte 46, toByte 100, toByte 98] := by decide
  have hl : (stringBytes "/cosign.db").length = 10 := by decide
  constructor
  · unfold InitDBDir
    rw [List.length_append, hl, if_neg (by omega)]
    simp
  · unfold specParentDir
    rw [hs]
    simp [List.dropWhile, toByte]

/-- C27, inputs on which the code fails: for the paths `data.db` and
`cosign.db`, shorter than `/cosign.db`, the bound of the slice is negative and
`InitDB` panics; for `/var/lib/app/main.sqlite` the directory derived is
`/var/lib/app/m`, not the parent directory `/var/lib/app`. For
`./data/cosign.db` it is the parent directory `./data`. -/
theorem database_directory_miscomputed :
    InitDBDir (stringBytes "data.db") = none ∧
    InitDBDir (stringBytes "cosign.db") = none ∧
    InitDBDir (stringBytes "/var/lib/app/main.sqlite") = some (stringBytes "/var/lib/app/m") ∧
    specParentDir (stringBytes "/var/lib/app/main.sqlite") = stringBytes "/var/lib/app" ∧
    stringBytes "/var/lib/app/m" ≠ stringBytes "/var/lib/app" ∧
    InitDBDir (stringBytes "./data/cosign.db") = some (stringBytes "./data") ∧
    specParentDir (stringBytes "./data/cosign.db") = stringBytes "./data" := by
  decide

end SM2Cosign
